import Mathlib

/-!
# Template resolution and patch application

A shallow embedding of `pkg/provisioners/util.go` of the service broker: the resolution of
template parameters against a registry entry, the generators, and the loop of `patchObject`
that turns resolved values into registry writes and JSON patches.

Conventions of the embedding.

* A Go `interface{}` is a `Value`; the nil interface is `Value.nil`.
* A Go call that returns `(x, error)` is an `Except Error x`; calls that can write to the
  registry entry, draw random numbers or recurse into `renderTemplate` also return the
  state they leave behind, on failure as well as on success.
* Go strings and byte slices that hold text are `String`s.  Where the code counts or slices
  bytes (`len`, `s[i:i+1]`) the embedding works on the bytes of the UTF-8 encoding, and a
  string that comes out of it comes back as a `String` when its bytes are text; a string
  whose bytes are not valid UTF-8 is no value of the embedding and ends the run with the
  mark `Error.notText`, which records the bytes.  The packages `encoding/json`,
  `go-openapi/jsonpointer`, `crypto/rand` and `strings` are modelled below as far as the
  code uses them; `fmt.Sprintf` on a caller supplied format, the key and certificate
  generators of `pkg/util` and the JSON patch library are fields of `Env`.
-/

set_option autoImplicit false

namespace Provisioners

/-! ## Errors -/

/-- Abnormal outcomes of a call.  The first three are Go `error` values: the two kinds built by
`pkg/errors` and every other error (`fmt.Errorf`, library errors).  `panic` is a run-time
panic and `unterminated` marks a recursion that did not finish within the depth given to
`renderTemplate`; neither is a value the Go code returns.  `notText` marks a run in which the
code produced a string whose bytes, recorded in the mark, are not valid UTF-8: the code goes
on with that string, the embedding, whose strings are text, does not follow it. -/
inductive Error where
  | parameterError (msg : String)
  | configurationError (msg : String)
  | generic (msg : String)
  | panic (msg : String)
  | unterminated
  | notText (bytes : List Nat)
  deriving DecidableEq, Repr

/-- The text of an error, `err.Error()`. -/
def Error.message : Error → String
  | .parameterError msg => msg
  | .configurationError msg => msg
  | .generic msg => msg
  | .panic msg => msg
  | .unterminated => ""
  | .notText _ => ""

/-! ## Values and `encoding/json` -/

/-- Digit test on a character. -/
def isDigit (c : Char) : Bool := decide (48 ≤ c.toNat) && decide (c.toNat ≤ 57)

/-- Characters that can occur in a JSON number literal. -/
def isNumberChar (c : Char) : Bool :=
  isDigit c || c == '-' || c == '+' || c == '.' || c == 'e' || c == 'E'

/-- Integer part of a JSON number: a single zero, or digits that do not start with zero. -/
def validIntPart : List Char → Bool
  | [] => false
  | c :: rest => if c = '0' then rest.isEmpty else true

/-- Exponent part of a JSON number, or nothing. -/
def validExpPart : List Char → Bool
  | [] => true
  | e :: rest =>
    (e == 'e' || e == 'E') &&
      (match rest with
        | [] => false
        | s :: ds => if s = '+' ∨ s = '-' then !ds.isEmpty && ds.all isDigit
                     else (s :: ds).all isDigit)

/-- Fraction and exponent part of a JSON number, or nothing. -/
def validFracExp : List Char → Bool
  | [] => true
  | c :: rest =>
    if c = '.' then !(rest.takeWhile isDigit).isEmpty && validExpPart (rest.dropWhile isDigit)
    else validExpPart (c :: rest)

/-- The grammar of a JSON number after the optional minus sign. -/
def validUnsigned (cs : List Char) : Bool :=
  validIntPart (cs.takeWhile isDigit) && validFracExp (cs.dropWhile isDigit)

/-- A well formed JSON number literal (RFC 8259, section 6). -/
def isNumber (cs : List Char) : Bool :=
  cs.all isNumberChar &&
    (match cs with
      | [] => false
      | c :: rest => if c = '-' then validUnsigned rest else validUnsigned (c :: rest))

/-- A JSON number by its literal.  In a document the literal is the one written there; in a Go
value, where the number is a `float64`, it is the literal `json.Marshal` writes for that
`float64`, so that two numbers of Go values are equal exactly when the `float64`s are
(`float64Number` below takes the one to the other). -/
structure Number where
  text : List Char
  valid : isNumber text = true

/-- A Go `interface{}` as the code sees it: nil, the results of `json.Unmarshal` into an empty
interface (`bool`, `float64`, `string`, `[]interface{}`, `map[string]interface{}`) and a Go
`int` (from an integer default).  The members of an object are kept in document order and
a later member with the same key overrides an earlier one, as a Go map does. -/
inductive Value where
  | nil
  | bool (b : Bool)
  | int (i : Int)
  | number (n : Number)
  | string (s : String)
  | array (xs : List Value)
  | object (members : List (String × Value))

/-- The character of a decimal digit. -/
def digitChar (d : Nat) : Char := Char.ofNat (48 + d)

/-- Decimal digits of a natural number, most significant first, in front of `acc`. -/
def decimalAux : Nat → Nat → List Char → List Char
  | 0, _, acc => acc
  | fuel + 1, n, acc =>
    if n < 10 then digitChar n :: acc
    else decimalAux fuel (n / 10) (digitChar (n % 10) :: acc)

/-- Decimal text of a natural number. -/
def decimal (n : Nat) : List Char := decimalAux (n + 1) n []

/-- Decimal text of an integer, as `strconv` and `json.Marshal` print a Go `int`. -/
def decimalInt (i : Int) : List Char :=
  if i < 0 then '-' :: decimal i.natAbs else decimal i.natAbs

/-- A lower case hexadecimal digit. -/
def hexDigit (d : Nat) : Char := if d < 10 then Char.ofNat (48 + d) else Char.ofNat (87 + d)

/-- The four hexadecimal digits of a code unit. -/
def hex4 (n : Nat) : List Char :=
  [hexDigit (n / 4096 % 16), hexDigit (n / 256 % 16), hexDigit (n / 16 % 16), hexDigit (n % 16)]

/-- Whether `json.Marshal` writes the character as a six character unicode escape: control
characters without a short escape, the HTML characters and the two line separators. -/
def needsUnicodeEscape (c : Char) : Bool :=
  decide (c.toNat < 32) || c == '<' || c == '>' || c == '&' ||
    decide (c.toNat = 8232) || decide (c.toNat = 8233)

/-- How `json.Marshal` writes one character of a string. -/
def escapeChar (c : Char) : List Char :=
  if c = '"' then ['\\', '"']
  else if c = '\\' then ['\\', '\\']
  else if c = '\n' then ['\\', 'n']
  else if c = '\r' then ['\\', 'r']
  else if c = '\t' then ['\\', 't']
  else if needsUnicodeEscape c then '\\' :: 'u' :: hex4 c.toNat
  else [c]

/-- The body of a JSON string literal for the given characters. -/
def escape : List Char → List Char
  | [] => []
  | c :: cs => escapeChar c ++ escape cs

/-- A JSON string literal. -/
def encodeString (s : List Char) : List Char := '"' :: (escape s ++ ['"'])

mutual
/-- The text `json.Marshal` produces for a value (object members in the order kept). -/
def encode : Value → List Char
  | .nil => ['n', 'u', 'l', 'l']
  | .bool true => ['t', 'r', 'u', 'e']
  | .bool false => ['f', 'a', 'l', 's', 'e']
  | .int i => decimalInt i
  | .number n => n.text
  | .string s => encodeString s.data
  | .array xs => '[' :: (encodeElements xs ++ [']'])
  | .object ms => '\x7b' :: (encodeMembers ms ++ ['\x7d'])
/-- The elements of an array, separated by commas. -/
def encodeElements : List Value → List Char
  | [] => []
  | v :: vs =>
    match vs with
    | [] => encode v
    | _ :: _ => encode v ++ ',' :: encodeElements vs
/-- The members of an object, separated by commas. -/
def encodeMembers : List (String × Value) → List Char
  | [] => []
  | (k, v) :: ms =>
    match ms with
    | [] => encodeString k.data ++ ':' :: encode v
    | _ :: _ => encodeString k.data ++ ':' :: (encode v ++ ',' :: encodeMembers ms)
end

/-! ## `strconv.ParseFloat` and `strconv.AppendFloat` -/

/-- The number a run of decimal digits stands for. -/
def digitsNat (cs : List Char) : Nat := cs.foldl (fun acc c => acc * 10 + (c.toNat - 48)) 0

/-- The exponent of a number literal: what follows the `e`, with its sign. -/
def literalExponent : List Char → Int
  | [] => 0
  | _ :: rest =>
    match rest with
    | '-' :: ds => -(digitsNat ds : Int)
    | '+' :: ds => (digitsNat ds : Int)
    | ds => (digitsNat ds : Int)

/-- A decimal number `(-1)^negative * digits * 10^exponent`. -/
structure Decimal where
  negative : Bool
  digits : Nat
  exponent : Int

/-- The decimal number a well formed JSON number literal stands for. -/
def literalDecimal (cs : List Char) : Decimal :=
  let negative := cs.head? == some '-'
  let body := if negative then cs.tail else cs
  let whole := body.takeWhile isDigit
  let rest := body.dropWhile isDigit
  let fraction := if rest.head? == some '.' then rest.tail.takeWhile isDigit else []
  let rest1 := if rest.head? == some '.' then rest.tail.dropWhile isDigit else rest
  ⟨negative, digitsNat (whole ++ fraction), literalExponent rest1 - (fraction.length : Int)⟩

/-- The numerator and denominator of `n * base^p` for an integer power `p`. -/
def scaled (n base : Nat) (p : Int) : Nat × Nat :=
  if 0 ≤ p then (n * base ^ p.toNat, 1) else (n, base ^ (-p).toNat)

/-- The number of binary digits of a number, counted in steps of 64 digits and then of one;
`fuel` bounds the number of steps. -/
def bitLengthAux : Nat → Nat → Nat
  | 0, _ => 0
  | fuel + 1, n =>
    if n = 0 then 0
    else if 2 ^ 64 ≤ n then bitLengthAux fuel (n / 2 ^ 64) + 64
    else bitLengthAux fuel (n / 2) + 1

/-- The number of binary digits of a number: `2^(bitLength n - 1) ≤ n < 2^(bitLength n)` for a
number other than zero. -/
def bitLength (n : Nat) : Nat := bitLengthAux n n

/-- A finite `float64` other than zero, by its absolute value `mantissa * 2^exponent`:
`mantissa < 2^53`, `-1074 ≤ exponent ≤ 971`, and `2^52 ≤ mantissa` unless the exponent is the
least one (a subnormal number). -/
structure Float64 where
  mantissa : Nat
  exponent : Int
  deriving DecidableEq

/-- The `float64` nearest to the positive rational `num / den`, ties to the even mantissa, as
IEEE 754 and `strconv.ParseFloat` round: `none` when the rounded value is beyond the largest
`float64` (a range error); the mantissa is 0 when the value rounds to zero. -/
def roundFloat64 (num den : Nat) : Option Float64 :=
  let e0 : Int := (bitLength num : Int) - (bitLength den : Int) - 52
  let q0 := if 0 ≤ e0 then num / (den * 2 ^ e0.toNat) else num * 2 ^ (-e0).toNat / den
  let e1 : Int := if q0 < 2 ^ 52 then e0 - 1 else e0
  let e : Int := if e1 < -1074 then -1074 else e1
  let n := if 0 ≤ e then num else num * 2 ^ (-e).toNat
  let d := if 0 ≤ e then den * 2 ^ e.toNat else den
  let q := n / d
  let r := n % d
  let q1 := if d < 2 * r ∨ (2 * r = d ∧ q % 2 = 1) then q + 1 else q
  if q1 = 2 ^ 53 then
    if 971 < e + 1 then none else some ⟨2 ^ 52, e + 1⟩
  else if 971 < e then none else some ⟨q1, e⟩

/-- The `float64` a decimal number with digits other than zero rounds to.  A number at or
above `10^310` is beyond the range and one below `10^-400` rounds to zero, whatever its
digits; this keeps the powers of ten small. -/
def decimalFloat64 (digits : Nat) (exponent : Int) : Option Float64 :=
  let magnitude : Int := ((decimal digits).length : Int) + exponent
  if 310 < magnitude then none
  else if magnitude < -400 then some ⟨0, -1074⟩
  else roundFloat64 (scaled digits 10 exponent).1 (scaled digits 10 exponent).2

/-- The exponent `k` with `10^k ≤ num / den < 10^(k+1)`. -/
def floorLog10 (num den : Nat) : Int :=
  if den ≤ num then ((decimal (num / den)).length : Int) - 1
  else -((decimal ((den + num - 1) / num - 1)).length : Int)

/-- Drops the zeros at the end of a decimal number. -/
def stripZeros : Nat → Nat → Int → Nat × Int
  | 0, c, p => (c, p)
  | fuel + 1, c, p => if c % 10 = 0 ∧ c ≠ 0 then stripZeros fuel (c / 10) (p + 1) else (c, p)

/-- The shortest decimal number that `ParseFloat` reads back as the given `float64`, found as
`strconv` finds it: with `n` digits for the least `n` that allows it, counted up from the
given `n`; the digits are those of the exact value cut off after the `n`th, or that number
plus one, whichever reads back, and the nearer one (the even one at a tie) when both do.  When
the fuel is used up, at 17 digits, the nearer one is taken: 17 digits always read back. -/
def shortestDigits (f : Float64) (num den : Nat) (k : Int) : Nat → Nat → Nat × Int
  | 0, n =>
    let p : Int := k - (n : Int) + 1
    let sn := if 0 ≤ p then num else num * 10 ^ (-p).toNat
    let sd := if 0 ≤ p then den * 10 ^ p.toNat else den
    (if sd < 2 * (sn % sd) ∨ (2 * (sn % sd) = sd ∧ (sn / sd) % 2 = 1) then sn / sd + 1
      else sn / sd, p)
  | fuel + 1, n =>
    let p : Int := k - (n : Int) + 1
    let sn := if 0 ≤ p then num else num * 10 ^ (-p).toNat
    let sd := if 0 ≤ p then den * 10 ^ p.toNat else den
    let lo := sn / sd
    let r := sn % sd
    if r = 0 then (lo, p)
    else
      let down := decide (decimalFloat64 lo p = some f)
      let up := decide (decimalFloat64 (lo + 1) p = some f)
      if down && up then
        (if sd < 2 * r ∨ (2 * r = sd ∧ lo % 2 = 1) then lo + 1 else lo, p)
      else if down then (lo, p)
      else if up then (lo + 1, p)
      else shortestDigits f num den k fuel (n + 1)

/-- The digits and the decimal exponent of the shortest decimal number for a `float64` other
than zero: the value is `digits * 10^exponent` and the digits do not end in zero. -/
def Float64.shortest (f : Float64) : Nat × Int :=
  let num := (scaled f.mantissa 2 f.exponent).1
  let den := (scaled f.mantissa 2 f.exponent).2
  let found := shortestDigits f num den (floorLog10 num den) 16 1
  stripZeros 400 found.1 found.2

/-- A run of zeros. -/
def zeros (n : Nat) : List Char := List.replicate n '0'

/-- The format `%e` of `strconv` with the shortest digits: one digit, the others after a
point, and an exponent of at least two digits with its sign. -/
def formatE (digits : List Char) (exp10 : Int) : List Char :=
  let mantissa :=
    match digits with
    | [] => ['0']
    | d :: [] => [d]
    | d :: ds => d :: '.' :: ds
  let sign := if exp10 < 0 then '-' else '+'
  let e := decimal exp10.natAbs
  mantissa ++ 'e' :: sign :: (if e.length < 2 then '0' :: e else e)

/-- The format `%f` of `strconv` with the shortest digits; `point` is the number of digits in
front of the decimal point, which may be negative or exceed the number of digits. -/
def formatF (digits : List Char) (point : Int) : List Char :=
  if 0 < point then
    if digits.length ≤ point.toNat then digits ++ zeros (point.toNat - digits.length)
    else digits.take point.toNat ++ '.' :: digits.drop point.toNat
  else '0' :: '.' :: (zeros (-point).toNat ++ digits)

/-- The clean up of `encoding/json`: an exponent `e-0d` is written `e-d`. -/
def cleanExponent (text : List Char) : List Char :=
  match text.reverse with
  | d :: '0' :: '-' :: 'e' :: front => (d :: '-' :: 'e' :: front).reverse
  | _ => text

/-- Whether the first `float64` is less than the second. -/
def Float64.lt (f g : Float64) : Bool :=
  decide ((scaled f.mantissa 2 f.exponent).1 * (scaled g.mantissa 2 g.exponent).2 <
    (scaled g.mantissa 2 g.exponent).1 * (scaled f.mantissa 2 f.exponent).2)

/-- The text `json.Marshal` writes for a `float64` other than zero, without its sign: the
shortest digits, as `%e` with the exponent cleaned up when the number is less than `1e-6` or
not less than `1e21`, and as `%f` otherwise. -/
def Float64.text (f : Float64) : List Char :=
  let digits := decimal f.shortest.1
  let point : Int := (digits.length : Int) + f.shortest.2
  let small := match roundFloat64 1 (10 ^ 6) with
    | some limit => f.lt limit
    | none => false
  let large := match roundFloat64 (10 ^ 21) 1 with
    | some limit => !(f.lt limit)
    | none => false
  if small || large then cleanExponent (formatE digits (point - 1)) else formatF digits point

/-- The text `json.Marshal` writes for the `float64` that `json.Unmarshal` reads from a well
formed number literal: `none` when `strconv.ParseFloat` reports a range error. -/
def float64Text (cs : List Char) : Option (List Char) :=
  let sign := if (literalDecimal cs).negative then ['-'] else []
  if (literalDecimal cs).digits = 0 then some (sign ++ ['0'])
  else
    match decimalFloat64 (literalDecimal cs).digits (literalDecimal cs).exponent with
    | none => none
    | some f => if f.mantissa = 0 then some (sign ++ ['0']) else some (sign ++ f.text)

/-! ## The JSON decoder -/

/-- The number with the given literal, when the literal is well formed. -/
def Number.ofText (cs : List Char) : Option Number :=
  if h : isNumber cs = true then some ⟨cs, h⟩ else none

mutual
/-- The document that is read from the text `json.Marshal` writes for a value: the same
value, except that a Go `int` comes back as a number. -/
def canon : Value → Value
  | .nil => .nil
  | .bool b => .bool b
  | .int i =>
    match Number.ofText (decimalInt i) with
    | some n => .number n
    | none => .int i
  | .number n => .number n
  | .string s => .string s
  | .array xs => .array (canonElements xs)
  | .object ms => .object (canonMembers ms)
/-- `canon` on the elements of an array. -/
def canonElements : List Value → List Value
  | [] => []
  | v :: vs => canon v :: canonElements vs
/-- `canon` on the members of an object. -/
def canonMembers : List (String × Value) → List (String × Value)
  | [] => []
  | (k, v) :: ms => (k, canon v) :: canonMembers ms
end

/-- Model of `json.Marshal` on a value. -/
def jsonMarshal (v : Value) : String := String.mk (encode v)

/-- JSON white space. -/
def isSpace (c : Char) : Bool := c == ' ' || c == '\t' || c == '\n' || c == '\r'

/-- Drops leading white space. -/
def skipSpace : List Char → List Char
  | [] => []
  | c :: cs => if isSpace c then skipSpace cs else c :: cs

/-- Value of a hexadecimal digit. -/
def hexValue (c : Char) : Option Nat :=
  if 48 ≤ c.toNat ∧ c.toNat ≤ 57 then some (c.toNat - 48)
  else if 97 ≤ c.toNat ∧ c.toNat ≤ 102 then some (c.toNat - 87)
  else if 65 ≤ c.toNat ∧ c.toNat ≤ 70 then some (c.toNat - 55)
  else none

/-- Value of four hexadecimal digits. -/
def hexValue4 (a b c d : Char) : Option Nat :=
  match hexValue a, hexValue b, hexValue c, hexValue d with
  | some x, some y, some z, some w => some (((x * 16 + y) * 16 + z) * 16 + w)
  | _, _, _, _ => none

/-- The character of a short escape. -/
def shortEscape (e : Char) : Option Char :=
  if e = '"' then some '"'
  else if e = '\\' then some '\\'
  else if e = '/' then some '/'
  else if e = 'b' then some (Char.ofNat 8)
  else if e = 'f' then some (Char.ofNat 12)
  else if e = 'n' then some '\n'
  else if e = 'r' then some '\r'
  else if e = 't' then some '\t'
  else none

/-- Whether a code unit is a high surrogate. -/
def isHighSurrogate (n : Nat) : Bool := decide (55296 ≤ n) && decide (n < 56320)

/-- Whether a code unit is a low surrogate. -/
def isLowSurrogate (n : Nat) : Bool := decide (56320 ≤ n) && decide (n < 57344)

/-- The character of one unicode escape: the replacement character for a lone surrogate. -/
def unitChar (n : Nat) : Char :=
  if isHighSurrogate n || isLowSurrogate n then Char.ofNat 65533 else Char.ofNat n

/-- Adds decoded characters in front of a decoded string body. -/
def consChars (cs : List Char) : Option (List Char × List Char) → Option (List Char × List Char)
  | none => none
  | some (s, rest) => some (cs ++ s, rest)

/-- What a high surrogate that is not followed by a low one decodes to. -/
def flushSurrogate : Option Nat → List Char
  | none => []
  | some _ => [Char.ofNat 65533]

/-- Decodes a string literal after its opening quote: the characters and the text that follows
the closing quote.  `pending` is a high surrogate read by the escape just before. -/
def parseStringAux : Option Nat → List Char → Option (List Char × List Char)
  | _, [] => none
  | pending, c :: cs =>
    if c = '"' then some (flushSurrogate pending, cs)
    else if c = '\\' then
      match cs with
      | [] => none
      | e :: cs1 =>
        if e = 'u' then
          match cs1 with
          | h1 :: h2 :: h3 :: h4 :: cs2 =>
            match hexValue4 h1 h2 h3 h4 with
            | none => none
            | some n =>
              match pending with
              | some h =>
                if isLowSurrogate n then
                  consChars [Char.ofNat (65536 + (h - 55296) * 1024 + (n - 56320))]
                    (parseStringAux none cs2)
                else if isHighSurrogate n then
                  consChars [Char.ofNat 65533] (parseStringAux (some n) cs2)
                else consChars [Char.ofNat 65533, unitChar n] (parseStringAux none cs2)
              | none =>
                if isHighSurrogate n then parseStringAux (some n) cs2
                else consChars [unitChar n] (parseStringAux none cs2)
          | _ => none
        else
          match shortEscape e with
          | none => none
          | some x => consChars (flushSurrogate pending ++ [x]) (parseStringAux none cs1)
    else if c.toNat < 32 then none
    else consChars (flushSurrogate pending ++ [c]) (parseStringAux none cs)

/-- Decodes a string literal after its opening quote. -/
def parseStringBody (cs : List Char) : Option (List Char × List Char) := parseStringAux none cs

/-- Decodes a number literal at the head of the text: the longest run of number characters has
to be a well formed literal. -/
def parseNumber (cs : List Char) : Option (Value × List Char) :=
  match Number.ofText (cs.takeWhile isNumberChar) with
  | some n => some (.number n, cs.dropWhile isNumberChar)
  | none => none

/-- Adds a decoded element in front of decoded elements. -/
def consElement (v : Value) : Option (List Value × List Char) → Option (List Value × List Char)
  | none => none
  | some (vs, rest) => some (v :: vs, rest)

/-- Adds a decoded member in front of decoded members. -/
def consMember (k : List Char) (v : Value) :
    Option (List (String × Value) × List Char) → Option (List (String × Value) × List Char)
  | none => none
  | some (ms, rest) => some ((String.mk k, v) :: ms, rest)

mutual
/-- Decodes one JSON value at the head of the text; `fuel` bounds the depth of the calls. -/
def parseValue : Nat → List Char → Option (Value × List Char)
  | 0, _ => none
  | fuel + 1, cs =>
    match skipSpace cs with
    | [] => none
    | c :: rest =>
      if c = 'n' then
        match rest with
        | 'u' :: 'l' :: 'l' :: r => some (.nil, r)
        | _ => none
      else if c = 't' then
        match rest with
        | 'r' :: 'u' :: 'e' :: r => some (.bool true, r)
        | _ => none
      else if c = 'f' then
        match rest with
        | 'a' :: 'l' :: 's' :: 'e' :: r => some (.bool false, r)
        | _ => none
      else if c = '"' then
        match parseStringBody rest with
        | none => none
        | some (s, r) => some (.string (String.mk s), r)
      else if c = '[' then
        match skipSpace rest with
        | [] => none
        | d :: r =>
          if d = ']' then some (.array [], r)
          else
            match parseElements fuel (d :: r) with
            | none => none
            | some (vs, r1) => some (.array vs, r1)
      else if c = '\x7b' then
        match skipSpace rest with
        | [] => none
        | d :: r =>
          if d = '\x7d' then some (.object [], r)
          else
            match parseMembers fuel (d :: r) with
            | none => none
            | some (ms, r1) => some (.object ms, r1)
      else parseNumber (c :: rest)
/-- Decodes the elements of an array up to and including the closing bracket. -/
def parseElements : Nat → List Char → Option (List Value × List Char)
  | 0, _ => none
  | fuel + 1, cs =>
    match parseValue fuel cs with
    | none => none
    | some (v, r) =>
      match skipSpace r with
      | [] => none
      | d :: r1 =>
        if d = ',' then consElement v (parseElements fuel r1)
        else if d = ']' then some ([v], r1)
        else none
/-- Decodes the members of an object up to and including the closing brace. -/
def parseMembers : Nat → List Char → Option (List (String × Value) × List Char)
  | 0, _ => none
  | fuel + 1, cs =>
    match skipSpace cs with
    | [] => none
    | q :: r0 =>
      if q = '"' then
        match parseStringBody r0 with
        | none => none
        | some (k, r1) =>
          match skipSpace r1 with
          | [] => none
          | colon :: r2 =>
            if colon = ':' then
              match parseValue fuel r2 with
              | none => none
              | some (v, r3) =>
                match skipSpace r3 with
                | [] => none
                | d :: r4 =>
                  if d = ',' then consMember k v (parseMembers fuel r4)
                  else if d = '\x7d' then some ([(String.mk k, v)], r4)
                  else none
            else none
      else none
end

/-- The document a JSON text stands for, with its number literals as they are written
(`json.RawMessage`), or an error when the text is not exactly one JSON value.  The depth bound
is the length of the text, which no document exceeds. -/
def jsonDecode (text : String) : Except Error Value :=
  match parseValue (text.data.length + 1) text.data with
  | none => .error (.generic "invalid JSON")
  | some (v, rest) =>
    match skipSpace rest with
    | [] => .ok v
    | _ :: _ => .error (.generic "invalid character after top-level value")

/-- The number `json.Unmarshal` decodes a number literal to, a `float64`: `none` when the
literal is outside the range of `float64`. -/
def float64Number (n : Number) : Option Number :=
  match float64Text n.text with
  | none => none
  | some text => Number.ofText text

mutual
/-- The Go value of a document: every number literal decoded to a `float64`.  A literal
outside the range of `float64` is an `UnmarshalTypeError`; the first one in the document is
the error of the decoder. -/
def decodeNumbers : Value → Except Error Value
  | .nil => .ok .nil
  | .bool b => .ok (.bool b)
  | .int i => .ok (.int i)
  | .number n =>
    match float64Number n with
    | some m => .ok (.number m)
    | none =>
      .error (.generic ("json: cannot unmarshal number " ++ String.mk n.text ++
        " into Go value of type float64"))
  | .string s => .ok (.string s)
  | .array xs =>
    match decodeNumbersElements xs with
    | .error err => .error err
    | .ok ys => .ok (.array ys)
  | .object ms =>
    match decodeNumbersMembers ms with
    | .error err => .error err
    | .ok ns => .ok (.object ns)
/-- `decodeNumbers` on the elements of an array, in their order. -/
def decodeNumbersElements : List Value → Except Error (List Value)
  | [] => .ok []
  | v :: vs =>
    match decodeNumbers v with
    | .error err => .error err
    | .ok w =>
      match decodeNumbersElements vs with
      | .error err => .error err
      | .ok ws => .ok (w :: ws)
/-- `decodeNumbers` on the members of an object, in their order. -/
def decodeNumbersMembers : List (String × Value) → Except Error (List (String × Value))
  | [] => .ok []
  | (k, v) :: ms =>
    match decodeNumbers v with
    | .error err => .error err
    | .ok w =>
      match decodeNumbersMembers ms with
      | .error err => .error err
      | .ok ns => .ok ((k, w) :: ns)
end

/-- Model of `json.Unmarshal(text, &v)` for `v` an empty interface: the decoded value, or an
error when the text is not exactly one JSON value or holds a number outside the range of
`float64`.  JSON `null` decodes to the nil interface and a number to a `float64`. -/
def jsonUnmarshal (text : String) : Except Error Value :=
  match jsonDecode text with
  | .error err => .error err
  | .ok document => decodeNumbers document

/-! ## `go-openapi/jsonpointer` and `strconv` -/

/-- Model of `strings.Split` with a one character separator. -/
def splitOn (sep : Char) : List Char → List (List Char)
  | [] => [[]]
  | c :: cs =>
    if c = sep then [] :: splitOn sep cs
    else
      match splitOn sep cs with
      | [] => [[c]]
      | t :: ts => (c :: t) :: ts

/-- Model of `strings.Replace(s, "~d", "r", -1)`: every `~` followed by `d` becomes `r`.
`pending` tells that a `~` was read and not yet written. -/
def replaceTilde (d r : Char) : Bool → List Char → List Char
  | false, [] => []
  | true, [] => ['~']
  | false, c :: cs => if c = '~' then replaceTilde d r true cs else c :: replaceTilde d r false cs
  | true, c :: cs =>
    if c = d then r :: replaceTilde d r false cs
    else if c = '~' then '~' :: replaceTilde d r true cs
    else '~' :: c :: replaceTilde d r false cs

/-- Model of `jsonpointer.Unescape`: first `~1` becomes `/`, then `~0` becomes `~`. -/
def unescapeToken (token : List Char) : String :=
  String.mk (replaceTilde '0' '~' false (replaceTilde '1' '/' false token))

/-- Model of `jsonpointer.New`: the reference tokens of a pointer.  The empty pointer has none,
and any other pointer has to start with the separator. -/
def pointerNew (path : String) : Except Error (List (List Char)) :=
  match path.data with
  | [] => .ok []
  | c :: cs =>
    if c = '/' then .ok (splitOn '/' cs)
    else .error (.generic "JSON pointer must be empty or start with a \"/\"")

/-- Value of a run of decimal digits, read after `acc`. -/
def digitsValue : List Char → Nat → Option Nat
  | [], acc => some acc
  | c :: cs, acc => if isDigit c then digitsValue cs (acc * 10 + (c.toNat - 48)) else none

/-- Model of `strconv.Atoi`: an optional sign and at least one digit, within 64 bits. -/
def atoi (s : List Char) : Option Int :=
  match s with
  | [] => none
  | c :: cs =>
    if c = '-' then
      match cs, digitsValue cs 0 with
      | _ :: _, some n => if n ≤ 2 ^ 63 then some (-(n : Int)) else none
      | _, _ => none
    else if c = '+' then
      match cs, digitsValue cs 0 with
      | _ :: _, some n => if n < 2 ^ 63 then some (n : Int) else none
      | _, _ => none
    else
      match digitsValue (c :: cs) 0 with
      | some n => if n < 2 ^ 63 then some (n : Int) else none
      | none => none

/-- The value a Go map built from the members holds for the key: the last member wins. -/
def lookupMember (key : String) : List (String × Value) → Option Value
  | [] => none
  | (k, v) :: ms =>
    match lookupMember key ms with
    | some w => some w
    | none => if k = key then some v else none

/-- Model of one step of `Pointer.Get`: a member of an object, an element of an array, and an
error on everything else. -/
def getSingle (node : Value) (token : String) : Except Error Value :=
  match node with
  | .object ms =>
    match lookupMember token ms with
    | some v => .ok v
    | none => .error (.generic ("object has no key " ++ token))
  | .array xs =>
    match atoi token.data with
    | none => .error (.generic ("invalid array index " ++ token))
    | some i =>
      if i < 0 ∨ (xs.length : Int) ≤ i then .error (.generic "index out of bounds")
      else
        match xs.get? i.toNat with
        | some v => .ok v
        | none => .error (.generic "index out of bounds")
  | _ => .error (.generic ("invalid token reference " ++ token))

/-- Model of `Pointer.Get`: follows the reference tokens from the document. -/
def pointerGet : List (List Char) → Value → Except Error Value
  | [], node => .ok node
  | token :: tokens, node =>
    match getSingle node (unescapeToken token) with
    | .error err => .error err
    | .ok child => pointerGet tokens child

/-! ## The registry entry -/

/-- Modelled from the spec: `registry.Entry` of `pkg/registry`, a key/value store with two
namespaces.  *Parameters* holds the request body of the client as a generic JSON value, if
one was stored; *User* holds the strings written by the broker, the newest binding of a key
first.  The spec names no condition under which a read or a write fails, so the three calls
below always succeed; their callers keep the error branches of the code. -/
structure Entry where
  parameters : Option Value
  user : List (String × String)

/-- Modelled from the spec: `entry.Get(registry.Parameters, &out)`, whether the namespace is
set and its value. -/
def Entry.Get (entry : Entry) : Except Error (Option Value) := .ok entry.parameters

/-- Modelled from the spec: `entry.GetUser(key)`, the value of the key in the User namespace
when there is one. -/
def Entry.GetUser (entry : Entry) (key : String) : Except Error (Option String) :=
  .ok (entry.user.lookup key)

/-- Modelled from the spec: `entry.SetUser(key, value)`, which binds the key in the User
namespace at once. -/
def Entry.SetUser (entry : Entry) (key value : String) : Except Error Entry :=
  .ok { entry with user := (key, value) :: entry.user }

/-! ## Configuration types -/

/-- Modelled from the spec: `runtime.RawExtension`, raw JSON bytes that may be nil. -/
structure RawExtension where
  Raw : Option String

/-- Modelled from the spec: `v1.Accessor`, a registry key or a JSON pointer into the client
parameters; both fields are pointers in the code and either may be nil. -/
structure Accessor where
  Registry : Option String
  Parameter : Option String

/-- Modelled from the spec: `v1.String`, a literal or an accessor. -/
structure StringSource where
  Literal : Option String
  Accessor : Accessor

/-- Modelled from the spec: `v1.ConfigurationParameterSourceFormat`, a format string and the
accessors of its arguments. -/
structure ConfigurationParameterSourceFormat where
  Format : String
  Parameters : List Accessor

/-- Modelled from the spec: `v1.ConfigurationParameterSourceGeneratePassword`. -/
structure ConfigurationParameterSourceGeneratePassword where
  Length : Int
  Dictionary : Option String

/-- Modelled from the spec: `v1.ConfigurationParameterSourceGenerateKey`. -/
structure ConfigurationParameterSourceGenerateKey where
  KeyType : String
  Encoding : String
  Bits : Option Int

/-- Modelled from the spec: the subject alternative names of a certificate request. -/
structure AlternativeNames where
  DNS : List Accessor
  Email : List Accessor

/-- Modelled from the spec: the signing CA of a certificate request. -/
structure CertificateAuthority where
  Key : Accessor
  Certificate : Accessor

/-- Modelled from the spec: `v1.ConfigurationParameterSourceGenerateCertificate`. -/
structure ConfigurationParameterSourceGenerateCertificate where
  Key : Accessor
  CommonName : String
  Lifetime : Int
  Usage : String
  AlternativeNames : Option AlternativeNames
  CA : Option CertificateAuthority

/-- Modelled from the spec: `v1.ConfigurationParameterSource`.  Every field is a pointer in the
code; `resolveSource` takes the first one that is set. -/
structure ConfigurationParameterSource where
  Accessor : Accessor
  Format : Option ConfigurationParameterSourceFormat
  GeneratePassword : Option ConfigurationParameterSourceGeneratePassword
  GenerateKey : Option ConfigurationParameterSourceGenerateKey
  GenerateCertificate : Option ConfigurationParameterSourceGenerateCertificate
  Template : Option String

/-- Modelled from the spec: the default of a parameter (`parameter.Default`), four pointers of
which `resolveTemplateParameter` takes the first one that is set. -/
structure ConfigurationParameterDefault where
  string : Option String
  bool : Option Bool
  int : Option Int
  object : Option RawExtension

/-- Modelled from the spec: `v1.ConfigurationParameterDestination`, a registry key or a
JSON pointer into the document. -/
structure ConfigurationParameterDestination where
  Registry : Option String
  Path : Option String

/-- Modelled from the spec: `v1.ConfigurationParameter`. -/
structure ConfigurationParameter where
  Name : String
  Required : Bool
  Default : Option ConfigurationParameterDefault
  Source : Option ConfigurationParameterSource
  Destinations : List ConfigurationParameterDestination

/-- Modelled from the spec: `v1.ConfigurationTemplate`, a named document with parameters. -/
structure ConfigurationTemplate where
  Name : String
  Template : Option RawExtension
  Parameters : List ConfigurationParameter

/-! ## The environment of a render -/

/-- One read of `rand.Reader` by `rand.Int`: the reader fails, or it delivers entropy. -/
inductive Draw where
  | fail (err : Error)
  | value (n : Nat)

/-- The arguments `resolveGenerateCertificate` hands to `util.GenerateCertificate`. -/
structure CertificateRequest where
  key : String
  commonName : String
  lifetime : Int
  usage : String
  dnsSANs : List String
  emailSANs : List String
  caKey : Option String
  caCertificate : Option String

/-- One decoded operation of a JSON patch: the members of the operation object. -/
abbrev Operation := List (String × Value)

/-- What a render depends on besides the template and the entry: the static configuration
(`config.Config().Spec.Templates`, `config.Namespace()`), `fmt.Sprintf` on a configured
format, the random source (indexed by the number of the generator call and by the read
within that call), the generators of `pkg/util` (indexed by the number of the generator
call) and the two calls of the JSON patch library. -/
structure Env where
  Templates : List ConfigurationTemplate
  Namespace : String
  Sprintf : String → List Value → String
  rand : Nat → Nat → Draw
  GenerateKey : Nat → String → String → Option Int → Except Error String
  GenerateCertificate : Nat → CertificateRequest → Except Error String
  DecodePatch : String → Except Error (List Operation)
  Apply : List Operation → String → Except Error String

/-- The mutable part of a render: the registry entry and the number of generator calls made. -/
structure State where
  entry : Entry
  clock : Nat

/-- Whether an interface is nil. -/
def Value.isNil : Value → Bool
  | .nil => true
  | _ => false

/-- The type assertion `value.(string)`. -/
def Value.asString : Value → Option String
  | .string s => some s
  | _ => none

/-! ## Lookups -/

/-- `GetNamespace`: the namespace to provision in, the `/namespace` member of the request
context when there is one and the namespace of the broker otherwise. -/
def GetNamespace (env : Env) (context : Option RawExtension) : Except Error String :=
  match context with
  | some ctxRaw =>
    match jsonUnmarshal (ctxRaw.Raw.getD "") with
    | .error err => .error err
    | .ok ctx =>
      match pointerNew "/namespace" with
      | .error err => .error err
      | .ok pointer =>
        match pointerGet pointer ctx with
        | .ok v =>
          match v.asString with
          | some namespace_ => .ok namespace_
          | none => .error (.parameterError "request context namespace not a string")
        | .error _ => .ok env.Namespace
  | none => .ok env.Namespace

/-- `getTemplate`: the first configured template with the name. -/
def getTemplate (env : Env) (name : String) : Except Error ConfigurationTemplate :=
  match env.Templates.find? (fun template => template.Name == name) with
  | some template => .ok template
  | none => .error (.generic ("unable to locate template for " ++ name))

/-- `resolveParameter`: the value under the path in the parameters of the client.  The result
`none` is the code's `found = false`. -/
def resolveParameter (path : String) (entry : Entry) : Except Error (Option Value) :=
  match entry.Get with
  | .error err => .error err
  | .ok none => .error (.generic "unable to lookup parameters")
  | .ok (some parameters) =>
    match pointerNew path with
    | .error err => .error err
    | .ok pointer =>
      match pointerGet pointer parameters with
      | .error _ => .ok none
      | .ok value => .ok (some value)

/-- `resolveAccessor`: looks up a registry key or a parameter. -/
def resolveAccessor (accessor : Accessor) (entry : Entry) : Except Error Value :=
  match accessor.Registry with
  | some key =>
    match entry.GetUser key with
    | .error err => .error err
    | .ok none => .ok .nil
    | .ok (some v) => .ok (.string v)
  | none =>
    match accessor.Parameter with
    | some path =>
      match resolveParameter path entry with
      | .error err => .error err
      | .ok none => .ok .nil
      | .ok (some v) => .ok v
    | none => .error (.generic "accessor must have one method defined")

/-- `resolveString`: a literal, or an accessor that has to yield a string. -/
def resolveString (str : StringSource) (entry : Entry) : Except Error String :=
  match str.Literal with
  | some s => .ok s
  | none =>
    match resolveAccessor str.Accessor entry with
    | .error err => .error err
    | .ok value =>
      match value.asString with
      | some stringValue => .ok stringValue
      | none => .error (.generic "value is not a string")

/-- `resolveAccessorStringList`: the strings of the accessors that are set; a value that is
not a string is an error. -/
def resolveAccessorStringList (accessors : List Accessor) (entry : Entry) :
    Except Error (List String) :=
  match accessors with
  | [] => .ok []
  | accessor :: rest =>
    match resolveAccessor accessor entry with
    | .error err => .error err
    | .ok value =>
      if value.isNil then resolveAccessorStringList rest entry
      else
        match value.asString with
        | none => .error (.configurationError "accessor string list element not a string")
        | some strValue =>
          match resolveAccessorStringList rest entry with
          | .error err => .error err
          | .ok list => .ok (strValue :: list)

/-- The loop of `resolveFormat`: the values of the accessors, or `none` as soon as one of them
is nil. -/
def resolveFormatParameters (accessors : List Accessor) (entry : Entry) :
    Except Error (Option (List Value)) :=
  match accessors with
  | [] => .ok (some [])
  | accessor :: rest =>
    match resolveAccessor accessor entry with
    | .error err => .error err
    | .ok value =>
      if value.isNil then .ok none
      else
        match resolveFormatParameters rest entry with
        | .error err => .error err
        | .ok none => .ok none
        | .ok (some parameters) => .ok (some (value :: parameters))

/-- `resolveFormat`: renders a format parameter. -/
def resolveFormat (env : Env) (format : ConfigurationParameterSourceFormat) (entry : Entry) :
    Except Error Value :=
  match resolveFormatParameters format.Parameters entry with
  | .error err => .error err
  | .ok none => .ok .nil
  | .ok (some parameters) => .ok (.string (env.Sprintf format.Format parameters))

/-! ## Generators -/

/-- The dictionary `resolveGeneratePassword` uses when the configuration gives none. -/
def defaultDictionary : String :=
  "abcdefghijklmnopqrstuvwxyzABCDEFGHIJKLMNOPQRSTUVWXYZ0123456789"

/-- Model of `rand.Int(rand.Reader, max)`: panics when `max` is not positive, passes on a
failure of the reader, and otherwise returns a number in `[0, max)`.  The entropy of the
draw is reduced into that range, so each number of the range is the result of some draw. -/
def randInt (draw : Draw) (max : Int) : Except Error Nat :=
  if max ≤ 0 then .error (.panic "crypto/rand: argument to Int is <= 0")
  else
    match draw with
    | .fail err => .error err
    | .value n => .ok (n % max.toNat)

/-- The bytes of the UTF-8 encoding of a character. -/
def utf8EncodeChar (c : Char) : List Nat :=
  if c.toNat < 128 then [c.toNat]
  else if c.toNat < 2048 then [192 + c.toNat / 64, 128 + c.toNat % 64]
  else if c.toNat < 65536 then
    [224 + c.toNat / 4096, 128 + c.toNat / 64 % 64, 128 + c.toNat % 64]
  else
    [240 + c.toNat / 262144, 128 + c.toNat / 4096 % 64, 128 + c.toNat / 64 % 64,
      128 + c.toNat % 64]

/-- The bytes of a Go string that holds the text: its UTF-8 encoding. -/
def utf8Encode : List Char → List Nat
  | [] => []
  | c :: cs => utf8EncodeChar c ++ utf8Encode cs

/-- Whether a byte continues a character in UTF-8. -/
def isContinuation (b : Nat) : Bool := decide (128 ≤ b) && decide (b < 192)

/-- The character whose UTF-8 encoding the bytes start with, and the bytes after it, when
there is one: no stray or missing continuation byte, no overlong form, no surrogate and
nothing above the last code point. -/
def utf8DecodeChar : List Nat → Option (Char × List Nat)
  | [] => none
  | b0 :: rest =>
    if b0 < 128 then some (Char.ofNat b0, rest)
    else if b0 < 224 then
      match rest with
      | b1 :: rest1 =>
        if 194 ≤ b0 ∧ isContinuation b1 = true then
          some (Char.ofNat ((b0 - 192) * 64 + (b1 - 128)), rest1)
        else none
      | _ => none
    else if b0 < 240 then
      match rest with
      | b1 :: b2 :: rest2 =>
        if isContinuation b1 = true ∧ isContinuation b2 = true ∧
            2048 ≤ (b0 - 224) * 4096 + (b1 - 128) * 64 + (b2 - 128) ∧
            ¬ (55296 ≤ (b0 - 224) * 4096 + (b1 - 128) * 64 + (b2 - 128) ∧
              (b0 - 224) * 4096 + (b1 - 128) * 64 + (b2 - 128) < 57344) then
          some (Char.ofNat ((b0 - 224) * 4096 + (b1 - 128) * 64 + (b2 - 128)), rest2)
        else none
      | _ => none
    else if b0 < 248 then
      match rest with
      | b1 :: b2 :: b3 :: rest3 =>
        if isContinuation b1 = true ∧ isContinuation b2 = true ∧ isContinuation b3 = true ∧
            65536 ≤ (b0 - 240) * 262144 + (b1 - 128) * 4096 + (b2 - 128) * 64 + (b3 - 128) ∧
            (b0 - 240) * 262144 + (b1 - 128) * 4096 + (b2 - 128) * 64 + (b3 - 128) < 1114112 then
          some (Char.ofNat
            ((b0 - 240) * 262144 + (b1 - 128) * 4096 + (b2 - 128) * 64 + (b3 - 128)), rest3)
        else none
      | _ => none
    else none

/-- Decodes at most `fuel` characters from the bytes. -/
def utf8DecodeAux : Nat → List Nat → Option (List Char)
  | _, [] => some []
  | 0, _ :: _ => none
  | fuel + 1, b :: rest =>
    match utf8DecodeChar (b :: rest) with
    | none => none
    | some (c, rest1) =>
      match utf8DecodeAux fuel rest1 with
      | none => none
      | some cs => some (c :: cs)

/-- The text whose UTF-8 encoding the bytes are, when they are the encoding of a text
(`utf8.Valid`). -/
def utf8Decode (bytes : List Nat) : Option (List Char) := utf8DecodeAux bytes.length bytes

/-- A Go string, given by its bytes, as a value: the string with that text, or the mark
`notText` when the bytes are not the encoding of a text. -/
def Value.ofBytes (bytes : List Nat) : Except Error Value :=
  match utf8Decode bytes with
  | some text => .ok (.string (String.mk text))
  | none => .error (.notText bytes)

/-- The loop of `resolveGeneratePassword`: `remaining` iterations are left, `i` reads of the
random source were made, and `value` holds the bytes of the string built so far.  The
dictionary is given by its bytes: `dictionary[index : index+1]` is the one byte at the
index. -/
def generatePasswordLoop (dictionary : List Nat) (limit : Int) (draws : Nat → Draw) :
    Nat → Nat → List Nat → Except Error (List Nat)
  | 0, _, value => .ok value
  | remaining + 1, i, value =>
    match randInt (draws i) limit with
    | .error err => .error err
    | .ok index =>
      if 2 ^ 63 ≤ index then .error (.configurationError "random index overflow")
      else
        match dictionary[index]? with
        | none => .error (.panic "slice bounds out of range")
        | some b => generatePasswordLoop dictionary limit draws remaining (i + 1) (value ++ [b])

/-- The string `resolveGeneratePassword` builds, as its bytes.  `draws` are the outcomes of the
successive reads of the random source.  `len(dictionary)` is the number of bytes of the
dictionary, and the bound given to `rand.Int` is that number less `arrayIndexOffset`, as in
the code. -/
def generatePassword (config : ConfigurationParameterSourceGeneratePassword)
    (draws : Nat → Draw) : Except Error (List Nat) :=
  let dictionary := utf8Encode (config.Dictionary.getD defaultDictionary).data
  let arrayIndexOffset : Int := 1
  let dictionaryLength : Int := (dictionary.length : Int) - arrayIndexOffset
  generatePasswordLoop dictionary dictionaryLength draws config.Length.toNat 0 []

/-- `resolveGeneratePassword`: a random string over the bytes of the dictionary, as an
interface value. -/
def resolveGeneratePassword (config : ConfigurationParameterSourceGeneratePassword)
    (draws : Nat → Draw) : Except Error Value :=
  match generatePassword config draws with
  | .error err => .error err
  | .ok value => Value.ofBytes value

/-- `resolveGenerateKey`: a PEM encoded private key from `util.GenerateKey`. -/
def resolveGenerateKey (env : Env) (config : ConfigurationParameterSourceGenerateKey)
    (clock : Nat) : Except Error Value :=
  match env.GenerateKey clock config.KeyType config.Encoding config.Bits with
  | .error err => .error err
  | .ok key => .ok (.string key)

/-- `getPrivateKey`: reads a PEM formatted private key. -/
def getPrivateKey (parameter : Accessor) (entry : Entry) : Except Error String :=
  match resolveAccessor parameter entry with
  | .error err => .error err
  | .ok keyPEM =>
    match keyPEM.asString with
    | some data => .ok data
    | none => .error (.configurationError "private key is not a string")

/-- `getCertificate`: resolves a PEM formatted certificate. -/
def getCertificate (parameter : Accessor) (entry : Entry) : Except Error String :=
  match resolveAccessor parameter entry with
  | .error err => .error err
  | .ok certPEM =>
    match certPEM.asString with
    | some data => .ok data
    | none => .error (.configurationError "certificate is not a string")

/-- The subject alternative names of `resolveGenerateCertificate`, empty when none are
configured. -/
def resolveAlternativeNames (names : Option AlternativeNames) (entry : Entry) :
    Except Error (List String × List String) :=
  match names with
  | none => .ok ([], [])
  | some alt =>
    match resolveAccessorStringList alt.DNS entry with
    | .error err => .error err
    | .ok dnsSANs =>
      match resolveAccessorStringList alt.Email entry with
      | .error err => .error err
      | .ok emailSANs => .ok (dnsSANs, emailSANs)

/-- The CA key pair of `resolveGenerateCertificate`, nil when none is configured. -/
def resolveCA (ca : Option CertificateAuthority) (entry : Entry) :
    Except Error (Option String × Option String) :=
  match ca with
  | none => .ok (none, none)
  | some authority =>
    match getPrivateKey authority.Key entry with
    | .error err => .error err
    | .ok caKey =>
      match getCertificate authority.Certificate entry with
      | .error err => .error err
      | .ok caCertificate => .ok (some caKey, some caCertificate)

/-- `resolveGenerateCertificate`: a PEM encoded X.509 certificate from
`util.GenerateCertificate`. -/
def resolveGenerateCertificate (env : Env)
    (config : ConfigurationParameterSourceGenerateCertificate) (entry : Entry) (clock : Nat) :
    Except Error Value :=
  match getPrivateKey config.Key entry with
  | .error err => .error err
  | .ok key =>
    match resolveAlternativeNames config.AlternativeNames entry with
    | .error err => .error err
    | .ok (dnsSANs, emailSANs) =>
      match resolveCA config.CA entry with
      | .error err => .error err
      | .ok (caKey, caCertificate) =>
        match env.GenerateCertificate clock
            ⟨key, config.CommonName, config.Lifetime, config.Usage, dnsSANs, emailSANs, caKey,
              caCertificate⟩ with
        | .error err => .error err
        | .ok cert => .ok (.string cert)

/-! ## Sources, parameters and templates

`resolveSource`, `resolveTemplateParameter`, `patchObject` and `renderTemplate` call each
other.  The first three are given here with the recursive call of `renderTemplate` as the
argument `render`; `renderTemplate` below closes the recursion. -/

/-- The type of `renderTemplate`, as its callers see it. -/
abbrev Renderer := ConfigurationTemplate → State → Except Error ConfigurationTemplate × State

/-- The state after a call of a generator. -/
def State.tick (st : State) : State := { st with clock := st.clock + 1 }

/-- The template case of `resolveSource`: renders the named template against the same entry
and returns its document as a generic value. -/
def resolveTemplateSource (env : Env) (render : Renderer) (name : String) (st : State) :
    Except Error Value × State :=
  match getTemplate env name with
  | .error err => (.error err, st)
  | .ok t =>
    match render t st with
    | (.error err, st1) => (.error err, st1)
    | (.ok template, st1) =>
      match template.Template with
      | none => (.error (.panic "nil pointer dereference"), st1)
      | some raw =>
        match jsonUnmarshal (raw.Raw.getD "") with
        | .error err => (.error err, st1)
        | .ok v => (.ok v, st1)

/-- `resolveSource`: the value of a parameter source.  The switch of the code takes the first
case whose pointer is set; a lookup that finds nothing leaves the value nil. -/
def resolveSource (env : Env) (render : Renderer) (source : Option ConfigurationParameterSource)
    (st : State) : Except Error Value × State :=
  match source with
  | none => (.ok .nil, st)
  | some src =>
    match src.Accessor.Registry with
    | some key =>
      match st.entry.GetUser key with
      | .error err => (.error err, st)
      | .ok none => (.ok .nil, st)
      | .ok (some v) => (.ok (.string v), st)
    | none =>
      match src.Accessor.Parameter with
      | some path =>
        match resolveParameter path st.entry with
        | .error err => (.error err, st)
        | .ok none => (.ok .nil, st)
        | .ok (some v) => (.ok v, st)
      | none =>
        match src.Format with
        | some format => (resolveFormat env format st.entry, st)
        | none =>
          match src.GeneratePassword with
          | some config => (resolveGeneratePassword config (env.rand st.clock), st.tick)
          | none =>
            match src.GenerateKey with
            | some config => (resolveGenerateKey env config st.clock, st.tick)
            | none =>
              match src.GenerateCertificate with
              | some config =>
                (resolveGenerateCertificate env config st.entry st.clock, st.tick)
              | none =>
                match src.Template with
                | some name => resolveTemplateSource env render name st
                | none => (.ok .nil, st)

/-- The default of a parameter as a value: the first of string, bool, int and object that is
set, the object parsed from its raw JSON. -/
def resolveDefault (default : ConfigurationParameterDefault) : Except Error Value :=
  match default.string with
  | some s => .ok (.string s)
  | none =>
    match default.bool with
    | some b => .ok (.bool b)
    | none =>
      match default.int with
      | some i => .ok (.int i)
      | none =>
        match default.object with
        | some object => jsonUnmarshal (object.Raw.getD "")
        | none => .error (.configurationError "undefined source default parameter")

/-- The last step of `resolveTemplateParameter`: a required parameter needs a value. -/
def checkRequired (parameter : ConfigurationParameter) (value : Value) : Except Error Value :=
  if parameter.Required && value.isNil then
    .error (.parameterError ("source for parameter " ++ parameter.Name ++ " is required"))
  else .ok value

/-- `resolveTemplateParameter`: applies the lookup rules of a parameter, that is the source,
then the default when the source gave nil, then the check of a required parameter. -/
def resolveTemplateParameter (env : Env) (render : Renderer) (parameter : ConfigurationParameter)
    (st : State) : Except Error Value × State :=
  match resolveSource env render parameter.Source st with
  | (.error err, st1) => (.error err, st1)
  | (.ok value, st1) =>
    if value.isNil then
      match parameter.Default with
      | some default =>
        match resolveDefault default with
        | .error err => (.error err, st1)
        | .ok value1 => (checkRequired parameter value1, st1)
      | none => (checkRequired parameter value, st1)
    else (checkRequired parameter value, st1)

/-- The text of one patch operation, the code's
`fmt.Sprintf` of the operation template with the path and the marshalled value. -/
def patchOperation (path : String) (valueJSON : String) : String :=
  "\x7b\"op\":\"add\",\"path\":\"" ++ path ++ "\",\"value\":" ++ valueJSON ++ "\x7d"

/-- The loop of `patchObject` over the destinations of one parameter: a registry destination
is written to the entry at once, a path destination adds an operation to `patches`.  The
entry is returned as the loop leaves it, also when it stops with an error. -/
def patchDestinations (parameter : ConfigurationParameter) (value : Value) :
    List ConfigurationParameterDestination → List String → Entry →
      Except Error (List String) × Entry
  | [], patches, entry => (.ok patches, entry)
  | destination :: rest, patches, entry =>
    match destination.Registry with
    | some key =>
      match value.asString with
      | none =>
        (.error (.configurationError ("parameter " ++ parameter.Name ++ " is not a string")),
          entry)
      | some strValue =>
        match entry.SetUser key strValue with
        | .error err => (.error (.configurationError err.message), entry)
        | .ok entry1 => patchDestinations parameter value rest patches entry1
    | none =>
      match destination.Path with
      | some path =>
        patchDestinations parameter value rest
          (patches ++ [patchOperation path (jsonMarshal value)]) entry
      | none => patchDestinations parameter value rest patches entry

/-- The text of a patch set, `"[" + strings.Join(patches, ",") + "]"`. -/
def patchSetText (patches : List String) : String :=
  "[" ++ ",".intercalate patches ++ "]"

/-- `patchObject`: takes a raw JSON object and applies the parameters to it, one after the
other.  The state is returned as the loop leaves it, also when it stops with an error; the
document is returned on success only. -/
def patchObject (env : Env) (render : Renderer) :
    String → List ConfigurationParameter → State → Except Error String × State
  | object, [], st => (.ok object, st)
  | object, parameter :: rest, st =>
    match resolveTemplateParameter env render parameter st with
    | (.error err, st1) => (.error err, st1)
    | (.ok value, st1) =>
      if value.isNil then patchObject env render object rest st1
      else
        match patchDestinations parameter value parameter.Destinations [] st1.entry with
        | (.error err, entry1) => (.error err, { st1 with entry := entry1 })
        | (.ok patches, entry1) =>
          if patches.length < 1 then
            patchObject env render object rest { st1 with entry := entry1 }
          else
            match env.DecodePatch (patchSetText patches) with
            | .error err => (.error err, { st1 with entry := entry1 })
            | .ok patch =>
              match env.Apply patch object with
              | .error err => (.error err, { st1 with entry := entry1 })
              | .ok object1 => patchObject env render object1 rest { st1 with entry := entry1 }

/-- The body of `renderTemplate`: checks that the template has a document and patches a copy
of it with the parameters. -/
def renderTemplateWith (env : Env) (render : Renderer) (template : ConfigurationTemplate)
    (st : State) : Except Error ConfigurationTemplate × State :=
  match template.Template with
  | none => (.error (.configurationError ("template " ++ template.Name ++ " is not defined")), st)
  | some raw =>
    match raw.Raw with
    | none =>
      (.error (.configurationError ("template " ++ template.Name ++ " is not defined")), st)
    | some bytes =>
      match patchObject env render bytes template.Parameters st with
      | (.error err, st1) => (.error err, st1)
      | (.ok object, st1) => (.ok { template with Template := some ⟨some object⟩ }, st1)

/-- `renderTemplate`: applies the request and registry parameters to a configured template.
The code recurses without a bound through template sources; `depth` is the number of nested
calls the embedding follows, and a render that needs more ends as `unterminated`. -/
def renderTemplate (env : Env) : Nat → Renderer
  | 0 => fun _ st => (.error .unterminated, st)
  | depth + 1 => renderTemplateWith env (renderTemplate env depth)

/-! ## The JSON patch library -/

/-- The operations of a decoded patch: every element has to be an object, or null. -/
def decodeOperations : List Value → Except Error (List Operation)
  | [] => .ok []
  | v :: vs =>
    match decodeOperations vs with
    | .error err => .error err
    | .ok ops =>
      match v with
      | .object members => .ok (members :: ops)
      | .nil => .ok ([] :: ops)
      | _ => .error (.generic "cannot unmarshal into jsonpatch.Operation")

/-- Modelled from the spec: `jsonpatch.DecodePatch`, which decodes the text of a patch set, a
JSON array of operation objects.  The members of an operation stay raw JSON, so a number
keeps its literal. -/
def decodePatch (text : String) : Except Error (List Operation) :=
  match jsonDecode text with
  | .error err => .error err
  | .ok (.array ops) => decodeOperations ops
  | .ok .nil => .ok []
  | .ok _ => .error (.generic "cannot unmarshal into jsonpatch.Patch")

/-- Binds a key in the members of an object: an existing key gets the new value, a new key is
added at the end. -/
def setMember (key : String) (value : Value) (members : List (String × Value)) :
    List (String × Value) :=
  if (lookupMember key members).isSome then
    members.map (fun m => if m.1 = key then (m.1, value) else m)
  else members ++ [(key, value)]

/-- Modelled from the spec: the structure an add operation creates for the part of its path
that does not exist yet, an object for each remaining token (an array of one element for
the token `-`) around the value. -/
def createPath : List String → Value → Value
  | [], value => value
  | token :: tokens, value =>
    if token = "-" then .array [createPath tokens value]
    else .object [(token, createPath tokens value)]

/-- Modelled from the spec: the add operation of the object patcher, which "creates any
missing intermediate object/array structure along its path before setting the final value".
In an object the last token binds a member; in an array it is an index at which the value is
inserted, or `-` for the end.  A token that leads into a scalar, or an index outside the
array, makes the operation fail. -/
def addPath : List String → Value → Value → Except Error Value
  | [], _, value => .ok value
  | token :: tokens, node, value =>
    match node with
    | .object members =>
      match tokens, lookupMember token members with
      | _ :: _, some child =>
        match addPath tokens child value with
        | .error err => .error err
        | .ok child1 => .ok (.object (setMember token child1 members))
      | _, _ => .ok (.object (setMember token (createPath tokens value) members))
    | .array xs =>
      if token = "-" then .ok (.array (xs ++ [createPath tokens value]))
      else
        match atoi token.data with
        | none => .error (.generic ("invalid array index " ++ token))
        | some i =>
          if i < 0 ∨ (xs.length : Int) < i then .error (.generic "index out of bounds")
          else
            match tokens, xs[i.toNat]? with
            | _ :: _, some child =>
              match addPath tokens child value with
              | .error err => .error err
              | .ok child1 => .ok (.array (xs.set i.toNat child1))
            | _ :: _, none => .ok (.array (xs ++ [createPath tokens value]))
            | [], _ => .ok (.array (xs.take i.toNat ++ value :: xs.drop i.toNat))
    | _ => .error (.generic ("add operation does not apply at " ++ token))

/-- Modelled from the spec: one operation applied to a document.  The patcher knows the
operation `add` only; the path is a JSON pointer and a missing value is null. -/
def applyOperation (doc : Value) (op : Operation) : Except Error Value :=
  match lookupMember "op" op with
  | some (.string kind) =>
    if kind = "add" then
      match lookupMember "path" op with
      | some (.string path) =>
        match pointerNew path with
        | .error err => .error err
        | .ok tokens =>
          addPath (tokens.map unescapeToken) doc ((lookupMember "value" op).getD .nil)
      | _ => .error (.generic "add operation failed to decode path")
    else .error (.generic ("unexpected kind: " ++ kind))
  | _ => .error (.generic "unexpected kind")

/-- The operations of a patch applied in order; the first failure ends the patch. -/
def applyOperations : List Operation → Value → Except Error Value
  | [], doc => .ok doc
  | op :: ops, doc =>
    match applyOperation doc op with
    | .error err => .error err
    | .ok doc1 => applyOperations ops doc1

/-- Modelled from the spec: `Patch.Apply`, the object patcher `apply(document, patchSet)`.  The
document has to be a JSON object or array, whose members stay raw JSON; the patched document
is marshalled again. -/
def applyPatch (patch : List Operation) (object : String) : Except Error String :=
  match jsonDecode object with
  | .error err => .error err
  | .ok doc =>
    match doc with
    | .object _ | .array _ =>
      match applyOperations patch doc with
      | .error err => .error err
      | .ok doc1 => .ok (jsonMarshal doc1)
    | _ => .error (.generic "cannot unmarshal into a document")

/-- An environment with the patch library as the spec describes it. -/
def Env.withPatcher (env : Env) : Env :=
  { env with DecodePatch := decodePatch, Apply := applyPatch }

/-- A small environment for concrete runs: no templates, a `Sprintf` that joins its string
arguments after the format, a random source whose reads count up, and generators that fail. -/
def sampleEnv : Env where
  Templates := []
  Namespace := "broker"
  Sprintf := fun format args => format ++ String.join (args.filterMap Value.asString)
  rand := fun call i => .value (call + i)
  GenerateKey := fun _ _ _ _ => .error (.generic "no key generator")
  GenerateCertificate := fun _ _ => .error (.generic "no certificate generator")
  DecodePatch := decodePatch
  Apply := applyPatch

/-! ## Predicates used in the statements -/

/-- The parameter has no registry destination with the key. -/
def NoWrite (key : String) (parameter : ConfigurationParameter) : Prop :=
  ∀ d ∈ parameter.Destinations, d.Registry ≠ some key

/-- The value the User namespace of a state holds for a key. -/
def State.user (st : State) (key : String) : Option String := st.entry.user.lookup key

/-- The text that follows a value in a document does not continue a number literal. -/
def Terminated (rest : List Char) : Prop := ∀ c ∈ rest.head?, isNumberChar c = false

/-- A renderer leaves the key alone on the configured templates. -/
def KeepsKey (env : Env) (render : Renderer) (key : String) : Prop :=
  ∀ t ∈ env.Templates, ∀ st, (render t st).2.user key = st.user key

/-! ## Further notions used in the statements -/

/-- The patch operations the destinations of a parameter contribute for a value: one add
operation with the marshalled value for each destination that is a path, in the order of the
destinations. -/
def pathOperations (value : Value) (ds : List ConfigurationParameterDestination) : List String :=
  ds.filterMap (fun d =>
    match d.Registry, d.Path with
    | none, some path => some (patchOperation path (jsonMarshal value))
    | _, _ => none)

/-- The registry keys among the destinations of a parameter, in the order of the
destinations. -/
def registryKeys (ds : List ConfigurationParameterDestination) : List String :=
  ds.filterMap (fun d => d.Registry)

/-- The entry after the keys were bound to the value one after the other. -/
def Entry.setAll (entry : Entry) (keys : List String) (value : String) : Entry :=
  { entry with user := (keys.map (fun k => (k, value))).reverse ++ entry.user }

/-- The parameter has a template source that names the configured template `child`. -/
def ParameterReferences (env : Env) (p : ConfigurationParameter) (child : ConfigurationTemplate) :
    Prop :=
  ∃ src name, p.Source = some src ∧ src.Template = some name ∧ getTemplate env name = .ok child

/-- The edge of the template reference graph: `t` has a parameter whose source is a reference
to `child`. -/
def References (env : Env) (t child : ConfigurationTemplate) : Prop :=
  ∃ p ∈ t.Parameters, ParameterReferences env p child

/-- The outcome is not the mark of an exhausted depth. -/
def Error.Real (err : Error) : Prop := err ≠ .unterminated

/-- The external parts of an environment (random source, generators, patch library) fail with
real errors only. -/
def Env.Real (env : Env) : Prop :=
  (∀ call i err, env.rand call i = .fail err → err.Real) ∧
    (∀ clock t e bits err, env.GenerateKey clock t e bits = .error err → err.Real) ∧
    (∀ clock request err, env.GenerateCertificate clock request = .error err → err.Real) ∧
    (∀ text err, env.DecodePatch text = .error err → err.Real) ∧
    (∀ patch object err, env.Apply patch object = .error err → err.Real)

/-- From depth `d` on the render of the template gives one and the same outcome, and that
outcome is not the mark of an exhausted depth: the render terminates within `d` nested
calls. -/
def TerminatesWithin (env : Env) (t : ConfigurationTemplate) (d : Nat) : Prop :=
  ∀ depth, d ≤ depth → ∀ st,
    renderTemplate env depth t st = renderTemplate env d t st ∧
      (renderTemplate env d t st).1 ≠ .error .unterminated

/-! ## Sample configurations -/

/-- A template without parameters. -/
def leafTemplate : ConfigurationTemplate :=
  ⟨"leaf", some ⟨some "\x7b\"size\":3\x7d"⟩, []⟩

/-- A template whose one parameter takes the rendered template `leaf` as its value. -/
def parentTemplate : ConfigurationTemplate :=
  ⟨"parent", some ⟨some "\x7b\x7d"⟩,
    [⟨"child", false, none, some ⟨⟨none, none⟩, none, none, none, none, some "leaf"⟩,
      [⟨none, some "/child"⟩]⟩]⟩

/-- The sample environment with the template `leaf` configured. -/
def leafEnv : Env := { sampleEnv with Templates := [leafTemplate] }

/-- A template whose first parameter refers to the template itself. -/
def loopTemplate : ConfigurationTemplate :=
  ⟨"loop", some ⟨some "\x7b\x7d"⟩,
    [] ++ (⟨"self", false, none, some ⟨⟨none, none⟩, none, none, none, none, some "loop"⟩,
      [⟨none, some "/self"⟩]⟩ : ConfigurationParameter) :: []⟩

/-- The sample environment with the template `loop` configured. -/
def loopEnv : Env := { sampleEnv with Templates := [loopTemplate] }

/-- A template that refers to itself in its second parameter, behind a required parameter
without a value. -/
def guardedLoopTemplate : ConfigurationTemplate :=
  ⟨"loop", some ⟨some "\x7b\x7d"⟩,
    [⟨"size", true, none, none, []⟩,
      ⟨"self", false, none, some ⟨⟨none, none⟩, none, none, none, none, some "loop"⟩,
        [⟨none, some "/self"⟩]⟩]⟩

/-- The sample environment with the guarded template `loop` configured. -/
def guardedLoopEnv : Env := { sampleEnv with Templates := [guardedLoopTemplate] }

/-- A template whose document is the JSON text `null` and whose one parameter binds its
default to the registry key `k`. -/
def nullTemplate : ConfigurationTemplate :=
  ⟨"null", some ⟨some "null"⟩,
    [⟨"note", false, some ⟨some "x", none, none, none⟩, none, [⟨some "k", none⟩]⟩]⟩

/-- The sample environment with the template `null` configured. -/
def nullEnv : Env := { sampleEnv with Templates := [nullTemplate] }

/-- An optional parameter without a default whose source is a reference to the template
`null`, with a path destination and a registry destination. -/
def nullReference : ConfigurationParameter :=
  ⟨"ref", false, none, some ⟨⟨none, none⟩, none, none, none, none, some "null"⟩,
    [⟨none, some "/ref"⟩, ⟨some "r", none⟩]⟩

/-- An optional parameter without source and default, with a registry destination and a path
destination. -/
def unsetParameter : ConfigurationParameter :=
  ⟨"size", false, none, none, [⟨some "size", none⟩, ⟨none, some "/size"⟩]⟩

/-- A parameter with a string default and registry destinations only. -/
def registryOnlyParameter : ConfigurationParameter :=
  ⟨"user", false, some ⟨some "admin", none, none, none⟩, none,
    [⟨some "user", none⟩, ⟨some "owner", none⟩]⟩

/-- Resolving the source of the parameter leaves the key alone, from every state.  Only a
source that is a template reference can write, through the nested render. -/
def SourceKeeps (env : Env) (render : Renderer) (key : String) (p : ConfigurationParameter) :
    Prop :=
  ∀ st, (resolveSource env render p.Source st).2.user key = st.user key

/-- Processing the parameter does not write the key: it has no registry destination for the
key and the resolution of its source leaves the key alone. -/
def LeavesKey (env : Env) (render : Renderer) (key : String) (p : ConfigurationParameter) :
    Prop :=
  NoWrite key p ∧ SourceKeeps env render key p

/-- A template `child` whose one parameter binds its default `other` to the registry key
`pw`. -/
def overwriteTemplate : ConfigurationTemplate :=
  ⟨"child", some ⟨some "\x7b\x7d"⟩,
    [⟨"note", false, some ⟨some "other", none, none, none⟩, none, [⟨some "pw", none⟩]⟩]⟩

/-- A template whose first parameter binds `secret` to the registry key `pw`, whose second
parameter takes the rendered template `child` as its value and has no destination, and whose
third parameter reads the registry key `pw`. -/
def visibleTemplate : ConfigurationTemplate :=
  ⟨"visible", some ⟨some "\x7b\x7d"⟩,
    [⟨"password", false, some ⟨some "secret", none, none, none⟩, none, [⟨some "pw", none⟩]⟩,
      ⟨"nested", false, none, some ⟨⟨none, none⟩, none, none, none, none, some "child"⟩, []⟩,
      ⟨"copy", true, none, some ⟨⟨some "pw", none⟩, none, none, none, none, none⟩,
        [⟨none, some "/pw"⟩]⟩]⟩

/-- The sample environment with the templates `visible` and `child`, the child one that
overwrites the key `pw`. -/
def overwriteEnv : Env := { sampleEnv with Templates := [visibleTemplate, overwriteTemplate] }

/-- A template `child` whose one parameter binds its default `x` to the registry key
`note`. -/
def noteTemplate : ConfigurationTemplate :=
  ⟨"child", some ⟨some "\x7b\x7d"⟩,
    [⟨"note", false, some ⟨some "x", none, none, none⟩, none, [⟨some "note", none⟩]⟩]⟩

/-- The sample environment with the templates `visible` and `child`, the child one that
leaves the key `pw` alone. -/
def visibleEnv : Env := { sampleEnv with Templates := [visibleTemplate, noteTemplate] }

/-- A template whose first parameter binds `secret` to the registry key `pw`, whose second
parameter takes the rendered template `child` as its value, and whose third parameter is
required and has no value. -/
def failingTemplate : ConfigurationTemplate :=
  ⟨"failing", some ⟨some "\x7b\x7d"⟩,
    [⟨"password", false, some ⟨some "secret", none, none, none⟩, none, [⟨some "pw", none⟩]⟩,
      ⟨"nested", false, none, some ⟨⟨none, none⟩, none, none, none, none, some "child"⟩, []⟩,
      ⟨"size", true, none, none, []⟩]⟩

/-- The sample environment with the templates `failing` and `child`. -/
def failingEnv : Env := { sampleEnv with Templates := [failingTemplate, noteTemplate] }

/-- Two entries hold the same Parameters and the same User values: every key is bound to the
same string, or is unbound, in both. -/
def Entry.Same (e1 e2 : Entry) : Prop :=
  e1.parameters = e2.parameters ∧ ∀ key, e1.user.lookup key = e2.user.lookup key

/-- Two environments are the same configuration with the same `Sprintf` and patch library, and
their random source and generators return the same values call for call, the calls counted
from `c1` in the first and from `c2` in the second. -/
def Env.SameFrom (env1 env2 : Env) (c1 c2 : Nat) : Prop :=
  env1.Templates = env2.Templates ∧
    (∀ format args, env1.Sprintf format args = env2.Sprintf format args) ∧
    (∀ text, env1.DecodePatch text = env2.DecodePatch text) ∧
    (∀ patch object, env1.Apply patch object = env2.Apply patch object) ∧
    (∀ n i, env1.rand (c1 + n) i = env2.rand (c2 + n) i) ∧
    (∀ n t e bits, env1.GenerateKey (c1 + n) t e bits = env2.GenerateKey (c2 + n) t e bits) ∧
    (∀ n request,
      env1.GenerateCertificate (c1 + n) request = env2.GenerateCertificate (c2 + n) request)

/-- Two states of two runs hold the same entry values and have seen the same number of
generator calls since the runs started at the call numbers `c1` and `c2`. -/
def State.SameFrom (c1 c2 : Nat) (st1 st2 : State) : Prop :=
  Entry.Same st1.entry st2.entry ∧ ∃ n, st1.clock = c1 + n ∧ st2.clock = c2 + n

/-- The property of two renderers that `renderTemplate` has in two runs that agree: from
states with the same values they give the same outcome and states with the same values. -/
def RenderSame (c1 c2 : Nat) (r1 r2 : Renderer) : Prop :=
  ∀ t st1 st2, State.SameFrom c1 c2 st1 st2 →
    (r1 t st1).1 = (r2 t st2).1 ∧ State.SameFrom c1 c2 (r1 t st1).2 (r2 t st2).2

/-- A sample environment whose random source is that of `sampleEnv` five calls later. -/
def shiftedEnv : Env :=
  { sampleEnv with rand := fun call i => .value (call - 5 + i) }

/-- A template whose first parameter generates a password into the registry key `pw` and the
document, and whose second parameter copies the registry key `user` into the document. -/
def generatingTemplate : ConfigurationTemplate :=
  ⟨"generating", some ⟨some "\x7b\x7d"⟩,
    [⟨"password", true, none, some ⟨⟨none, none⟩, none, some ⟨3, some "abcd"⟩, none, none, none⟩,
        [⟨some "pw", none⟩, ⟨none, some "/password"⟩]⟩,
      ⟨"user", true, none, some ⟨⟨some "user", none⟩, none, none, none, none, none⟩,
        [⟨none, some "/user"⟩]⟩]⟩

/-- The token under which the structure an add operation created for a token is read: the
first index for `-`, which created an array of one element, and the token itself
otherwise. -/
def createdToken (token : List Char) : List Char :=
  if unescapeToken token = "-" then ['0'] else token

/-! ## General facts about the loop of `patchObject` -/

/-- The loop over a list of parameters is the loop over a first part followed, when that part
succeeds, by the loop over the rest from the document and state reached. -/
theorem patchObject_append (env : Env) (render : Renderer) (pre post : List ConfigurationParameter) :
    ∀ (object : String) (st : State),
      patchObject env render object (pre ++ post) st =
        match patchObject env render object pre st with
        | (.ok object1, st1) => patchObject env render object1 post st1
        | (.error err, st1) => (.error err, st1) := by
  induction pre with
  | nil => intro object st; simp [patchObject]
  | cons p pre ih =>
    intro object st
    simp only [List.cons_append, patchObject]
    split
    · rfl
    · split
      · exact ih _ _
      · split
        · rfl
        · split
          · exact ih _ _
          · split
            · rfl
            · split
              · rfl
              · exact ih _ _

/-- A failure of `patchObject` is the result of `renderTemplate`. -/
theorem renderTemplate_of_patchObject_error (env : Env) (depth : Nat) (name bytes : String)
    (parameters : List ConfigurationParameter) (st st1 : State) (err : Error)
    (h : patchObject env (renderTemplate env depth) bytes parameters st = (.error err, st1)) :
    renderTemplate env (depth + 1) ⟨name, some ⟨some bytes⟩, parameters⟩ st = (.error err, st1) := by
  simp only [renderTemplate, renderTemplateWith, h]

/-- C1: a parameter that is required, has no default and whose source resolves to nil makes
`resolveTemplateParameter` fail with the parameter error "source for parameter ... is
required"; `patchObject` on a parameter list that reaches this parameter, and `renderTemplate`
on a template with that list, fail with the same error and return no document. -/
theorem required_parameter_without_value_fails (env : Env) (depth : Nat)
    (parameter : ConfigurationParameter) (pre rest : List ConfigurationParameter)
    (name bytes object : String) (st0 st st1 : State)
    (hreq : parameter.Required = true) (hdef : parameter.Default = none)
    (hpre : patchObject env (renderTemplate env depth) bytes pre st0 = (.ok object, st))
    (hsrc : resolveSource env (renderTemplate env depth) parameter.Source st = (.ok .nil, st1)) :
    resolveTemplateParameter env (renderTemplate env depth) parameter st =
        (.error (.parameterError ("source for parameter " ++ parameter.Name ++ " is required")),
          st1) ∧
      patchObject env (renderTemplate env depth) bytes (pre ++ parameter :: rest) st0 =
        (.error (.parameterError ("source for parameter " ++ parameter.Name ++ " is required")),
          st1) ∧
      renderTemplate env (depth + 1) ⟨name, some ⟨some bytes⟩, pre ++ parameter :: rest⟩ st0 =
        (.error (.parameterError ("source for parameter " ++ parameter.Name ++ " is required")),
          st1) := by
  have h1 : resolveTemplateParameter env (renderTemplate env depth) parameter st =
      (.error (.parameterError ("source for parameter " ++ parameter.Name ++ " is required")),
        st1) := by
    simp [resolveTemplateParameter, hsrc, hdef, checkRequired, hreq, Value.isNil]
  have h2 : patchObject env (renderTemplate env depth) bytes (pre ++ parameter :: rest) st0 =
      (.error (.parameterError ("source for parameter " ++ parameter.Name ++ " is required")),
        st1) := by
    rw [patchObject_append, hpre]
    simp only [patchObject, h1]
  exact ⟨h1, h2, renderTemplate_of_patchObject_error env depth name bytes _ st0 st1 _ h2⟩

/-- C1, witness: a required parameter `password` that reads the registry key `missing` of an
empty entry. -/
theorem required_parameter_without_value_fails_witness :
    resolveTemplateParameter sampleEnv (renderTemplate sampleEnv 0)
        ⟨"password", true, none, some ⟨⟨some "missing", none⟩, none, none, none, none, none⟩,
          [⟨none, some "/spec/password"⟩]⟩ ⟨⟨none, []⟩, 0⟩ =
        (.error (.parameterError "source for parameter password is required"), ⟨⟨none, []⟩, 0⟩) ∧
      patchObject sampleEnv (renderTemplate sampleEnv 0) "\x7b\x7d"
        ([] ++ (⟨"password", true, none,
            some ⟨⟨some "missing", none⟩, none, none, none, none, none⟩,
            [⟨none, some "/spec/password"⟩]⟩ : ConfigurationParameter) :: []) ⟨⟨none, []⟩, 0⟩ =
        (.error (.parameterError "source for parameter password is required"), ⟨⟨none, []⟩, 0⟩) ∧
      renderTemplate sampleEnv (0 + 1) ⟨"secret", some ⟨some "\x7b\x7d"⟩,
        [] ++ (⟨"password", true, none,
            some ⟨⟨some "missing", none⟩, none, none, none, none, none⟩,
            [⟨none, some "/spec/password"⟩]⟩ : ConfigurationParameter) :: []⟩ ⟨⟨none, []⟩, 0⟩ =
        (.error (.parameterError "source for parameter password is required"), ⟨⟨none, []⟩, 0⟩) :=
  required_parameter_without_value_fails sampleEnv 0
    ⟨"password", true, none, some ⟨⟨some "missing", none⟩, none, none, none, none, none⟩,
      [⟨none, some "/spec/password"⟩]⟩ [] [] "secret" "\x7b\x7d" "\x7b\x7d" ⟨⟨none, []⟩, 0⟩
    ⟨⟨none, []⟩, 0⟩ ⟨⟨none, []⟩, 0⟩ rfl rfl rfl rfl

/-- C2, as stated, fails: a required parameter without a source whose default is the object
`null` has no value, and `resolveTemplateParameter` reports the missing required parameter
instead of returning the default. -/
theorem default_object_null_required_fails :
    resolveTemplateParameter sampleEnv (renderTemplate sampleEnv 0)
        ⟨"size", true, some ⟨none, none, none, some ⟨some "null"⟩⟩, none, []⟩ ⟨⟨none, []⟩, 0⟩ =
      (.error (.parameterError "source for parameter size is required"), ⟨⟨none, []⟩, 0⟩) := by
  rfl

/-- C2, amended: when the source resolves to nil and a default is set, `resolveTemplateParameter`
returns the default without an error: the string, else the bool, else the int, unchanged
(also the empty string, false and 0, also for a required parameter), else the value
`json.Unmarshal` decodes from the raw JSON of the object, provided that value is not nil or
the parameter is not required.  An object that decodes to nil gives no value, and a required
parameter then fails as one without a value; an object that does not decode, because the text
is not JSON or holds a number outside the range of `float64`, fails with the error of the
decoder. -/
theorem default_applies_when_source_is_nil (env : Env) (render : Renderer)
    (parameter : ConfigurationParameter) (default : ConfigurationParameterDefault)
    (st st1 : State)
    (hsrc : resolveSource env render parameter.Source st = (.ok .nil, st1))
    (hdef : parameter.Default = some default) :
    (∀ s, default.string = some s →
        resolveTemplateParameter env render parameter st = (.ok (.string s), st1)) ∧
      (∀ b, default.string = none → default.bool = some b →
        resolveTemplateParameter env render parameter st = (.ok (.bool b), st1)) ∧
      (∀ i, default.string = none → default.bool = none → default.int = some i →
        resolveTemplateParameter env render parameter st = (.ok (.int i), st1)) ∧
      (∀ raw v, default.string = none → default.bool = none → default.int = none →
        default.object = some raw → jsonUnmarshal (raw.Raw.getD "") = .ok v →
        (v.isNil = false ∨ parameter.Required = false) →
        resolveTemplateParameter env render parameter st = (.ok v, st1)) ∧
      (∀ raw v, default.string = none → default.bool = none → default.int = none →
        default.object = some raw → jsonUnmarshal (raw.Raw.getD "") = .ok v →
        v.isNil = true → parameter.Required = true →
        resolveTemplateParameter env render parameter st =
          (.error (.parameterError ("source for parameter " ++ parameter.Name ++ " is required")),
            st1)) ∧
      (∀ raw err, default.string = none → default.bool = none → default.int = none →
        default.object = some raw → jsonUnmarshal (raw.Raw.getD "") = .error err →
        resolveTemplateParameter env render parameter st = (.error err, st1)) := by
  refine ⟨?_, ?_, ?_, ?_, ?_, ?_⟩
  · intro s hs
    simp [resolveTemplateParameter, hsrc, hdef, resolveDefault, hs, checkRequired, Value.isNil]
  · intro b hs hb
    simp [resolveTemplateParameter, hsrc, hdef, resolveDefault, hs, hb, checkRequired,
      Value.isNil]
  · intro i hs hb hi
    simp [resolveTemplateParameter, hsrc, hdef, resolveDefault, hs, hb, hi, checkRequired,
      Value.isNil]
  · intro raw v hs hb hi ho hv hreq
    have hn : Value.isNil .nil = true := rfl
    simp only [resolveTemplateParameter, hsrc, hdef, resolveDefault, hs, hb, hi, ho, hv,
      checkRequired, hn]
    rcases hreq with h | h <;> simp [h]
  · intro raw v hs hb hi ho hv hnil hreq
    have hn : Value.isNil .nil = true := rfl
    simp only [resolveTemplateParameter, hsrc, hdef, resolveDefault, hs, hb, hi, ho, hv,
      checkRequired, hn]
    simp [hnil, hreq]
  · intro raw err hs hb hi ho hv
    have hn : Value.isNil .nil = true := rfl
    simp only [resolveTemplateParameter, hsrc, hdef, resolveDefault, hs, hb, hi, ho, hv, hn]
    simp

/-- C2, witness: parameters without a source with the defaults `""`, `false`, `0`, the object
`[1.50]`, whose number comes back as the `float64` 1.5, the object `null` on a required
parameter, and the object `1e400`. -/
theorem default_applies_when_source_is_nil_witness :
    resolveTemplateParameter sampleEnv (renderTemplate sampleEnv 0)
        ⟨"size", true, some ⟨some "", none, none, none⟩, none, []⟩ ⟨⟨none, []⟩, 0⟩ =
        (.ok (.string ""), ⟨⟨none, []⟩, 0⟩) ∧
      resolveTemplateParameter sampleEnv (renderTemplate sampleEnv 0)
        ⟨"size", true, some ⟨none, some false, none, none⟩, none, []⟩ ⟨⟨none, []⟩, 0⟩ =
        (.ok (.bool false), ⟨⟨none, []⟩, 0⟩) ∧
      resolveTemplateParameter sampleEnv (renderTemplate sampleEnv 0)
        ⟨"size", true, some ⟨none, none, some 0, none⟩, none, []⟩ ⟨⟨none, []⟩, 0⟩ =
        (.ok (.int 0), ⟨⟨none, []⟩, 0⟩) ∧
      resolveTemplateParameter sampleEnv (renderTemplate sampleEnv 0)
        ⟨"size", true, some ⟨none, none, none, some ⟨some "[1.50]"⟩⟩, none, []⟩
        ⟨⟨none, []⟩, 0⟩ =
        (.ok (.array [.number ⟨['1', '.', '5'], rfl⟩]), ⟨⟨none, []⟩, 0⟩) ∧
      resolveTemplateParameter sampleEnv (renderTemplate sampleEnv 0)
        ⟨"size", true, some ⟨none, none, none, some ⟨some "null"⟩⟩, none, []⟩ ⟨⟨none, []⟩, 0⟩ =
        (.error (.parameterError ("source for parameter " ++ "size" ++ " is required")),
          ⟨⟨none, []⟩, 0⟩) ∧
      resolveTemplateParameter sampleEnv (renderTemplate sampleEnv 0)
        ⟨"size", false, some ⟨none, none, none, some ⟨some "1e400"⟩⟩, none, []⟩
        ⟨⟨none, []⟩, 0⟩ =
        (.error (.generic
          "json: cannot unmarshal number 1e400 into Go value of type float64"),
          ⟨⟨none, []⟩, 0⟩) :=
  ⟨(default_applies_when_source_is_nil sampleEnv (renderTemplate sampleEnv 0)
      ⟨"size", true, some ⟨some "", none, none, none⟩, none, []⟩ ⟨some "", none, none, none⟩
      ⟨⟨none, []⟩, 0⟩ ⟨⟨none, []⟩, 0⟩ rfl rfl).1 "" rfl,
    (default_applies_when_source_is_nil sampleEnv (renderTemplate sampleEnv 0)
      ⟨"size", true, some ⟨none, some false, none, none⟩, none, []⟩ ⟨none, some false, none, none⟩
      ⟨⟨none, []⟩, 0⟩ ⟨⟨none, []⟩, 0⟩ rfl rfl).2.1 false rfl rfl,
    (default_applies_when_source_is_nil sampleEnv (renderTemplate sampleEnv 0)
      ⟨"size", true, some ⟨none, none, some 0, none⟩, none, []⟩ ⟨none, none, some 0, none⟩
      ⟨⟨none, []⟩, 0⟩ ⟨⟨none, []⟩, 0⟩ rfl rfl).2.2.1 0 rfl rfl rfl,
    (default_applies_when_source_is_nil sampleEnv (renderTemplate sampleEnv 0)
      ⟨"size", true, some ⟨none, none, none, some ⟨some "[1.50]"⟩⟩, none, []⟩
      ⟨none, none, none, some ⟨some "[1.50]"⟩⟩
      ⟨⟨none, []⟩, 0⟩ ⟨⟨none, []⟩, 0⟩ rfl rfl).2.2.2.1 ⟨some "[1.50]"⟩ _ rfl rfl rfl rfl rfl
      (Or.inl rfl),
    (default_applies_when_source_is_nil sampleEnv (renderTemplate sampleEnv 0)
      ⟨"size", true, some ⟨none, none, none, some ⟨some "null"⟩⟩, none, []⟩
      ⟨none, none, none, some ⟨some "null"⟩⟩
      ⟨⟨none, []⟩, 0⟩ ⟨⟨none, []⟩, 0⟩ rfl rfl).2.2.2.2.1 ⟨some "null"⟩ .nil rfl rfl rfl rfl rfl
      rfl rfl,
    (default_applies_when_source_is_nil sampleEnv (renderTemplate sampleEnv 0)
      ⟨"size", false, some ⟨none, none, none, some ⟨some "1e400"⟩⟩, none, []⟩
      ⟨none, none, none, some ⟨some "1e400"⟩⟩
      ⟨⟨none, []⟩, 0⟩ ⟨⟨none, []⟩, 0⟩ rfl rfl).2.2.2.2.2 ⟨some "1e400"⟩ _ rfl rfl rfl rfl rfl⟩

/-- The loop of `resolveFormat` stops with "unset" at the first accessor that resolves to nil,
when the accessors before it resolve without error. -/
theorem resolveFormatParameters_nil (entry : Entry) (a : Accessor) (post : List Accessor)
    (ha : resolveAccessor a entry = .ok .nil) :
    ∀ pre : List Accessor, (∀ b ∈ pre, ∃ v, resolveAccessor b entry = .ok v) →
      resolveFormatParameters (pre ++ a :: post) entry = .ok none := by
  intro pre
  induction pre with
  | nil => intro _; simp [resolveFormatParameters, ha, Value.isNil]
  | cons b pre ih =>
    intro h
    obtain ⟨v, hv⟩ := h b (List.mem_cons_self _ _)
    have ih1 := ih (fun c hc => h c (List.mem_cons_of_mem _ hc))
    show resolveFormatParameters (b :: (pre ++ a :: post)) entry = .ok none
    rw [resolveFormatParameters]
    simp only [hv, ih1]
    split <;> rfl

/-- C3: when an accessor of a format resolves to nil and the accessors before it resolve
without error, `resolveFormat` returns nil and no error, never a formatted string. -/
theorem resolveFormat_short_circuits (env : Env) (format : ConfigurationParameterSourceFormat)
    (entry : Entry) (pre post : List Accessor) (a : Accessor)
    (hparams : format.Parameters = pre ++ a :: post)
    (hpre : ∀ b ∈ pre, ∃ v, resolveAccessor b entry = .ok v)
    (ha : resolveAccessor a entry = .ok .nil) :
    resolveFormat env format entry = .ok .nil := by
  simp only [resolveFormat, hparams, resolveFormatParameters_nil entry a post ha pre hpre]

/-- C3, witness: the format `%s-%s` over the registry keys `A` and `B` with only `A` set. -/
theorem resolveFormat_short_circuits_witness :
    resolveFormat sampleEnv ⟨"%s-%s", [⟨some "A", none⟩, ⟨some "B", none⟩]⟩
      ⟨none, [("A", "left")]⟩ = .ok .nil :=
  resolveFormat_short_circuits sampleEnv ⟨"%s-%s", [⟨some "A", none⟩, ⟨some "B", none⟩]⟩
    ⟨none, [("A", "left")]⟩ [⟨some "A", none⟩] [] ⟨some "B", none⟩ rfl
    (by intro b hb; simp at hb; subst hb; exact ⟨.string "left", rfl⟩) rfl

/-- A key without a binding is not found by the lookup of the User namespace. -/
theorem lookup_absent (key : String) (user : List (String × String))
    (h : ∀ v, (key, v) ∉ user) : user.lookup key = none := by
  induction user with
  | nil => rfl
  | cons p user ih =>
    obtain ⟨k, v⟩ := p
    have hk : key ≠ k := by
      intro hk
      exact h v (by simp [hk])
    have ih1 := ih (fun w hw => h w (List.mem_cons_of_mem _ hw))
    have hb : (key == k) = false := by simp [hk]
    simp [List.lookup, hb, ih1]

/-- C4, as stated, fails: an entry that holds no Parameters document makes the lookup of a well
formed pointer an error, "unable to lookup parameters", in `resolveParameter`, in
`resolveAccessor` and in `resolveSource`, instead of a miss. -/
theorem parameter_lookup_without_parameters_fails :
    pointerNew "/size" = .ok [['s', 'i', 'z', 'e']] ∧
      resolveParameter "/size" ⟨none, []⟩ = .error (.generic "unable to lookup parameters") ∧
      resolveAccessor ⟨none, some "/size"⟩ ⟨none, []⟩ =
        .error (.generic "unable to lookup parameters") ∧
      resolveSource sampleEnv (renderTemplate sampleEnv 0)
          (some ⟨⟨none, some "/size"⟩, none, none, none, none, none⟩) ⟨⟨none, []⟩, 0⟩ =
        (.error (.generic "unable to lookup parameters"), ⟨⟨none, []⟩, 0⟩) :=
  ⟨rfl, rfl, rfl, rfl⟩

/-- C4, amended: lookup misses are not errors.  For every entry, a registry key that has no
binding in the User namespace is not found, and `resolveAccessor` and `resolveSource` return
nil without an error.  For every entry that holds a Parameters document, `resolveParameter` on
a well formed pointer that leads to nothing in the document returns `found = false` without an
error, and so `resolveAccessor` and `resolveSource` return nil without an error.  For an entry
without a Parameters document the three fail with "unable to lookup parameters" on every
path. -/
theorem lookup_miss_is_not_an_error (env : Env) (render : Renderer) (entry : Entry) (clock : Nat)
    (format : Option ConfigurationParameterSourceFormat)
    (password : Option ConfigurationParameterSourceGeneratePassword)
    (genKey : Option ConfigurationParameterSourceGenerateKey)
    (certificate : Option ConfigurationParameterSourceGenerateCertificate)
    (template : Option String) :
    (∀ (key : String) (other : Option String), (∀ v, (key, v) ∉ entry.user) →
        entry.GetUser key = .ok none ∧
        resolveAccessor ⟨some key, other⟩ entry = .ok .nil ∧
        resolveSource env render
          (some ⟨⟨some key, other⟩, format, password, genKey, certificate, template⟩)
          ⟨entry, clock⟩ = (.ok .nil, ⟨entry, clock⟩)) ∧
      (∀ (path : String) (parameters : Value) (tokens : List (List Char)) (err : Error),
        entry.parameters = some parameters → pointerNew path = .ok tokens →
        pointerGet tokens parameters = .error err →
        resolveParameter path entry = .ok none ∧
        resolveAccessor ⟨none, some path⟩ entry = .ok .nil ∧
        resolveSource env render
          (some ⟨⟨none, some path⟩, format, password, genKey, certificate, template⟩)
          ⟨entry, clock⟩ = (.ok .nil, ⟨entry, clock⟩)) ∧
      (∀ path : String, entry.parameters = none →
        resolveParameter path entry = .error (.generic "unable to lookup parameters") ∧
        resolveAccessor ⟨none, some path⟩ entry =
          .error (.generic "unable to lookup parameters") ∧
        resolveSource env render
          (some ⟨⟨none, some path⟩, format, password, genKey, certificate, template⟩)
          ⟨entry, clock⟩ = (.error (.generic "unable to lookup parameters"), ⟨entry, clock⟩)) := by
  refine ⟨?_, ?_, ?_⟩
  · intro key other habsent
    have hl := lookup_absent key entry.user habsent
    refine ⟨?_, ?_, ?_⟩
    · simp [Entry.GetUser, hl]
    · simp [resolveAccessor, Entry.GetUser, hl]
    · simp [resolveSource, Entry.GetUser, hl]
  · intro path parameters tokens err hparams hpointer hmiss
    have hp : resolveParameter path entry = .ok none := by
      simp [resolveParameter, Entry.Get, hparams, hpointer, hmiss]
    refine ⟨hp, ?_, ?_⟩
    · simp [resolveAccessor, hp]
    · simp [resolveSource, hp]
  · intro path hnone
    have hp : resolveParameter path entry = .error (.generic "unable to lookup parameters") := by
      simp [resolveParameter, Entry.Get, hnone]
    refine ⟨hp, ?_, ?_⟩
    · simp [resolveAccessor, hp]
    · simp [resolveSource, hp]

/-- C4, witness: the key `missing` in an entry without parameters, the pointer `/size/unit`
in an entry whose parameters are the object with the member `size` equal to 3, and the same
pointer in the entry without parameters. -/
theorem lookup_miss_is_not_an_error_witness :
    resolveAccessor ⟨some "missing", none⟩ ⟨none, [("password", "secret")]⟩ = .ok .nil ∧
      resolveParameter "/size/unit" ⟨some (.object [("size", .int 3)]), [("password", "secret")]⟩
        = .ok none ∧
      resolveAccessor ⟨none, some "/size/unit"⟩
        ⟨some (.object [("size", .int 3)]), [("password", "secret")]⟩ = .ok .nil ∧
      resolveParameter "/size/unit" ⟨none, [("password", "secret")]⟩ =
        .error (.generic "unable to lookup parameters") :=
  ⟨((lookup_miss_is_not_an_error sampleEnv (renderTemplate sampleEnv 0)
      ⟨none, [("password", "secret")]⟩ 0 none none none none none).1 "missing" none
      (by intro v hv; simp at hv)).2.1,
    ((lookup_miss_is_not_an_error sampleEnv (renderTemplate sampleEnv 0)
      ⟨some (.object [("size", .int 3)]), [("password", "secret")]⟩ 0 none none none none
      none).2.1 "/size/unit" (.object [("size", .int 3)])
      [['s', 'i', 'z', 'e'], ['u', 'n', 'i', 't']] (.generic "invalid token reference unit")
      rfl rfl rfl).1,
    ((lookup_miss_is_not_an_error sampleEnv (renderTemplate sampleEnv 0)
      ⟨some (.object [("size", .int 3)]), [("password", "secret")]⟩ 0 none none none none
      none).2.1 "/size/unit" (.object [("size", .int 3)])
      [['s', 'i', 'z', 'e'], ['u', 'n', 'i', 't']] (.generic "invalid token reference unit")
      rfl rfl rfl).2.1,
    ((lookup_miss_is_not_an_error sampleEnv (renderTemplate sampleEnv 0)
      ⟨none, [("password", "secret")]⟩ 0 none none none none none).2.2 "/size/unit" rfl).1⟩

/-- A successful `rand.Int` returns a number below its bound. -/
theorem randInt_lt (draw : Draw) (max : Int) (index : Nat) (h : randInt draw max = .ok index) :
    (index : Int) < max := by
  unfold randInt at h
  split at h
  · cases h
  · rename_i hmax
    cases draw with
    | fail err => cases h
    | value n =>
      simp only [Except.ok.injEq] at h
      subst h
      have hpos : 0 < max.toNat := by omega
      have := Nat.mod_lt n hpos
      omega

/-- The code of the character with a given valid code. -/
theorem toNat_ofNat_of_valid (n : Nat) (h : n < 55296 ∨ (57343 < n ∧ n < 1114112)) :
    (Char.ofNat n).toNat = n := by
  have hv : n.isValidChar := h
  simp only [Char.ofNat, hv, Char.toNat, Char.ofNatAux, dite_true]
  rfl

/-- A character read from the head of the bytes has the bytes read as its encoding. -/
theorem utf8DecodeChar_sound (bytes rest : List Nat) (c : Char)
    (h : utf8DecodeChar bytes = some (c, rest)) : bytes = utf8EncodeChar c ++ rest := by
  unfold utf8DecodeChar at h
  split at h
  · cases h
  · rename_i b0 tail
    split at h
    · rename_i hb
      simp only [Option.some.injEq, Prod.mk.injEq] at h
      obtain ⟨rfl, rfl⟩ := h
      have ht := toNat_ofNat_of_valid b0 (Or.inl (by omega))
      unfold utf8EncodeChar
      rw [ht, if_pos hb]
      rfl
    · split at h
      · rename_i hb0 hb
        split at h
        · rename_i b1 rest1
          split at h
          · rename_i hc
            simp only [Option.some.injEq, Prod.mk.injEq] at h
            obtain ⟨rfl, rfl⟩ := h
            obtain ⟨hc0, hc1⟩ := hc
            simp only [isContinuation, Bool.and_eq_true, decide_eq_true_eq] at hc1
            have ht := toNat_ofNat_of_valid ((b0 - 192) * 64 + (b1 - 128)) (Or.inl (by omega))
            have h2 : ¬ (b0 - 192) * 64 + (b1 - 128) < 128 := by omega
            have h3 : (b0 - 192) * 64 + (b1 - 128) < 2048 := by omega
            have e0 : 192 + ((b0 - 192) * 64 + (b1 - 128)) / 64 = b0 := by omega
            have e1 : 128 + ((b0 - 192) * 64 + (b1 - 128)) % 64 = b1 := by omega
            unfold utf8EncodeChar
            rw [ht, if_neg h2, if_pos h3, e0, e1]
            rfl
          · cases h
        · cases h
      · split at h
        · rename_i hb0 hb1 hb
          split at h
          · rename_i b1 b2 rest2
            split at h
            · rename_i hc
              simp only [Option.some.injEq, Prod.mk.injEq] at h
              obtain ⟨rfl, rfl⟩ := h
              obtain ⟨hc1, hc2, hlow, hsur⟩ := hc
              simp only [isContinuation, Bool.and_eq_true, decide_eq_true_eq] at hc1 hc2
              have ht := toNat_ofNat_of_valid
                ((b0 - 224) * 4096 + (b1 - 128) * 64 + (b2 - 128)) (by omega)
              have h3 : ¬ (b0 - 224) * 4096 + (b1 - 128) * 64 + (b2 - 128) < 128 := by omega
              have h4 : ¬ (b0 - 224) * 4096 + (b1 - 128) * 64 + (b2 - 128) < 2048 := by omega
              have h5 : (b0 - 224) * 4096 + (b1 - 128) * 64 + (b2 - 128) < 65536 := by omega
              have e0 : 224 + ((b0 - 224) * 4096 + (b1 - 128) * 64 + (b2 - 128)) / 4096 = b0 := by
                omega
              have e1 :
                  128 + ((b0 - 224) * 4096 + (b1 - 128) * 64 + (b2 - 128)) / 64 % 64 = b1 := by
                omega
              have e2 : 128 + ((b0 - 224) * 4096 + (b1 - 128) * 64 + (b2 - 128)) % 64 = b2 := by
                omega
              unfold utf8EncodeChar
              rw [ht, if_neg h3, if_neg h4, if_pos h5, e0, e1, e2]
              rfl
            · cases h
          · cases h
        · split at h
          · rename_i hb0 hb1 hb2 hb
            split at h
            · rename_i b1 b2 b3 rest3
              split at h
              · rename_i hc
                simp only [Option.some.injEq, Prod.mk.injEq] at h
                obtain ⟨rfl, rfl⟩ := h
                obtain ⟨hc1, hc2, hc3, hlow, hhigh⟩ := hc
                simp only [isContinuation, Bool.and_eq_true, decide_eq_true_eq] at hc1 hc2 hc3
                have ht := toNat_ofNat_of_valid
                  ((b0 - 240) * 262144 + (b1 - 128) * 4096 + (b2 - 128) * 64 + (b3 - 128))
                  (by omega)
                have h4 : ¬ (b0 - 240) * 262144 + (b1 - 128) * 4096 + (b2 - 128) * 64 +
                    (b3 - 128) < 128 := by omega
                have h5 : ¬ (b0 - 240) * 262144 + (b1 - 128) * 4096 + (b2 - 128) * 64 +
                    (b3 - 128) < 2048 := by omega
                have h6 : ¬ (b0 - 240) * 262144 + (b1 - 128) * 4096 + (b2 - 128) * 64 +
                    (b3 - 128) < 65536 := by omega
                have e0 : 240 + ((b0 - 240) * 262144 + (b1 - 128) * 4096 + (b2 - 128) * 64 +
                    (b3 - 128)) / 262144 = b0 := by omega
                have e1 : 128 + ((b0 - 240) * 262144 + (b1 - 128) * 4096 + (b2 - 128) * 64 +
                    (b3 - 128)) / 4096 % 64 = b1 := by omega
                have e2 : 128 + ((b0 - 240) * 262144 + (b1 - 128) * 4096 + (b2 - 128) * 64 +
                    (b3 - 128)) / 64 % 64 = b2 := by omega
                have e3 : 128 + ((b0 - 240) * 262144 + (b1 - 128) * 4096 + (b2 - 128) * 64 +
                    (b3 - 128)) % 64 = b3 := by omega
                unfold utf8EncodeChar
                rw [ht, if_neg h4, if_neg h5, if_neg h6, e0, e1, e2, e3]
                rfl
              · cases h
            · cases h
          · cases h

/-- The text the decoder finds has the bytes as its encoding. -/
theorem utf8DecodeAux_sound :
    ∀ (fuel : Nat) (bytes : List Nat) (cs : List Char),
      utf8DecodeAux fuel bytes = some cs → utf8Encode cs = bytes := by
  intro fuel
  induction fuel with
  | zero =>
    intro bytes cs h
    cases bytes with
    | nil =>
      simp only [utf8DecodeAux, Option.some.injEq] at h
      subst h
      rfl
    | cons b rest => simp [utf8DecodeAux] at h
  | succ n ih =>
    intro bytes cs h
    cases bytes with
    | nil =>
      simp only [utf8DecodeAux, Option.some.injEq] at h
      subst h
      rfl
    | cons b rest =>
      rw [utf8DecodeAux] at h
      cases hc : utf8DecodeChar (b :: rest) with
      | none => rw [hc] at h; cases h
      | some p =>
        obtain ⟨c, rest1⟩ := p
        rw [hc] at h
        simp only at h
        cases hr : utf8DecodeAux n rest1 with
        | none => rw [hr] at h; cases h
        | some cs1 =>
          rw [hr] at h
          simp only [Option.some.injEq] at h
          subst h
          rw [utf8DecodeChar_sound _ _ _ hc, utf8Encode, ih rest1 cs1 hr]

/-- The text the decoder finds has the bytes as its encoding. -/
theorem utf8Decode_sound (bytes : List Nat) (cs : List Char) (h : utf8Decode bytes = some cs) :
    utf8Encode cs = bytes :=
  utf8DecodeAux_sound _ bytes cs h

/-- Bytes below 128 are the encoding of the text of their characters. -/
theorem utf8DecodeAux_ascii :
    ∀ (bytes : List Nat) (fuel : Nat), bytes.length ≤ fuel → (∀ b ∈ bytes, b < 128) →
      utf8DecodeAux fuel bytes = some (bytes.map Char.ofNat) := by
  intro bytes
  induction bytes with
  | nil => intro fuel _ _; cases fuel <;> rfl
  | cons b rest ih =>
    intro fuel hlen h
    have hb := h b (List.mem_cons_self _ _)
    cases fuel with
    | zero => simp at hlen
    | succ n =>
      have hr := ih n (by simp at hlen; omega) (fun c hc => h c (List.mem_cons_of_mem _ hc))
      rw [utf8DecodeAux]
      have hc : utf8DecodeChar (b :: rest) = some (Char.ofNat b, rest) := by
        unfold utf8DecodeChar
        simp only [if_pos hb]
      rw [hc]
      simp only [hr, List.map_cons]

/-- The encoding of a text of one-byte characters has one byte for each character, its code. -/
theorem utf8Encode_ascii :
    ∀ cs : List Char, (∀ c ∈ cs, c.toNat < 128) → utf8Encode cs = cs.map Char.toNat := by
  intro cs
  induction cs with
  | nil => intro _; rfl
  | cons c rest ih =>
    intro h
    have hc := h c (List.mem_cons_self _ _)
    have hr := ih (fun d hd => h d (List.mem_cons_of_mem _ hd))
    rw [utf8Encode, hr]
    unfold utf8EncodeChar
    rw [if_pos hc]
    rfl

/-- What the loop of `resolveGeneratePassword` adds to the string: one byte for each
iteration, each taken from a position of the dictionary below the bound given to `rand.Int`. -/
theorem generatePasswordLoop_spec (dictionary : List Nat) (limit : Int) (draws : Nat → Draw) :
    ∀ (remaining i : Nat) (value out : List Nat),
      generatePasswordLoop dictionary limit draws remaining i value = .ok out →
      ∃ added : List Nat, out = value ++ added ∧ added.length = remaining ∧
        ∀ b ∈ added, ∃ index : Nat, (index : Int) < limit ∧ dictionary[index]? = some b := by
  intro remaining
  induction remaining with
  | zero =>
    intro i value out h
    simp only [generatePasswordLoop, Except.ok.injEq] at h
    exact ⟨[], by simp [h], rfl, by simp⟩
  | succ n ih =>
    intro i value out h
    rw [generatePasswordLoop] at h
    split at h
    · cases h
    · rename_i index hindex
      split at h
      · cases h
      · split at h
        · cases h
        · rename_i c hc
          obtain ⟨added, hout, hlen, hmem⟩ := ih _ _ _ h
          refine ⟨c :: added, by simp [hout], by simp [hlen], ?_⟩
          intro d hd
          rcases List.mem_cons.1 hd with hd | hd
          · subst hd
            exact ⟨index, randInt_lt _ _ _ hindex, hc⟩
          · exact hmem d hd

/-- C5, as stated, fails: over the dictionary `éa`, whose first character takes two bytes, a
password of length 1 is the one byte 195, the first half of `é`.  It is the encoding of no
character, so of no character of the dictionary, and the string is not text. -/
theorem generated_password_splits_character :
    utf8Encode "éa".data = [195, 169, 97] ∧
      generatePassword ⟨1, some "éa"⟩ (fun _ => .value 0) = .ok [195] ∧
      (∀ c ∈ "éa".data, utf8EncodeChar c ≠ [195]) ∧
      utf8Decode [195] = none ∧
      resolveGeneratePassword ⟨1, some "éa"⟩ (fun _ => .value 0) =
        .error (.notText [195]) := by
  refine ⟨by decide, rfl, by decide, by decide, rfl⟩

/-- C5, amended: a successful run of the generator with a length `n ≥ 0` builds a string of
exactly `n` bytes, each of them a byte of the dictionary (the 62 alphanumerics when the
configuration gives none) at a position below the bound given to `rand.Int`, whatever the
random source delivers; a value `resolveGeneratePassword` returns is the string with exactly
these bytes; and for a dictionary of one-byte characters the result is a string of exactly
`n` characters, each of them a character of the dictionary.  Bytes that are no text end the
run of the embedding with the mark that records them. -/
theorem generated_password_length_and_alphabet
    (config : ConfigurationParameterSourceGeneratePassword) (draws : Nat → Draw)
    (hlen : 0 ≤ config.Length) :
    (∀ bytes, generatePassword config draws = .ok bytes →
        (bytes.length : Int) = config.Length ∧
        ∀ b ∈ bytes, ∃ index : Nat,
          (index : Int) <
            ((utf8Encode (config.Dictionary.getD defaultDictionary).data).length : Int) - 1 ∧
          (utf8Encode (config.Dictionary.getD defaultDictionary).data)[index]? = some b) ∧
      (∀ v, resolveGeneratePassword config draws = .ok v →
        ∃ s : String, v = .string s ∧ generatePassword config draws = .ok (utf8Encode s.data)) ∧
      (∀ bytes, generatePassword config draws = .ok bytes →
        (∀ c ∈ (config.Dictionary.getD defaultDictionary).data, c.toNat < 128) →
        ∃ s : String, resolveGeneratePassword config draws = .ok (.string s) ∧
          (s.length : Int) = config.Length ∧
          ∀ c ∈ s.data, c ∈ (config.Dictionary.getD defaultDictionary).data) ∧
      (∀ bytes, generatePassword config draws = .ok bytes → utf8Decode bytes = none →
        resolveGeneratePassword config draws = .error (.notText bytes)) := by
  have hbytes : ∀ bytes, generatePassword config draws = .ok bytes →
      (bytes.length : Int) = config.Length ∧
      ∀ b ∈ bytes, ∃ index : Nat,
        (index : Int) <
          ((utf8Encode (config.Dictionary.getD defaultDictionary).data).length : Int) - 1 ∧
        (utf8Encode (config.Dictionary.getD defaultDictionary).data)[index]? = some b := by
    intro bytes h
    unfold generatePassword at h
    simp only at h
    obtain ⟨added, hadd, hn, hmem⟩ := generatePasswordLoop_spec _ _ _ _ _ _ _ h
    simp only [List.nil_append] at hadd
    subst hadd
    refine ⟨?_, hmem⟩
    rw [hn]
    omega
  refine ⟨hbytes, ?_, ?_, ?_⟩
  · intro v h
    unfold resolveGeneratePassword at h
    cases hg : generatePassword config draws with
    | error err => rw [hg] at h; cases h
    | ok bytes =>
      rw [hg] at h
      simp only [Value.ofBytes] at h
      cases hd : utf8Decode bytes with
      | none => rw [hd] at h; cases h
      | some text =>
        rw [hd] at h
        simp only [Except.ok.injEq] at h
        refine ⟨String.mk text, h.symm, ?_⟩
        rw [utf8Decode_sound bytes text hd]
  · intro bytes h hascii
    obtain ⟨hn, hmem⟩ := hbytes bytes h
    have henc := utf8Encode_ascii _ hascii
    have hlt : ∀ b ∈ bytes, b < 128 := by
      intro b hb
      obtain ⟨index, _, hget⟩ := hmem b hb
      rw [henc] at hget
      have := List.getElem?_mem hget
      obtain ⟨c, hc, rfl⟩ := List.mem_map.1 this
      exact hascii c hc
    have hd : utf8Decode bytes = some (bytes.map Char.ofNat) :=
      utf8DecodeAux_ascii bytes _ (Nat.le_refl _) hlt
    refine ⟨String.mk (bytes.map Char.ofNat), ?_, ?_, ?_⟩
    · simp only [resolveGeneratePassword, h, Value.ofBytes, hd]
    · show (((bytes.map Char.ofNat).length : Nat) : Int) = config.Length
      rw [List.length_map]
      exact hn
    · intro c hc
      obtain ⟨b, hb, rfl⟩ := List.mem_map.1 hc
      obtain ⟨index, _, hget⟩ := hmem b hb
      rw [henc] at hget
      have := List.getElem?_mem hget
      obtain ⟨d, hd1, rfl⟩ := List.mem_map.1 this
      have : Char.ofNat d.toNat = d := by simp
      rw [this]
      exact hd1
  · intro bytes h hd
    simp only [resolveGeneratePassword, h, Value.ofBytes, hd]

/-- C5, witness: three characters over the dictionary `abc`. -/
theorem generated_password_length_and_alphabet_witness :
    (([97, 98, 97] : List Nat).length : Int) = 3 ∧
      ∃ s : String, resolveGeneratePassword ⟨3, some "abc"⟩ (fun i => .value i) = .ok (.string s) ∧
        (s.length : Int) = 3 ∧ ∀ c ∈ s.data, c ∈ "abc".data :=
  ⟨((generated_password_length_and_alphabet ⟨3, some "abc"⟩ (fun i => .value i)
      (by decide)).1 [97, 98, 97] rfl).1,
    (generated_password_length_and_alphabet ⟨3, some "abc"⟩ (fun i => .value i)
      (by decide)).2.2.1 [97, 98, 97] rfl (by decide)⟩

/-- C6, the code at the failing input: over the dictionary `ab` the bound given to `rand.Int`
is 1, so every read of the random source selects position 0 and a generated password of length 1
is `a` when generation succeeds; the last symbol `b` is never drawn. -/
theorem generated_password_never_draws_last_symbol (draws : Nat → Draw) :
    resolveGeneratePassword ⟨1, some "ab"⟩ draws = .ok (.string "a") ∨
      ∃ err, resolveGeneratePassword ⟨1, some "ab"⟩ draws = .error err := by
  have hl : utf8Encode "ab".data = [97, 98] := by decide
  have hd : utf8Decode [97] = some ['a'] := by decide
  cases h : draws 0 with
  | fail err =>
    right
    exact ⟨err, by
      simp [resolveGeneratePassword, generatePassword, generatePasswordLoop, randInt, h, hl]⟩
  | value n =>
    left
    simp [resolveGeneratePassword, generatePassword, generatePasswordLoop, randInt, h, hl,
      Nat.mod_one, Value.ofBytes, hd]

/-! ## Registry destinations -/

/-- A value that is not a string stops the loop over the destinations at the first registry
destination, with a configuration error and without a write. -/
theorem patchDestinations_not_string (parameter : ConfigurationParameter) (value : Value)
    (hstr : value.asString = none) :
    ∀ (ds : List ConfigurationParameterDestination) (patches : List String) (entry : Entry),
      (∃ d ∈ ds, d.Registry ≠ none) →
      patchDestinations parameter value ds patches entry =
        (.error (.configurationError ("parameter " ++ parameter.Name ++ " is not a string")),
          entry) := by
  intro ds
  induction ds with
  | nil => intro _ _ h; simp at h
  | cons d ds ih =>
    intro patches entry h
    rw [patchDestinations]
    cases hr : d.Registry with
    | some key => simp only [hstr]
    | none =>
      have h1 : ∃ d1 ∈ ds, d1.Registry ≠ none := by
        obtain ⟨d1, hd1, hne⟩ := h
        rcases List.mem_cons.1 hd1 with heq | hmem
        · subst heq; exact absurd hr hne
        · exact ⟨d1, hmem, hne⟩
      simp only
      split
      · exact ih _ _ h1
      · exact ih _ _ h1

/-- C7, as stated, fails: for a parameter whose value is the bool `true` and that has a registry
destination, `patchObject` fails with a configuration error, which is not a parameter error. -/
theorem registry_destination_type_error_is_configuration_error :
    patchObject sampleEnv (renderTemplate sampleEnv 0) "\x7b\x7d"
        [⟨"flag", false, some ⟨none, some true, none, none⟩, none, [⟨some "enabled", none⟩]⟩]
        ⟨⟨none, []⟩, 0⟩ =
        (.error (.configurationError "parameter flag is not a string"), ⟨⟨none, []⟩, 0⟩) ∧
      ¬ ∃ msg, (patchObject sampleEnv (renderTemplate sampleEnv 0) "\x7b\x7d"
        [⟨"flag", false, some ⟨none, some true, none, none⟩, none, [⟨some "enabled", none⟩]⟩]
        ⟨⟨none, []⟩, 0⟩).1 = .error (.parameterError msg) := by
  refine ⟨rfl, ?_⟩
  rintro ⟨msg, h⟩
  have h1 : (patchObject sampleEnv (renderTemplate sampleEnv 0) "\x7b\x7d"
        [⟨"flag", false, some ⟨none, some true, none, none⟩, none, [⟨some "enabled", none⟩]⟩]
        ⟨⟨none, []⟩, 0⟩).1 = .error (.configurationError "parameter flag is not a string") := rfl
  rw [h1] at h
  cases h

/-- C7, amended: for a parameter whose resolved value is not nil and not a string and that has a
registry destination, `patchObject` fails with the configuration error "parameter ... is not a
string", and the entry is as the resolution of the parameter left it. -/
theorem registry_destination_requires_string (env : Env) (render : Renderer)
    (parameter : ConfigurationParameter) (rest : List ConfigurationParameter) (object : String)
    (value : Value) (st st1 : State)
    (hval : resolveTemplateParameter env render parameter st = (.ok value, st1))
    (hnil : value.isNil = false) (hstr : value.asString = none)
    (hreg : ∃ d ∈ parameter.Destinations, d.Registry ≠ none) :
    patchObject env render object (parameter :: rest) st =
      (.error (.configurationError ("parameter " ++ parameter.Name ++ " is not a string")),
        st1) := by
  rw [patchObject]
  simp only [hval, hnil, patchDestinations_not_string parameter value hstr _ _ _ hreg]
  rfl

/-- C7, witness: the parameter `flag` with the bool default `true` and the registry
destination `enabled`. -/
theorem registry_destination_requires_string_witness :
    patchObject sampleEnv (renderTemplate sampleEnv 0) "\x7b\x7d"
        [⟨"flag", false, some ⟨none, some true, none, none⟩, none, [⟨some "enabled", none⟩]⟩]
        ⟨⟨none, []⟩, 0⟩ =
      (.error (.configurationError "parameter flag is not a string"), ⟨⟨none, []⟩, 0⟩) :=
  registry_destination_requires_string sampleEnv (renderTemplate sampleEnv 0)
    ⟨"flag", false, some ⟨none, some true, none, none⟩, none, [⟨some "enabled", none⟩]⟩ []
    "\x7b\x7d" (.bool true) ⟨⟨none, []⟩, 0⟩ ⟨⟨none, []⟩, 0⟩ rfl rfl rfl
    ⟨⟨some "enabled", none⟩, by simp, by simp⟩

/-! ## Writes to the User namespace -/

/-- The loop over the destinations leaves a key alone that is not among its registry
destinations, whether it succeeds or fails. -/
theorem patchDestinations_lookup_of_noWrite (parameter : ConfigurationParameter) (value : Value)
    (key : String) :
    ∀ (ds : List ConfigurationParameterDestination) (patches : List String) (entry : Entry),
      (∀ d ∈ ds, d.Registry ≠ some key) →
      (patchDestinations parameter value ds patches entry).2.user.lookup key =
        entry.user.lookup key := by
  intro ds
  induction ds with
  | nil => intro _ _ _; rfl
  | cons d ds ih =>
    intro patches entry h
    have hd := h d (List.mem_cons_self _ _)
    have hds : ∀ d1 ∈ ds, d1.Registry ≠ some key := fun d1 h1 => h d1 (List.mem_cons_of_mem _ h1)
    rw [patchDestinations]
    cases hr : d.Registry with
    | some k =>
      have hk : (key == k) = false := by
        have : key ≠ k := by
          intro hk; apply hd; rw [hr, hk]
        simp [this]
      cases hs : value.asString with
      | none => rfl
      | some s =>
        simp only [Entry.SetUser]
        rw [ih _ _ hds]
        simp [List.lookup, hk]
    | none =>
      simp only
      split
      · exact ih _ _ hds
      · exact ih _ _ hds

/-- When the loop over the destinations of a string value succeeds, every key among its
registry destinations is bound to that string afterwards. -/
theorem patchDestinations_lookup_of_write (parameter : ConfigurationParameter) (s key : String) :
    ∀ (ds : List ConfigurationParameterDestination) (patches patches1 : List String)
      (entry entry1 : Entry),
      patchDestinations parameter (.string s) ds patches entry = (.ok patches1, entry1) →
      (entry.user.lookup key = some s ∨ ∃ d ∈ ds, d.Registry = some key) →
      entry1.user.lookup key = some s := by
  intro ds
  induction ds with
  | nil =>
    intro patches patches1 entry entry1 h hk
    simp only [patchDestinations, Prod.mk.injEq] at h
    rcases hk with hk | ⟨d, hd, _⟩
    · rw [← h.2]; exact hk
    · simp at hd
  | cons d ds ih =>
    intro patches patches1 entry entry1 h hk
    rw [patchDestinations] at h
    cases hr : d.Registry with
    | some k =>
      simp only [hr, Value.asString, Entry.SetUser] at h
      apply ih _ _ _ _ h
      by_cases hkk : key = k
      · left
        simp [List.lookup, hkk]
      · have hb : (key == k) = false := by simp [hkk]
        rcases hk with hk | ⟨d1, hd1, hreg⟩
        · left
          simp [List.lookup, hb, hk]
        · rcases List.mem_cons.1 hd1 with heq | hmem
          · subst heq
            rw [hr] at hreg
            exact absurd (Option.some.inj hreg).symm hkk
          · exact Or.inr ⟨d1, hmem, hreg⟩
    | none =>
      have hk1 : entry.user.lookup key = some s ∨ ∃ d1 ∈ ds, d1.Registry = some key := by
        rcases hk with hk | ⟨d1, hd1, hreg⟩
        · exact Or.inl hk
        · rcases List.mem_cons.1 hd1 with heq | hmem
          · subst heq
            rw [hr] at hreg
            cases hreg
          · exact Or.inr ⟨d1, hmem, hreg⟩
      simp only [hr] at h
      split at h
      · exact ih _ _ _ _ h hk1
      · exact ih _ _ _ _ h hk1

/-- The template found by `getTemplate` is one of the configured templates. -/
theorem getTemplate_mem (env : Env) (name : String) (t : ConfigurationTemplate)
    (h : getTemplate env name = .ok t) : t ∈ env.Templates := by
  unfold getTemplate at h
  split at h
  · rename_i hfind
    simp only [Except.ok.injEq] at h
    subst h
    exact List.mem_of_find?_eq_some hfind
  · cases h

/-- The template case of `resolveSource` changes the User namespace only through the nested
render. -/
theorem resolveTemplateSource_user (env : Env) (render : Renderer) (key : String)
    (hrender : KeepsKey env render key) (name : String) (st : State) :
    (resolveTemplateSource env render name st).2.user key = st.user key := by
  unfold resolveTemplateSource
  cases ht : getTemplate env name with
  | error err => rfl
  | ok t =>
    have hk := hrender t (getTemplate_mem env name t ht) st
    simp only
    cases hr : render t st with
    | mk r st1 =>
      rw [hr] at hk
      cases r with
      | error err => exact hk
      | ok template =>
        simp only
        split
        · exact hk
        · split
          · exact hk
          · exact hk

/-- `resolveSource` changes the User namespace only through a nested render. -/
theorem resolveSource_user (env : Env) (render : Renderer) (key : String)
    (hrender : KeepsKey env render key) (source : Option ConfigurationParameterSource)
    (st : State) : (resolveSource env render source st).2.user key = st.user key := by
  unfold resolveSource
  repeat' split
  all_goals first
    | rfl
    | exact resolveTemplateSource_user env render key hrender _ st

/-- `resolveTemplateParameter` changes the User namespace only through a nested render. -/
theorem resolveTemplateParameter_user (env : Env) (render : Renderer) (key : String)
    (hrender : KeepsKey env render key) (parameter : ConfigurationParameter) (st : State) :
    (resolveTemplateParameter env render parameter st).2.user key = st.user key := by
  have hs := resolveSource_user env render key hrender parameter.Source st
  unfold resolveTemplateParameter
  cases hr : resolveSource env render parameter.Source st with
  | mk r st1 =>
    rw [hr] at hs
    cases r with
    | error err => exact hs
    | ok value =>
      simp only
      repeat' split
      all_goals exact hs

/-- `patchObject` leaves a key alone that none of its parameters writes, when nested renders
leave it alone; this holds for a run that fails as well. -/
theorem patchObject_user (env : Env) (render : Renderer) (key : String)
    (hrender : KeepsKey env render key) :
    ∀ (parameters : List ConfigurationParameter) (object : String) (st : State),
      (∀ p ∈ parameters, NoWrite key p) →
      (patchObject env render object parameters st).2.user key = st.user key := by
  intro parameters
  induction parameters with
  | nil => intro _ _ _; rfl
  | cons p rest ih =>
    intro object st h
    have hp := h p (List.mem_cons_self _ _)
    have hrest : ∀ q ∈ rest, NoWrite key q := fun q hq => h q (List.mem_cons_of_mem _ hq)
    have h1 := resolveTemplateParameter_user env render key hrender p st
    rw [patchObject]
    cases hr : resolveTemplateParameter env render p st with
    | mk r st1 =>
      rw [hr] at h1
      cases r with
      | error err => exact h1
      | ok value =>
        simp only
        split
        · rw [ih _ _ hrest]; exact h1
        · have h2 := patchDestinations_lookup_of_noWrite p value key p.Destinations [] st1.entry hp
          cases hd : patchDestinations p value p.Destinations [] st1.entry with
          | mk r2 entry1 =>
            rw [hd] at h2
            have h3 : State.user { st1 with entry := entry1 } key = st.user key := by
              rw [← h1]; exact h2
            cases r2 with
            | error err => exact h3
            | ok patches =>
              simp only
              split
              · rw [ih _ _ hrest]; exact h3
              · split
                · exact h3
                · split
                  · exact h3
                  · rw [ih _ _ hrest]; exact h3

/-- `renderTemplate` at any depth leaves a key alone that no parameter of the template and of
the configured templates writes. -/
theorem renderTemplate_user (env : Env) (key : String)
    (htemplates : ∀ t ∈ env.Templates, ∀ p ∈ t.Parameters, NoWrite key p) :
    ∀ (depth : Nat) (template : ConfigurationTemplate) (st : State),
      (∀ p ∈ template.Parameters, NoWrite key p) →
      (renderTemplate env depth template st).2.user key = st.user key := by
  intro depth
  induction depth with
  | zero => intro _ _ _; rfl
  | succ depth ih =>
    intro template st h
    have hk : KeepsKey env (renderTemplate env depth) key :=
      fun t ht st1 => ih t st1 (htemplates t ht)
    have hp := fun bytes => patchObject_user env (renderTemplate env depth) key hk
      template.Parameters bytes st h
    simp only [renderTemplate, renderTemplateWith]
    split
    · rfl
    · split
      · rfl
      · rename_i bytes _
        have hb := hp bytes
        split
        · rename_i hr; rw [hr] at hb; exact hb
        · rename_i hr; rw [hr] at hb; exact hb

/-- The nested renders leave a key alone that no parameter of the configured templates
writes. -/
theorem keepsKey_renderTemplate (env : Env) (key : String) (depth : Nat)
    (htemplates : ∀ t ∈ env.Templates, ∀ p ∈ t.Parameters, NoWrite key p) :
    KeepsKey env (renderTemplate env depth) key :=
  fun t ht st => renderTemplate_user env key htemplates depth t st (htemplates t ht)

/-- A successful run of `patchObject` that starts with a parameter of string value went through
the destinations of that parameter and then through the rest of the list. -/
theorem patchObject_cons_string_ok (env : Env) (render : Renderer)
    (p : ConfigurationParameter) (rest : List ConfigurationParameter) (object object3 s : String)
    (st st1 st3 : State)
    (hp : resolveTemplateParameter env render p st = (.ok (.string s), st1))
    (hrun : patchObject env render object (p :: rest) st = (.ok object3, st3)) :
    ∃ patches entry1 object1,
      patchDestinations p (.string s) p.Destinations [] st1.entry = (.ok patches, entry1) ∧
      patchObject env render object1 rest { st1 with entry := entry1 } = (.ok object3, st3) := by
  rw [patchObject] at hrun
  have hn : (Value.string s).isNil = false := rfl
  simp only [hp, hn, Bool.false_eq_true, if_false] at hrun
  cases hd : patchDestinations p (.string s) p.Destinations [] st1.entry with
  | mk r entry1 =>
    rw [hd] at hrun
    cases r with
    | error err => simp at hrun
    | ok patches =>
      simp only at hrun
      split at hrun
      · exact ⟨patches, entry1, object, rfl, hrun⟩
      · split at hrun
        · simp at hrun
        · split at hrun
          · simp at hrun
          · rename_i object1 _
            exact ⟨patches, entry1, object1, rfl, hrun⟩

/-! ## Strings survive `json.Marshal` followed by the decoder of documents -/

/-- The value of a hexadecimal digit the encoder writes. -/
theorem hexValue_hexDigit (d : Nat) (h : d < 16) : hexValue (hexDigit d) = some d := by
  interval_cases d <;> rfl

/-- Four hexadecimal digits are read back as the code unit they were written for. -/
theorem hexValue4_hex4 (n : Nat) (h : n < 65536) :
    hexValue4 (hexDigit (n / 4096 % 16)) (hexDigit (n / 256 % 16)) (hexDigit (n / 16 % 16))
      (hexDigit (n % 16)) = some n := by
  unfold hexValue4
  rw [hexValue_hexDigit _ (Nat.mod_lt _ (by decide)), hexValue_hexDigit _ (Nat.mod_lt _ (by decide)),
    hexValue_hexDigit _ (Nat.mod_lt _ (by decide)), hexValue_hexDigit _ (Nat.mod_lt _ (by decide))]
  simp only [Option.some.injEq]
  omega

/-- A character that gets a unicode escape is below the surrogates. -/
theorem needsUnicodeEscape_lt (c : Char) (h : needsUnicodeEscape c = true) : c.toNat < 8234 := by
  unfold needsUnicodeEscape at h
  simp only [Bool.or_eq_true, decide_eq_true_eq, beq_iff_eq] at h
  rcases h with ((((h | h) | h) | h) | h) | h
  · omega
  · subst h; decide
  · subst h; decide
  · subst h; decide
  · omega
  · omega

/-- Reading the escape of one character gives the character back. -/
theorem parseStringAux_escapeChar (c : Char) (rest : List Char) :
    parseStringAux none (escapeChar c ++ rest) = consChars [c] (parseStringAux none rest) := by
  unfold escapeChar
  split
  · rename_i h; subst h; simp only [List.cons_append, List.nil_append]; rw [parseStringAux.eq_def]; simp [shortEscape, flushSurrogate]
  · split
    · rename_i h; subst h; simp only [List.cons_append, List.nil_append]; rw [parseStringAux.eq_def]; simp [shortEscape, flushSurrogate]
    · split
      · rename_i h; subst h; simp only [List.cons_append, List.nil_append]; rw [parseStringAux.eq_def]; simp [shortEscape, flushSurrogate]
      · split
        · rename_i h; subst h; simp only [List.cons_append, List.nil_append]; rw [parseStringAux.eq_def]; simp [shortEscape, flushSurrogate]
        · split
          · rename_i h; subst h; simp only [List.cons_append, List.nil_append]; rw [parseStringAux.eq_def]; simp [shortEscape, flushSurrogate]
          · rename_i h1 h2 h3 h4 h5
            split
            · rename_i hu
              have hlt := needsUnicodeEscape_lt c hu
              have hhex := hexValue4_hex4 c.toNat (by omega)
              have hhigh : isHighSurrogate c.toNat = false := by
                unfold isHighSurrogate
                simp only [Bool.and_eq_false_imp, decide_eq_true_eq, decide_eq_false_iff_not]
                omega
              have hlow : isLowSurrogate c.toNat = false := by
                unfold isLowSurrogate
                simp only [Bool.and_eq_false_imp, decide_eq_true_eq, decide_eq_false_iff_not]
                omega
              have hunit : unitChar c.toNat = c := by
                unfold unitChar
                simp [hhigh, hlow, Char.ofNat_toNat]
              simp only [hex4, List.cons_append, List.nil_append]
              rw [parseStringAux.eq_def]
              simp [hhex, hhigh, hunit]
            · rename_i hu
              have h32 : ¬ c.toNat < 32 := by
                intro hlt
                apply hu
                unfold needsUnicodeEscape
                simp [hlt]
              simp only [List.cons_append, List.nil_append]
              rw [parseStringAux.eq_def]
              simp [h1, h2, h32, flushSurrogate]

/-- `consChars` of a result. -/
theorem consChars_some (cs s rest : List Char) :
    consChars cs (some (s, rest)) = some (cs ++ s, rest) := rfl

/-- A string literal is read back as the string it was written for. -/
theorem parseStringBody_escape (s rest : List Char) :
    parseStringBody (escape s ++ '"' :: rest) = some (s, rest) := by
  unfold parseStringBody
  induction s with
  | nil =>
    simp only [escape, List.nil_append]
    rw [parseStringAux.eq_def]
    simp [flushSurrogate]
  | cons c s ih =>
    simp only [escape, List.append_assoc]
    rw [parseStringAux_escapeChar, ih]
    rfl

/-! ## Numbers survive `json.Marshal` followed by the decoder of documents -/

/-- The character of a decimal digit is a digit. -/
theorem isDigit_digitChar (d : Nat) (h : d < 10) : isDigit (digitChar d) = true := by
  interval_cases d <;> rfl

/-- Only the digit zero is written as the character zero. -/
theorem digitChar_ne_zero (d : Nat) (h : d < 10) (h0 : d ≠ 0) : digitChar d ≠ '0' := by
  interval_cases d <;> first | exact absurd rfl h0 | decide

/-- The digits `decimalAux` puts in front of its accumulator: at least one, all of them
digits, and a leading zero only for the number zero. -/
theorem decimalAux_spec :
    ∀ (fuel n : Nat) (acc : List Char), n < fuel →
      ∃ d ds, decimalAux fuel n acc = d :: (ds ++ acc) ∧ isDigit d = true ∧
        (∀ c ∈ ds, isDigit c = true) ∧ (d = '0' → n = 0) := by
  intro fuel
  induction fuel with
  | zero => intro n acc h; omega
  | succ fuel ih =>
    intro n acc h
    rw [decimalAux]
    split
    · rename_i hn
      refine ⟨digitChar n, [], rfl, isDigit_digitChar n hn, by simp, ?_⟩
      intro h0
      by_contra hne
      exact digitChar_ne_zero n hn hne h0
    · rename_i hn
      have hq : n / 10 < fuel := by omega
      obtain ⟨d, ds, heq, hd, hds, hzero⟩ := ih (n / 10) (digitChar (n % 10) :: acc) hq
      refine ⟨d, ds ++ [digitChar (n % 10)], by simp [heq], hd, ?_, ?_⟩
      · intro c hc
        rcases List.mem_append.1 hc with hc | hc
        · exact hds c hc
        · simp only [List.mem_singleton] at hc
          subst hc
          exact isDigit_digitChar _ (Nat.mod_lt _ (by decide))
      · intro h0
        have := hzero h0
        omega

/-- A digit is a number character. -/
theorem isNumberChar_of_isDigit (c : Char) (h : isDigit c = true) : isNumberChar c = true := by
  simp [isNumberChar, h]

/-- The decimal text of a natural number passes the grammar of an unsigned number. -/
theorem decimal_spec (n : Nat) :
    ∃ d ds, decimal n = d :: ds ∧ isDigit d = true ∧ (∀ c ∈ ds, isDigit c = true) ∧
      validUnsigned (d :: ds) = true := by
  obtain ⟨d, ds, heq, hd, hds, hzero⟩ := decimalAux_spec (n + 1) n [] (Nat.lt_succ_self n)
  rw [List.append_nil] at heq
  refine ⟨d, ds, heq, hd, hds, ?_⟩
  have hall : ∀ c ∈ d :: ds, isDigit c = true := by
    intro c hc
    rcases List.mem_cons.1 hc with hc | hc
    · subst hc; exact hd
    · exact hds c hc
  unfold validUnsigned
  rw [List.takeWhile_eq_self_iff.2 hall, List.dropWhile_eq_nil_iff.2 hall]
  simp only [validIntPart, validFracExp, Bool.and_true]
  split
  · rename_i h0
    have hn := hzero h0
    subst hn
    have : decimalAux (0 + 1) 0 [] = ['0'] := rfl
    rw [this] at heq
    simp only [List.cons.injEq] at heq
    rw [← heq.2]
    rfl
  · rfl

/-- The decimal text of an integer is a well formed number literal. -/
theorem isNumber_decimalInt (i : Int) : isNumber (decimalInt i) = true := by
  obtain ⟨d, ds, heq, hd, hds, hvalid⟩ := decimal_spec i.natAbs
  have hall : ∀ c ∈ d :: ds, isNumberChar c = true := by
    intro c hc
    rcases List.mem_cons.1 hc with hc | hc
    · subst hc; exact isNumberChar_of_isDigit _ hd
    · exact isNumberChar_of_isDigit _ (hds c hc)
  unfold decimalInt isNumber
  split
  · rw [heq]
    have h1 : isNumberChar '-' = true := rfl
    have h2 : (d :: ds).all isNumberChar = true := List.all_eq_true.2 hall
    simp only [List.all_cons] at h2
    simp only [List.all_cons, if_true, hvalid, Bool.and_true, h1, h2, Bool.true_and]
  · rw [heq]
    have hminus : d ≠ '-' := by
      intro h
      subst h
      exact absurd hd (by decide)
    simp only [hminus, if_false, hvalid, Bool.and_true]
    exact List.all_eq_true.2 hall

/-- The literal of a number read back gives the number. -/
theorem Number.ofText_text (n : Number) : Number.ofText n.text = some n := by
  unfold Number.ofText
  simp [n.valid]

/-- A Go `int` comes back from its text as the number with its decimal literal. -/
theorem canon_int (i : Int) : canon (.int i) = .number ⟨decimalInt i, isNumber_decimalInt i⟩ := by
  have h : Number.ofText (decimalInt i) = some ⟨decimalInt i, isNumber_decimalInt i⟩ :=
    Number.ofText_text ⟨decimalInt i, isNumber_decimalInt i⟩
  rw [canon, h]

/-- A number literal in front of a terminated text is read as a whole. -/
theorem parseNumber_text (n : Number) (rest : List Char) (hrest : Terminated rest) :
    parseNumber (n.text ++ rest) = some (.number n, rest) := by
  have hall : ∀ c ∈ n.text, isNumberChar c = true := by
    have h := n.valid
    unfold isNumber at h
    simp only [Bool.and_eq_true] at h
    exact List.all_eq_true.1 h.1
  have hrest1 : List.takeWhile isNumberChar rest = [] := by
    cases rest with
    | nil => rfl
    | cons c cs =>
      have := hrest c (by simp)
      simp [List.takeWhile, this]
  have hrest2 : List.dropWhile isNumberChar rest = rest := by
    cases rest with
    | nil => rfl
    | cons c cs =>
      have := hrest c (by simp)
      simp [List.dropWhile, this]
  unfold parseNumber
  rw [List.takeWhile_append_of_pos hall, List.dropWhile_append_of_pos hall, hrest1, hrest2,
    List.append_nil, Number.ofText_text]

/-! ## Values survive `json.Marshal` followed by the decoder of documents -/

/-- White space is skipped up to the first other character. -/
theorem skipSpace_cons (c : Char) (cs : List Char) (h : isSpace c = false) :
    skipSpace (c :: cs) = c :: cs := by
  simp [skipSpace, h]

/-- A number character is not white space and starts none of the other kinds of value. -/
theorem isNumberChar_head (c : Char) (h : isNumberChar c = true) :
    isSpace c = false ∧ c ≠ 'n' ∧ c ≠ 't' ∧ c ≠ 'f' ∧ c ≠ '"' ∧ c ≠ '[' ∧ c ≠ '\x7b' ∧
      c ≠ ']' ∧ c ≠ '\x7d' := by
  refine ⟨?_, ?_, ?_, ?_, ?_, ?_, ?_, ?_, ?_⟩
  · cases hs : isSpace c with
    | false => rfl
    | true =>
      exfalso
      unfold isSpace at hs
      simp only [Bool.or_eq_true, beq_iff_eq] at hs
      rcases hs with ((hs | hs) | hs) | hs <;> subst hs <;> exact absurd h (by decide)
  all_goals
    intro hc
    subst hc
    exact absurd h (by decide)

/-- The literal of a number starts with a number character. -/
theorem Number.text_head (n : Number) :
    ∃ c cs, n.text = c :: cs ∧ isNumberChar c = true := by
  have h := n.valid
  unfold isNumber at h
  cases ht : n.text with
  | nil => rw [ht] at h; simp at h
  | cons c cs =>
    rw [ht] at h
    simp only [List.all_cons, Bool.and_eq_true] at h
    exact ⟨c, cs, rfl, h.1.1⟩

/-- A number is read back from its text. -/
theorem parseValue_number (n : Number) (fuel : Nat) (rest : List Char)
    (hrest : Terminated rest) :
    parseValue (fuel + 1) (n.text ++ rest) = some (.number n, rest) := by
  obtain ⟨c, cs, htext, hc⟩ := n.text_head
  obtain ⟨h0, h1, h2, h3, h4, h5, h6, _, _⟩ := isNumberChar_head c hc
  have hp := parseNumber_text n rest hrest
  rw [htext] at hp ⊢
  rw [parseValue]
  simp only [List.cons_append, skipSpace_cons c _ h0, h1, h2, h3, h4, h5, h6, if_false]
  exact hp

/-- The text of a value starts with a character that is not white space and closes neither an
array nor an object. -/
theorem encode_head (v : Value) :
    ∃ c cs, encode v = c :: cs ∧ isSpace c = false ∧ c ≠ ']' ∧ c ≠ '\x7d' := by
  cases v with
  | nil => exact ⟨'n', _, by rw [encode], by decide, by decide, by decide⟩
  | bool b =>
    cases b with
    | true => exact ⟨'t', _, by rw [encode], by decide, by decide, by decide⟩
    | false => exact ⟨'f', _, by rw [encode], by decide, by decide, by decide⟩
  | int i =>
    obtain ⟨c, cs, htext, hc⟩ := Number.text_head ⟨decimalInt i, isNumber_decimalInt i⟩
    obtain ⟨h0, _, _, _, _, _, _, h7, h8⟩ := isNumberChar_head c hc
    exact ⟨c, cs, by rw [encode]; exact htext, h0, h7, h8⟩
  | number n =>
    obtain ⟨c, cs, htext, hc⟩ := n.text_head
    obtain ⟨h0, _, _, _, _, _, _, h7, h8⟩ := isNumberChar_head c hc
    exact ⟨c, cs, by rw [encode]; exact htext, h0, h7, h8⟩
  | string s => exact ⟨'"', _, by rw [encode, encodeString], by decide, by decide, by decide⟩
  | array xs => exact ⟨'[', _, by rw [encode], by decide, by decide, by decide⟩
  | object ms => exact ⟨'\x7b', _, by rw [encode], by decide, by decide, by decide⟩

/-- The text of a value is not empty. -/
theorem encode_length_pos (v : Value) : 0 < (encode v).length := by
  obtain ⟨c, cs, h, _⟩ := encode_head v
  rw [h]
  simp

/-- A comma and the closing characters end a number literal. -/
theorem terminated_cons (c : Char) (cs : List Char) (h : isNumberChar c = false) :
    Terminated (c :: cs) := by
  intro d hd
  simp only [List.head?_cons, Option.mem_def, Option.some.injEq] at hd
  subst hd
  exact h

/-- The text of a single element. -/
theorem encodeElements_single (v : Value) : encodeElements [v] = encode v := by
  rw [encodeElements]

/-- The text of two or more elements. -/
theorem encodeElements_cons (v w : Value) (vs : List Value) :
    encodeElements (v :: w :: vs) = encode v ++ ',' :: encodeElements (w :: vs) := by
  rw [encodeElements]

/-- The text of a single member. -/
theorem encodeMembers_single (k : String) (v : Value) :
    encodeMembers [(k, v)] = encodeString k.data ++ ':' :: encode v := by
  rw [encodeMembers]

/-- The text of two or more members. -/
theorem encodeMembers_cons (k : String) (v : Value) (m : String × Value)
    (ms : List (String × Value)) :
    encodeMembers ((k, v) :: m :: ms) =
      encodeString k.data ++ ':' :: (encode v ++ ',' :: encodeMembers (m :: ms)) := by
  rw [encodeMembers]

/-- The text `json.Marshal` writes for a value, followed by text that does not continue a
number, is read back by the decoder as the canonical form of the value and leaves that text. -/
theorem parseValue_encode (v : Value) :
    ∀ (fuel : Nat) (rest : List Char), (encode v).length < fuel → Terminated rest →
      parseValue fuel (encode v ++ rest) = some (canon v, rest) := by
  refine Value.rec
    (motive_1 := fun v => ∀ (fuel : Nat) (rest : List Char), (encode v).length < fuel →
      Terminated rest → parseValue fuel (encode v ++ rest) = some (canon v, rest))
    (motive_2 := fun xs => ∀ (fuel : Nat) (rest : List Char), xs ≠ [] →
      (encodeElements xs).length + 1 < fuel →
      parseElements fuel (encodeElements xs ++ ']' :: rest) = some (canonElements xs, rest))
    (motive_3 := fun ms => ∀ (fuel : Nat) (rest : List Char), ms ≠ [] →
      (encodeMembers ms).length + 1 < fuel →
      parseMembers fuel (encodeMembers ms ++ '\x7d' :: rest) = some (canonMembers ms, rest))
    (motive_4 := fun p => ∀ (fuel : Nat) (rest : List Char), (encode p.2).length < fuel →
      Terminated rest → parseValue fuel (encode p.2 ++ rest) = some (canon p.2, rest))
    ?nil ?bool ?int ?number ?string ?array ?object ?enil ?econs ?mnil ?mcons ?pair v
  case nil =>
    intro fuel rest hlen _
    obtain ⟨f, rfl⟩ : ∃ f, fuel = f + 1 := ⟨fuel - 1, by omega⟩
    rw [parseValue]
    simp [encode, skipSpace, isSpace, canon]
  case bool =>
    intro b fuel rest hlen _
    obtain ⟨f, rfl⟩ : ∃ f, fuel = f + 1 := ⟨fuel - 1, by omega⟩
    rw [parseValue]
    cases b <;> simp [encode, skipSpace, isSpace, canon]
  case int =>
    intro i fuel rest hlen hrest
    obtain ⟨f, rfl⟩ : ∃ f, fuel = f + 1 := ⟨fuel - 1, by omega⟩
    rw [canon_int]
    have h := parseValue_number ⟨decimalInt i, isNumber_decimalInt i⟩ f rest hrest
    rw [encode]
    exact h
  case number =>
    intro n fuel rest hlen hrest
    obtain ⟨f, rfl⟩ : ∃ f, fuel = f + 1 := ⟨fuel - 1, by omega⟩
    rw [encode, canon]
    exact parseValue_number n f rest hrest
  case string =>
    intro s fuel rest hlen _
    obtain ⟨f, rfl⟩ : ∃ f, fuel = f + 1 := ⟨fuel - 1, by omega⟩
    rw [parseValue, encode, canon, encodeString]
    have h := parseStringBody_escape s.data rest
    simp only [List.cons_append, List.append_assoc, List.singleton_append]
    rw [skipSpace_cons _ _ (by decide)]
    simp [h]
  case array =>
    intro xs ih fuel rest hlen _
    obtain ⟨f, rfl⟩ : ∃ f, fuel = f + 1 := ⟨fuel - 1, by omega⟩
    rw [encode] at hlen
    rw [parseValue, encode, canon]
    simp only [List.cons_append, List.append_assoc, List.singleton_append, List.nil_append]
    rw [skipSpace_cons _ _ (by decide)]
    cases xs with
    | nil => simp [encodeElements, canonElements, skipSpace, isSpace]
    | cons x xs =>
      have hih := ih f rest (by simp) (by simp at hlen ⊢; omega)
      obtain ⟨c, cs, hc, hsp, hb, _⟩ := encode_head x
      have hhead : ∃ cs1, encodeElements (x :: xs) ++ ']' :: rest = c :: cs1 := by
        cases xs with
        | nil => exact ⟨_, by rw [encodeElements_single, hc]; rfl⟩
        | cons y ys => exact ⟨_, by rw [encodeElements_cons, hc]; rfl⟩
      obtain ⟨cs1, hcs1⟩ := hhead
      rw [hcs1] at hih ⊢
      simp only [skipSpace_cons c _ hsp, hb, if_false, hih]
      simp
  case object =>
    intro ms ih fuel rest hlen _
    obtain ⟨f, rfl⟩ : ∃ f, fuel = f + 1 := ⟨fuel - 1, by omega⟩
    rw [encode] at hlen
    rw [parseValue, encode, canon]
    simp only [List.cons_append, List.append_assoc, List.singleton_append, List.nil_append]
    rw [skipSpace_cons _ _ (by decide)]
    cases ms with
    | nil => simp [encodeMembers, canonMembers, skipSpace, isSpace]
    | cons m ms =>
      have hih := ih f rest (by simp) (by simp at hlen ⊢; omega)
      have hhead : ∃ cs1, encodeMembers (m :: ms) ++ '\x7d' :: rest = '"' :: cs1 := by
        obtain ⟨k, x⟩ := m
        cases ms with
        | nil => exact ⟨_, by rw [encodeMembers_single, encodeString]; rfl⟩
        | cons y ys => exact ⟨_, by rw [encodeMembers_cons, encodeString]; rfl⟩
      obtain ⟨cs1, hcs1⟩ := hhead
      rw [hcs1] at hih ⊢
      have hq : isSpace '"' = false := by decide
      simp only [skipSpace_cons '"' _ hq, hih]
      simp
  case enil =>
    intro fuel rest h
    exact absurd rfl h
  case econs =>
    intro x xs ihx ihxs fuel rest _ hlen
    obtain ⟨f, rfl⟩ : ∃ f, fuel = f + 1 := ⟨fuel - 1, by omega⟩
    rw [parseElements]
    cases xs with
    | nil =>
      rw [encodeElements_single] at hlen ⊢
      rw [ihx f (']' :: rest) (by omega) (terminated_cons _ _ (by decide))]
      simp [skipSpace, isSpace, canonElements]
    | cons y ys =>
      rw [encodeElements_cons] at hlen
      simp only [List.length_append, List.length_cons] at hlen
      have h2 := ihxs f rest (by simp) (by omega)
      rw [encodeElements_cons]
      simp only [List.append_assoc, List.cons_append]
      rw [ihx f _ (by omega) (terminated_cons _ _ (by decide))]
      simp only [skipSpace_cons ',' _ (by decide), if_true, h2]
      simp [consElement, canonElements]
  case mnil =>
    intro fuel rest h
    exact absurd rfl h
  case mcons =>
    intro m ms ihm ihms fuel rest _ hlen
    obtain ⟨f, rfl⟩ : ∃ f, fuel = f + 1 := ⟨fuel - 1, by omega⟩
    obtain ⟨k, x⟩ := m
    rw [parseMembers]
    cases ms with
    | nil =>
      rw [encodeMembers_single] at hlen ⊢
      simp only [encodeString, List.length_append, List.length_cons] at hlen
      simp only [encodeString, List.cons_append, List.append_assoc, List.nil_append]
      rw [skipSpace_cons _ _ (by decide)]
      simp only [if_true, parseStringBody_escape, skipSpace_cons ':' _ (by decide)]
      rw [ihm f _ (by simp; omega) (terminated_cons _ _ (by decide))]
      simp [skipSpace, isSpace, canonMembers]
    | cons y ys =>
      rw [encodeMembers_cons] at hlen
      simp only [encodeString, List.length_append, List.length_cons] at hlen
      have h2 := ihms f rest (by simp) (by omega)
      rw [encodeMembers_cons]
      simp only [encodeString, List.cons_append, List.append_assoc, List.nil_append]
      rw [skipSpace_cons _ _ (by decide)]
      simp only [if_true, parseStringBody_escape, skipSpace_cons ':' _ (by decide)]
      rw [ihm f _ (by simp; omega) (terminated_cons _ _ (by decide))]
      simp only [skipSpace_cons ',' _ (by decide), if_true, h2]
      simp [consMember, canonMembers]
  case pair =>
    intro k x ih
    exact ih

/-- The canonical form of a value has the same text as the value. -/
theorem encode_canon (v : Value) : encode (canon v) = encode v := by
  refine Value.rec
    (motive_1 := fun v => encode (canon v) = encode v)
    (motive_2 := fun xs => encodeElements (canonElements xs) = encodeElements xs)
    (motive_3 := fun ms => encodeMembers (canonMembers ms) = encodeMembers ms)
    (motive_4 := fun p => encode (canon p.2) = encode p.2)
    ?nil ?bool ?int ?number ?string ?array ?object ?enil ?econs ?mnil ?mcons ?pair v
  case nil => rfl
  case bool => intro b; rfl
  case int => intro i; rw [canon_int]; rw [encode, encode]
  case number => intro n; rfl
  case string => intro s; rfl
  case array => intro xs ih; rw [canon, encode, encode, ih]
  case object => intro ms ih; rw [canon, encode, encode, ih]
  case enil => rfl
  case econs =>
    intro x xs ihx ihxs
    have e1 : ∀ (a : Value) (as : List Value),
        canonElements (a :: as) = canon a :: canonElements as := by
      intro a as; simp only [canonElements]
    cases xs with
    | nil =>
      rw [e1]
      show encodeElements [canon x] = encodeElements [x]
      rw [encodeElements_single, encodeElements_single, ihx]
    | cons y ys =>
      rw [e1] at ihxs
      rw [e1, e1, encodeElements_cons, encodeElements_cons, ihx, ihxs]
  case mnil => rfl
  case mcons =>
    intro m ms ihm ihms
    obtain ⟨k, x⟩ := m
    have e1 : ∀ (a : String) (b : Value) (as : List (String × Value)),
        canonMembers ((a, b) :: as) = (a, canon b) :: canonMembers as := by
      intro a b as; simp only [canonMembers]
    cases ms with
    | nil =>
      rw [e1]
      show encodeMembers [(k, canon x)] = encodeMembers [(k, x)]
      rw [encodeMembers_single, encodeMembers_single, ihm]
    | cons y ys =>
      obtain ⟨k2, y2⟩ := y
      rw [e1] at ihms
      rw [e1, e1, encodeMembers_cons, encodeMembers_cons, ihm, ihms]
  case pair => intro k x ih; exact ih

/-- The decoder of documents reads the text `json.Marshal` writes for a value as the
canonical form of the value. -/
theorem jsonDecode_jsonMarshal (v : Value) : jsonDecode (jsonMarshal v) = .ok (canon v) := by
  unfold jsonDecode jsonMarshal
  have h := parseValue_encode v ((encode v).length + 1) [] (Nat.lt_succ_self _)
    (by intro c hc; simp at hc)
  rw [List.append_nil] at h
  simp only [h, skipSpace]

/-- The patch set `patchObject` builds for the single destination `/a/b/c` is the text of the
array with the one operation object. -/
theorem patchSetText_single (v : Value) :
    patchSetText [patchOperation "/a/b/c" (jsonMarshal v)] =
      jsonMarshal (.array [.object [("op", .string "add"), ("path", .string "/a/b/c"),
        ("value", v)]]) := by
  apply String.ext
  simp only [patchSetText, patchOperation, jsonMarshal, String.intercalate, String.data_append]
  rw [encode, encodeElements_single, encode, encodeMembers_cons, encodeMembers_cons,
    encodeMembers_single, encode, encode]
  simp [encodeString, escape, escapeChar, needsUnicodeEscape, String.intercalate.go]

/-- The patch set for the single destination `/a/b/c` decodes to the one add operation. -/
theorem decodePatch_single (v : Value) :
    decodePatch (patchSetText [patchOperation "/a/b/c" (jsonMarshal v)]) =
      .ok [[("op", .string "add"), ("path", .string "/a/b/c"), ("value", canon v)]] := by
  rw [patchSetText_single, decodePatch, jsonDecode_jsonMarshal]
  simp [canon, canonElements, canonMembers, decodeOperations]

/-- The add operation for `/a/b/c` applied to the empty object. -/
theorem applyPatch_single (v : Value) :
    applyPatch [[("op", .string "add"), ("path", .string "/a/b/c"), ("value", canon v)]]
        "\x7b\x7d" =
      .ok ("\x7b\"a\":\x7b\"b\":\x7b\"c\":" ++ jsonMarshal v ++ "\x7d\x7d\x7d") := by
  have hdoc : jsonDecode "\x7b\x7d" = .ok (.object []) := rfl
  have hop : applyOperation (.object [])
      [("op", .string "add"), ("path", .string "/a/b/c"), ("value", canon v)] =
      .ok (.object [("a", .object [("b", .object [("c", canon v)])])]) := by
    have hp : pointerNew "/a/b/c" = .ok [['a'], ['b'], ['c']] := rfl
    have h1 : lookupMember "op"
        [("op", .string "add"), ("path", .string "/a/b/c"), ("value", canon v)] =
        some (.string "add") := by
      simp [lookupMember]
    have h2 : lookupMember "path"
        [("op", .string "add"), ("path", .string "/a/b/c"), ("value", canon v)] =
        some (.string "/a/b/c") := by
      simp [lookupMember]
    have h3 : lookupMember "value"
        [("op", .string "add"), ("path", .string "/a/b/c"), ("value", canon v)] =
        some (canon v) := by
      simp [lookupMember]
    have ht : List.map unescapeToken [['a'], ['b'], ['c']] = ["a", "b", "c"] := rfl
    unfold applyOperation
    simp only [h1, h2, h3, hp, ht, if_true, Option.getD_some]
    simp [addPath, lookupMember, setMember, createPath]
  unfold applyPatch
  simp only [hdoc, applyOperations, hop]
  congr 1
  apply String.ext
  simp only [jsonMarshal, String.data_append]
  rw [encode, encodeMembers_single, encode, encodeMembers_single, encode, encodeMembers_single,
    encode_canon]
  simp [encodeString, escape, escapeChar, needsUnicodeEscape]

/-- A member that is bound anew is the one a lookup finds. -/
theorem lookupMember_append_new (key : String) (value : Value) :
    ∀ members : List (String × Value),
      lookupMember key (members ++ [(key, value)]) = some value := by
  intro members
  induction members with
  | nil => simp [lookupMember]
  | cons m ms ih =>
    obtain ⟨k, v⟩ := m
    show lookupMember key ((k, v) :: (ms ++ [(key, value)])) = some value
    rw [lookupMember, ih]

/-- Binding an existing key again replaces what a lookup finds. -/
theorem lookupMember_map_set (key : String) (value : Value) :
    ∀ members : List (String × Value),
      lookupMember key (members.map (fun m => if m.1 = key then (m.1, value) else m)) =
        (lookupMember key members).map (fun _ => value) := by
  intro members
  induction members with
  | nil => rfl
  | cons m ms ih =>
    obtain ⟨k, v⟩ := m
    simp only [List.map_cons]
    by_cases hk : k = key
    · simp only [hk, if_true]
      rw [lookupMember, ih, lookupMember]
      cases lookupMember key ms with
      | none => simp
      | some w => simp
    · simp only [hk, if_false]
      rw [lookupMember, ih, lookupMember]
      cases lookupMember key ms with
      | none => simp [hk]
      | some w => simp

/-- After `setMember` the key is bound to the value. -/
theorem lookupMember_setMember (key : String) (value : Value) (members : List (String × Value)) :
    lookupMember key (setMember key value members) = some value := by
  unfold setMember
  split
  · rename_i h
    rw [lookupMember_map_set]
    cases hl : lookupMember key members with
    | none => rw [hl] at h; simp at h
    | some w => rfl
  · exact lookupMember_append_new key value members

/-- The structure an add operation creates for the rest of its path holds the value under
that path, an array it created being read at its first index. -/
theorem pointerGet_createPath (value : Value) :
    ∀ tokens : List (List Char),
      pointerGet (tokens.map createdToken) (createPath (tokens.map unescapeToken) value) =
        .ok value := by
  intro tokens
  induction tokens with
  | nil => rfl
  | cons token tokens ih =>
    simp only [List.map_cons, createPath, pointerGet, createdToken]
    by_cases hd : unescapeToken token = "-"
    · have h0 : unescapeToken ['0'] = "0" := rfl
      have ha : atoi "0".data = some 0 := by decide
      simp only [hd, if_true, h0, getSingle, ha]
      simp only [createdToken] at ih
      simp [ih]
    · simp only [hd, if_false, getSingle, lookupMember]
      simp only [createdToken] at ih
      simp [ih]

/-- An add operation whose path leaves the document at an object that lacks the next member
binds that member to the structure for the rest of the path. -/
theorem addPath_missing_member (missing : String) (rest : List String)
    (members : List (String × Value)) (value : Value)
    (hmissing : lookupMember missing members = none) :
    addPath (missing :: rest) (.object members) value =
      .ok (.object (members ++ [(missing, createPath rest value)])) := by
  rw [addPath]
  · simp [setMember, hmissing]
  · intro _ _ _ _ h
    rw [hmissing] at h
    cases h

/-- An add operation follows the part of its path that exists, as `Pointer.Get` does, and
puts what it makes of the node at the end of that part in the place of the node. -/
theorem addPath_along_existing (value node1 : Value) (more : List String) (hmore : more ≠ []) :
    ∀ (existing : List (List Char)) (doc node : Value),
      pointerGet existing doc = .ok node → addPath more node value = .ok node1 →
      ∃ doc1, addPath (existing.map unescapeToken ++ more) doc value = .ok doc1 ∧
        pointerGet existing doc1 = .ok node1 := by
  intro existing
  induction existing with
  | nil =>
    intro doc node hget hadd
    simp only [pointerGet, Except.ok.injEq] at hget
    subst hget
    exact ⟨node1, by simpa using hadd, rfl⟩
  | cons token existing ih =>
    intro doc node hget hadd
    rw [pointerGet] at hget
    cases hs : getSingle doc (unescapeToken token) with
    | error err => rw [hs] at hget; cases hget
    | ok child =>
      rw [hs] at hget
      obtain ⟨child1, hc1, hg1⟩ := ih child node hget hadd
      have hne : existing.map unescapeToken ++ more ≠ [] := by
        intro h
        exact hmore (List.append_eq_nil.1 h).2
      obtain ⟨t, ts, hts⟩ : ∃ t ts, existing.map unescapeToken ++ more = t :: ts := by
        cases h : existing.map unescapeToken ++ more with
        | nil => exact absurd h hne
        | cons t ts => exact ⟨t, ts, rfl⟩
      cases doc with
      | object members =>
        simp only [getSingle] at hs
        cases hl : lookupMember (unescapeToken token) members with
        | none => rw [hl] at hs; cases hs
        | some c =>
          rw [hl] at hs
          simp only [Except.ok.injEq] at hs
          subst hs
          refine ⟨.object (setMember (unescapeToken token) child1 members), ?_, ?_⟩
          · simp only [List.map_cons, List.cons_append]
            rw [hts] at hc1 ⊢
            rw [addPath.eq_def]
            simp only [hl, hc1]
          · rw [pointerGet]
            simp only [getSingle, lookupMember_setMember, hg1]
      | array xs =>
        simp only [getSingle] at hs
        cases ha : atoi (unescapeToken token).data with
        | none => rw [ha] at hs; cases hs
        | some i =>
          simp only [ha] at hs
          split at hs
          · cases hs
          · rename_i hb
            have hb1 : ¬ i < 0 := fun h => hb (Or.inl h)
            have hb2 : ¬ (xs.length : Int) ≤ i := fun h => hb (Or.inr h)
            have hlt : i.toNat < xs.length := by omega
            cases hx : xs.get? i.toNat with
            | none => rw [hx] at hs; cases hs
            | some c =>
              rw [hx] at hs
              simp only [Except.ok.injEq] at hs
              subst hs
              have hdash : unescapeToken token ≠ "-" := by
                intro h
                rw [h] at ha
                have : atoi "-".data = none := by decide
                rw [this] at ha
                cases ha
              have hx1 : xs[i.toNat]? = some c := by
                rw [← List.get?_eq_getElem?]
                exact hx
              have hb3 : ¬ (i < 0 ∨ (xs.length : Int) < i) := by omega
              refine ⟨.array (xs.set i.toNat child1), ?_, ?_⟩
              · simp only [List.map_cons, List.cons_append]
                rw [hts] at hc1 ⊢
                rw [addPath.eq_def]
                simp only [hdash, if_false, ha, hb3, hx1, hc1]
              · rw [pointerGet]
                have hb4 : ¬ (i < 0 ∨ ((xs.set i.toNat child1).length : Int) ≤ i) := by
                  rw [List.length_set]
                  omega
                have hx2 : (xs.set i.toNat child1).get? i.toNat = some child1 := by
                  rw [List.get?_eq_getElem?, List.getElem?_set_self hlt]
                simp only [getSingle, ha, hb4, if_false, hx2, hg1]
      | nil => simp [getSingle] at hs
      | bool b => simp [getSingle] at hs
      | int n => simp [getSingle] at hs
      | number n => simp [getSingle] at hs
      | string s => simp [getSingle] at hs

/-- `Pointer.Get` along a path in two parts. -/
theorem pointerGet_append (post : List (List Char)) :
    ∀ (pre : List (List Char)) (doc node : Value), pointerGet pre doc = .ok node →
      pointerGet (pre ++ post) doc = pointerGet post node := by
  intro pre
  induction pre with
  | nil =>
    intro doc node h
    simp only [pointerGet, Except.ok.injEq] at h
    subst h
    rfl
  | cons token pre ih =>
    intro doc node h
    rw [pointerGet] at h
    show pointerGet (token :: (pre ++ post)) doc = _
    rw [pointerGet]
    cases hs : getSingle doc (unescapeToken token) with
    | error err => rw [hs] at h; cases h
    | ok child =>
      rw [hs] at h
      exact ih child node h

/-- C10, as stated, fails.  For the value null: a parameter that resolves to JSON null counts
as unset, so the render of the document `{}` with the destination `/a/b/c` succeeds and leaves
the document as it was, without the member `a`.  And for a parent path that does not exist
because a number stands in its way: over the document `{"a":5}` the add operation for
`/a/b/c` creates nothing and the render fails. -/
theorem null_value_adds_nothing :
    (renderTemplate sampleEnv 1
        ⟨"t", some ⟨some "\x7b\x7d"⟩,
          [⟨"p", false, none, some ⟨⟨none, some "/x"⟩, none, none, none, none, none⟩,
            [⟨none, some "/a/b/c"⟩]⟩]⟩
        ⟨⟨some (.object [("x", .nil)]), []⟩, 0⟩).1.toOption.map
          (fun t => t.Template.map (fun raw => raw.Raw)) = some (some (some "\x7b\x7d")) ∧
      "\x7b\x7d" ≠ "\x7b\"a\":\x7b\"b\":\x7b\"c\":" ++ jsonMarshal .nil ++ "\x7d\x7d\x7d" ∧
      renderTemplate sampleEnv 1
        ⟨"t", some ⟨some "\x7b\"a\":5\x7d"⟩,
          [⟨"p", false, some ⟨some "x", none, none, none⟩, none, [⟨none, some "/a/b/c"⟩]⟩]⟩
        ⟨⟨none, []⟩, 0⟩ =
        (.error (.generic "add operation does not apply at b"), ⟨⟨none, []⟩, 0⟩) := by
  refine ⟨rfl, by decide, rfl⟩

/-- C10, amended: with the patcher of the spec, rendering a template whose document is `{}` and
whose one parameter resolves to a value `v` other than nil and has the single destination
`/a/b/c` succeeds and yields the document `{"a":{"b":{"c":v}}}`.  In general the add
operation of a patch follows its path as far as the document goes, and where the path leaves
the document at an object that lacks the next member it succeeds, binds that member to the
objects for the rest of the path (an array of one element for the token `-`) and leaves the
other members of that object as they were; in the patched document `Pointer.Get` finds the
value under the path, an array that was created being read at its first index. -/
theorem add_creates_missing_parents (env : Env) (depth : Nat) (name : String)
    (parameter : ConfigurationParameter) (v : Value) (st st1 : State)
    (hdest : parameter.Destinations = [⟨none, some "/a/b/c"⟩])
    (hval : resolveTemplateParameter env.withPatcher (renderTemplate env.withPatcher depth)
      parameter st = (.ok v, st1))
    (hnil : v.isNil = false) :
    renderTemplate env.withPatcher (depth + 1) ⟨name, some ⟨some "\x7b\x7d"⟩, [parameter]⟩ st =
        (.ok ⟨name,
          some ⟨some ("\x7b\"a\":\x7b\"b\":\x7b\"c\":" ++ jsonMarshal v ++ "\x7d\x7d\x7d")⟩,
          [parameter]⟩, st1) ∧
      (∀ (path : String) (tokens : List (List Char)) (doc value : Value),
        pointerNew path = .ok tokens →
        applyOperation doc [("op", .string "add"), ("path", .string path), ("value", value)] =
          addPath (tokens.map unescapeToken) doc value) ∧
      (∀ (existing : List (List Char)) (missing : List Char) (rest : List (List Char))
        (doc value : Value) (members : List (String × Value)),
        pointerGet existing doc = .ok (.object members) →
        lookupMember (unescapeToken missing) members = none →
        ∃ doc1, addPath ((existing ++ missing :: rest).map unescapeToken) doc value = .ok doc1 ∧
          pointerGet existing doc1 =
            .ok (.object (members ++
              [(unescapeToken missing, createPath (rest.map unescapeToken) value)])) ∧
          pointerGet (existing ++ missing :: rest.map createdToken) doc1 = .ok value) := by
  refine ⟨?_, ?_, ?_⟩
  · have hd : patchDestinations parameter v parameter.Destinations [] st1.entry =
        (.ok [patchOperation "/a/b/c" (jsonMarshal v)], st1.entry) := by
      rw [hdest]
      simp [patchDestinations]
    have h1 : (Env.withPatcher env).DecodePatch = decodePatch := rfl
    have h2 : (Env.withPatcher env).Apply = applyPatch := rfl
    simp only [renderTemplate, renderTemplateWith, patchObject, hval, hnil, hd, h1, h2,
      decodePatch_single, applyPatch_single]
    simp
  · intro path tokens doc value hp
    have h1 : lookupMember "op"
        [("op", .string "add"), ("path", .string path), ("value", value)] =
        some (.string "add") := by
      simp [lookupMember]
    have h2 : lookupMember "path"
        [("op", .string "add"), ("path", .string path), ("value", value)] =
        some (.string path) := by
      simp [lookupMember]
    have h3 : lookupMember "value"
        [("op", .string "add"), ("path", .string path), ("value", value)] = some value := by
      simp [lookupMember]
    unfold applyOperation
    simp only [h1, h2, h3, hp, if_true, Option.getD_some]
  · intro existing missing rest doc value members hget hmissing
    have hadd := addPath_missing_member (unescapeToken missing) (rest.map unescapeToken)
      members value hmissing
    obtain ⟨doc1, h1, h2⟩ := addPath_along_existing value _
      (unescapeToken missing :: rest.map unescapeToken) (by simp) existing doc _ hget hadd
    refine ⟨doc1, ?_, h2, ?_⟩
    · simpa using h1
    · rw [pointerGet_append _ existing doc1 _ h2, pointerGet]
      simp only [getSingle, lookupMember_append_new]
      exact pointerGet_createPath value rest

/-- C10, witness: the string default `x` at `/a/b/c`, and the path of the tokens `z`, `a`,
`-` and `b` added to the document `{"z":{"y":false}}`, which has `/z` and lacks `/z/a`. -/
theorem add_creates_missing_parents_witness :
    renderTemplate sampleEnv.withPatcher (0 + 1)
        ⟨"t", some ⟨some "\x7b\x7d"⟩,
          [⟨"p", false, some ⟨some "x", none, none, none⟩, none, [⟨none, some "/a/b/c"⟩]⟩]⟩
        ⟨⟨none, []⟩, 0⟩ =
        (.ok ⟨"t",
          some ⟨some ("\x7b\"a\":\x7b\"b\":\x7b\"c\":" ++ jsonMarshal (.string "x") ++
            "\x7d\x7d\x7d")⟩,
          [⟨"p", false, some ⟨some "x", none, none, none⟩, none, [⟨none, some "/a/b/c"⟩]⟩]⟩,
          ⟨⟨none, []⟩, 0⟩) ∧
      ∃ doc1,
        addPath (([['z']] ++ ['a'] :: [['-'], ['b']]).map unescapeToken)
            (.object [("z", .object [("y", .bool false)])]) (.bool true) = .ok doc1 ∧
          pointerGet [['z']] doc1 =
            .ok (.object ([("y", .bool false)] ++
              [(unescapeToken ['a'], createPath ([['-'], ['b']].map unescapeToken) (.bool true))])) ∧
          pointerGet ([['z']] ++ ['a'] :: [['-'], ['b']].map createdToken) doc1 =
            .ok (.bool true) :=
  have h := add_creates_missing_parents sampleEnv 0 "t"
    ⟨"p", false, some ⟨some "x", none, none, none⟩, none, [⟨none, some "/a/b/c"⟩]⟩
    (.string "x") ⟨⟨none, []⟩, 0⟩ ⟨⟨none, []⟩, 0⟩ rfl rfl rfl
  ⟨h.1, h.2.2 [['z']] ['a'] [['-'], ['b']] (.object [("z", .object [("y", .bool false)])])
    (.bool true) [("y", .bool false)] rfl rfl⟩

/-- A successful render returns the template with a document. -/
theorem renderTemplate_ok_document (env : Env) (depth : Nat) (template rendered : ConfigurationTemplate)
    (st st1 : State) (h : renderTemplate env depth template st = (.ok rendered, st1)) :
    ∃ document, rendered.Template = some ⟨some document⟩ := by
  cases depth with
  | zero => simp [renderTemplate] at h
  | succ depth =>
    simp only [renderTemplate, renderTemplateWith] at h
    split at h
    · simp at h
    · split at h
      · simp at h
      · split at h
        · simp at h
        · rename_i object st2 _
          simp only [Prod.mk.injEq, Except.ok.injEq] at h
          exact ⟨object, by rw [← h.1]⟩

/-- C11: a parameter whose source is a reference to the configured template `child` is resolved
by rendering `child` against the same entry; when that render succeeds, the value of the
parameter is the rendered document parsed as a generic value, and when it fails, for instance
because a required parameter of `child` has no value, `resolveSource`,
`resolveTemplateParameter` and the outer `renderTemplate` fail with the same error and leave
the same state as the render of `child`. -/
theorem template_reference_renders_child (env : Env) (depth : Nat) (name : String)
    (child : ConfigurationTemplate) (parameter : ConfigurationParameter)
    (pre rest : List ConfigurationParameter) (outer bytes object : String) (st0 st : State)
    (hget : getTemplate env name = .ok child)
    (hsrc : parameter.Source = some ⟨⟨none, none⟩, none, none, none, none, some name⟩)
    (hpre : patchObject env (renderTemplate env depth) bytes pre st0 = (.ok object, st)) :
    (∀ rendered st1, renderTemplate env depth child st = (.ok rendered, st1) →
        ∃ document, rendered.Template = some ⟨some document⟩ ∧
          resolveSource env (renderTemplate env depth) parameter.Source st =
            (jsonUnmarshal document, st1)) ∧
      (∀ err st1, renderTemplate env depth child st = (.error err, st1) →
        resolveSource env (renderTemplate env depth) parameter.Source st = (.error err, st1) ∧
          resolveTemplateParameter env (renderTemplate env depth) parameter st =
            (.error err, st1) ∧
          renderTemplate env (depth + 1) ⟨outer, some ⟨some bytes⟩, pre ++ parameter :: rest⟩
            st0 = (.error err, st1)) := by
  constructor
  · intro rendered st1 hr
    obtain ⟨document, hdoc⟩ := renderTemplate_ok_document env depth child rendered st st1 hr
    refine ⟨document, hdoc, ?_⟩
    simp only [hsrc, resolveSource, resolveTemplateSource, hget, hr, hdoc, Option.getD_some]
    cases jsonUnmarshal document <;> rfl
  · intro err st1 hr
    have h1 : resolveSource env (renderTemplate env depth) parameter.Source st =
        (.error err, st1) := by
      simp only [hsrc, resolveSource, resolveTemplateSource, hget, hr]
    have h2 : resolveTemplateParameter env (renderTemplate env depth) parameter st =
        (.error err, st1) := by
      simp only [resolveTemplateParameter, h1]
    refine ⟨h1, h2, ?_⟩
    apply renderTemplate_of_patchObject_error
    rw [patchObject_append, hpre]
    simp only [patchObject, h2]

/-- C11, witness: the configured templates `good`, without parameters, and `bad`, with a
required parameter that has no value; the outer template has one parameter that refers to
`good`, respectively to `bad`. -/
theorem template_reference_renders_child_witness :
    (∃ document, (⟨"good", some ⟨some "\x7b\"size\":3\x7d"⟩, []⟩ :
          ConfigurationTemplate).Template = some ⟨some document⟩ ∧
        resolveSource { sampleEnv with
            Templates := [⟨"good", some ⟨some "\x7b\"size\":3\x7d"⟩, []⟩,
              ⟨"bad", some ⟨some "\x7b\x7d"⟩, [⟨"size", true, none, none, []⟩]⟩] }
          (renderTemplate { sampleEnv with
            Templates := [⟨"good", some ⟨some "\x7b\"size\":3\x7d"⟩, []⟩,
              ⟨"bad", some ⟨some "\x7b\x7d"⟩, [⟨"size", true, none, none, []⟩]⟩] } 1)
          (⟨"p", false, none, some ⟨⟨none, none⟩, none, none, none, none, some "good"⟩,
            [⟨none, some "/spec"⟩]⟩ : ConfigurationParameter).Source ⟨⟨none, []⟩, 0⟩ =
          (jsonUnmarshal document, ⟨⟨none, []⟩, 0⟩)) ∧
      renderTemplate { sampleEnv with
          Templates := [⟨"good", some ⟨some "\x7b\"size\":3\x7d"⟩, []⟩,
            ⟨"bad", some ⟨some "\x7b\x7d"⟩, [⟨"size", true, none, none, []⟩]⟩] } (1 + 1)
        ⟨"outer", some ⟨some "\x7b\x7d"⟩,
          [] ++ (⟨"p", false, none, some ⟨⟨none, none⟩, none, none, none, none, some "bad"⟩,
            [⟨none, some "/spec"⟩]⟩ : ConfigurationParameter) :: []⟩ ⟨⟨none, []⟩, 0⟩ =
        (.error (.parameterError "source for parameter size is required"), ⟨⟨none, []⟩, 0⟩) :=
  ⟨(template_reference_renders_child { sampleEnv with
        Templates := [⟨"good", some ⟨some "\x7b\"size\":3\x7d"⟩, []⟩,
          ⟨"bad", some ⟨some "\x7b\x7d"⟩, [⟨"size", true, none, none, []⟩]⟩] } 1 "good"
      ⟨"good", some ⟨some "\x7b\"size\":3\x7d"⟩, []⟩
      ⟨"p", false, none, some ⟨⟨none, none⟩, none, none, none, none, some "good"⟩,
        [⟨none, some "/spec"⟩]⟩ [] [] "outer" "\x7b\x7d" "\x7b\x7d" ⟨⟨none, []⟩, 0⟩
      ⟨⟨none, []⟩, 0⟩ rfl rfl rfl).1 ⟨"good", some ⟨some "\x7b\"size\":3\x7d"⟩, []⟩
      ⟨⟨none, []⟩, 0⟩ rfl,
    ((template_reference_renders_child { sampleEnv with
        Templates := [⟨"good", some ⟨some "\x7b\"size\":3\x7d"⟩, []⟩,
          ⟨"bad", some ⟨some "\x7b\x7d"⟩, [⟨"size", true, none, none, []⟩]⟩] } 1 "bad"
      ⟨"bad", some ⟨some "\x7b\x7d"⟩, [⟨"size", true, none, none, []⟩]⟩
      ⟨"p", false, none, some ⟨⟨none, none⟩, none, none, none, none, some "bad"⟩,
        [⟨none, some "/spec"⟩]⟩ [] [] "outer" "\x7b\x7d" "\x7b\x7d" ⟨⟨none, []⟩, 0⟩
      ⟨⟨none, []⟩, 0⟩ rfl rfl rfl).2
      (.parameterError "source for parameter size is required") ⟨⟨none, []⟩, 0⟩ rfl).2.2⟩

/-- C12: the render aborts at the first error.  When the parameters before `pk` are processed
and the processing of `pk` fails, `patchObject` and `renderTemplate` return that error and no
document, whatever parameters follow `pk`: the outcome and the state left behind, and so the
User namespace, are those of the list that ends with `pk`, so no parameter after `pk` is
resolved or applied. -/
theorem render_aborts_at_first_error (env : Env) (depth : Nat)
    (pk : ConfigurationParameter) (pre post : List ConfigurationParameter)
    (name bytes object : String) (err : Error) (st0 st st4 : State)
    (hpre : patchObject env (renderTemplate env depth) bytes pre st0 = (.ok object, st))
    (hfail : patchObject env (renderTemplate env depth) object [pk] st = (.error err, st4)) :
    patchObject env (renderTemplate env depth) bytes (pre ++ pk :: post) st0 = (.error err, st4) ∧
      patchObject env (renderTemplate env depth) bytes (pre ++ pk :: post) st0 =
        patchObject env (renderTemplate env depth) bytes (pre ++ [pk]) st0 ∧
      renderTemplate env (depth + 1) ⟨name, some ⟨some bytes⟩, pre ++ pk :: post⟩ st0 =
        (.error err, st4) ∧
      (renderTemplate env (depth + 1) ⟨name, some ⟨some bytes⟩, pre ++ pk :: post⟩ st0).2.entry =
        st4.entry := by
  have h1 : ∀ tail, patchObject env (renderTemplate env depth) bytes (pre ++ pk :: tail) st0 =
      (.error err, st4) := by
    intro tail
    rw [patchObject_append, hpre]
    show patchObject env (renderTemplate env depth) object ([pk] ++ tail) st = _
    rw [patchObject_append, hfail]
  have h2 := renderTemplate_of_patchObject_error env depth name bytes _ st0 st4 err (h1 post)
  refine ⟨h1 post, ?_, h2, ?_⟩
  · rw [h1 post, h1 []]
  · rw [h2]

/-- C12, witness: the required parameter `size` without a value, followed by the parameter
`password` that would write the registry key `pw`. -/
theorem render_aborts_at_first_error_witness :
    patchObject sampleEnv (renderTemplate sampleEnv 0) "\x7b\x7d"
        ([] ++ (⟨"size", true, none, none, []⟩ : ConfigurationParameter) ::
          [⟨"password", false, some ⟨some "secret", none, none, none⟩, none,
            [⟨some "pw", none⟩]⟩]) ⟨⟨none, []⟩, 0⟩ =
        (.error (.parameterError "source for parameter size is required"), ⟨⟨none, []⟩, 0⟩) ∧
      patchObject sampleEnv (renderTemplate sampleEnv 0) "\x7b\x7d"
        ([] ++ (⟨"size", true, none, none, []⟩ : ConfigurationParameter) ::
          [⟨"password", false, some ⟨some "secret", none, none, none⟩, none,
            [⟨some "pw", none⟩]⟩]) ⟨⟨none, []⟩, 0⟩ =
        patchObject sampleEnv (renderTemplate sampleEnv 0) "\x7b\x7d"
          ([] ++ [(⟨"size", true, none, none, []⟩ : ConfigurationParameter)])
          ⟨⟨none, []⟩, 0⟩ ∧
      renderTemplate sampleEnv (0 + 1) ⟨"secret", some ⟨some "\x7b\x7d"⟩,
        [] ++ (⟨"size", true, none, none, []⟩ : ConfigurationParameter) ::
          [⟨"password", false, some ⟨some "secret", none, none, none⟩, none,
            [⟨some "pw", none⟩]⟩]⟩ ⟨⟨none, []⟩, 0⟩ =
        (.error (.parameterError "source for parameter size is required"), ⟨⟨none, []⟩, 0⟩) ∧
      (renderTemplate sampleEnv (0 + 1) ⟨"secret", some ⟨some "\x7b\x7d"⟩,
        [] ++ (⟨"size", true, none, none, []⟩ : ConfigurationParameter) ::
          [⟨"password", false, some ⟨some "secret", none, none, none⟩, none,
            [⟨some "pw", none⟩]⟩]⟩ ⟨⟨none, []⟩, 0⟩).2.entry =
        (⟨⟨none, []⟩, 0⟩ : State).entry :=
  render_aborts_at_first_error sampleEnv 0 ⟨"size", true, none, none, []⟩ []
    [⟨"password", false, some ⟨some "secret", none, none, none⟩, none, [⟨some "pw", none⟩]⟩]
    "secret" "\x7b\x7d" "\x7b\x7d" (.parameterError "source for parameter size is required")
    ⟨⟨none, []⟩, 0⟩ ⟨⟨none, []⟩, 0⟩ ⟨⟨none, []⟩, 0⟩ rfl rfl

/-- C13, the code at the failing input: for a dictionary of the one character `a` the bound
given to `rand.Int` is 0, so the first iteration panics in `rand.Int`, whatever the random
source delivers; no password is returned. -/
theorem generated_password_panics_on_single_symbol (draws : Nat → Draw) :
    resolveGeneratePassword ⟨1, some "a"⟩ draws =
      .error (.panic "crypto/rand: argument to Int is <= 0") := by
  have hl : utf8Encode "a".data = [97] := by decide
  simp [resolveGeneratePassword, generatePassword, generatePasswordLoop, randInt, hl]

/-- C14: a malformed parameter path is an error, not a miss.  For a path that is not empty and
does not start with `/`, `resolveParameter` returns an error for every entry, and
`resolveTemplateParameter` on a parameter whose source is that parameter path returns the
same error, whatever default the parameter has, and leaves the state as it was. -/
theorem malformed_path_is_an_error (env : Env) (render : Renderer) (entry : Entry) (clock : Nat)
    (path : String) (c : Char) (cs : List Char) (parameter : ConfigurationParameter)
    (src : ConfigurationParameterSource)
    (hpath : path.data = c :: cs) (hc : c ≠ '/')
    (hsrc : parameter.Source = some src) (hreg : src.Accessor.Registry = none)
    (hacc : src.Accessor.Parameter = some path) :
    ∃ msg, resolveParameter path entry = .error (.generic msg) ∧
      resolveTemplateParameter env render parameter ⟨entry, clock⟩ =
        (.error (.generic msg), ⟨entry, clock⟩) := by
  have hnew : pointerNew path =
      .error (.generic "JSON pointer must be empty or start with a \"/\"") := by
    simp [pointerNew, hpath, hc]
  cases hp : entry.parameters with
  | none =>
    have h1 : resolveParameter path entry = .error (.generic "unable to lookup parameters") := by
      simp [resolveParameter, Entry.Get, hp]
    exact ⟨_, h1, by simp [resolveTemplateParameter, resolveSource, hsrc, hreg, hacc, h1]⟩
  | some parameters =>
    have h1 : resolveParameter path entry =
        .error (.generic "JSON pointer must be empty or start with a \"/\"") := by
      simp [resolveParameter, Entry.Get, hp, hnew]
    exact ⟨_, h1, by simp [resolveTemplateParameter, resolveSource, hsrc, hreg, hacc, h1]⟩

/-- C14, witness: the path `size` (without the leading `/`) for a parameter with the default
`small`. -/
theorem malformed_path_is_an_error_witness :
    ∃ msg, resolveParameter "size" ⟨some (.object [("size", .int 3)]), []⟩ =
        .error (.generic msg) ∧
      resolveTemplateParameter sampleEnv (renderTemplate sampleEnv 0)
        ⟨"size", false, some ⟨some "small", none, none, none⟩,
          some ⟨⟨none, some "size"⟩, none, none, none, none, none⟩, []⟩
        ⟨⟨some (.object [("size", .int 3)]), []⟩, 0⟩ =
        (.error (.generic msg), ⟨⟨some (.object [("size", .int 3)]), []⟩, 0⟩) :=
  malformed_path_is_an_error sampleEnv (renderTemplate sampleEnv 0)
    ⟨some (.object [("size", .int 3)]), []⟩ 0 "size" 's' ['i', 'z', 'e']
    ⟨"size", false, some ⟨some "small", none, none, none⟩,
      some ⟨⟨none, some "size"⟩, none, none, none, none, none⟩, []⟩
    ⟨⟨none, some "size"⟩, none, none, none, none, none⟩ rfl (by decide) rfl rfl rfl

/-- The loop over the destinations of a string value never fails: it adds the operations of
the path destinations to the patches, in order, and binds the keys of the registry
destinations to the string. -/
theorem patchDestinations_string (parameter : ConfigurationParameter) (s : String) :
    ∀ (ds : List ConfigurationParameterDestination) (patches : List String) (entry : Entry),
      patchDestinations parameter (.string s) ds patches entry =
        (.ok (patches ++ pathOperations (.string s) ds), entry.setAll (registryKeys ds) s) := by
  intro ds
  induction ds with
  | nil =>
    intro patches entry
    simp [patchDestinations, pathOperations, registryKeys, Entry.setAll]
  | cons d ds ih =>
    intro patches entry
    rw [patchDestinations]
    cases hr : d.Registry with
    | some key =>
      simp only [Value.asString, Entry.SetUser]
      rw [ih]
      simp [pathOperations, registryKeys, Entry.setAll, hr, List.filterMap_cons]
    | none =>
      cases hp : d.Path with
      | some path =>
        simp only
        rw [ih]
        simp [pathOperations, registryKeys, Entry.setAll, hr, hp, List.filterMap_cons]
      | none =>
        simp only
        rw [ih]
        simp [pathOperations, registryKeys, Entry.setAll, hr, hp, List.filterMap_cons]

/-- A key that is bound in the front part of a store, all of whose bindings carry the same
value, is looked up to that value. -/
theorem lookup_append_of_mem (key s : String) (user : List (String × String)) :
    ∀ front : List (String × String), (∀ p ∈ front, p.2 = s) → (∃ p ∈ front, p.1 = key) →
      (front ++ user).lookup key = some s := by
  intro front
  induction front with
  | nil => intro _ h; simp at h
  | cons p front ih =>
    intro hall hex
    obtain ⟨k, v⟩ := p
    have hv : v = s := hall (k, v) (List.mem_cons_self _ _)
    by_cases hk : key = k
    · simp [List.lookup, hk, hv]
    · have hb : (key == k) = false := by simp [hk]
      have hex1 : ∃ p ∈ front, p.1 = key := by
        obtain ⟨q, hq, hqk⟩ := hex
        rcases List.mem_cons.1 hq with h | h
        · subst h; exact absurd hqk.symm hk
        · exact ⟨q, h, hqk⟩
      have := ih (fun q hq => hall q (List.mem_cons_of_mem _ hq)) hex1
      simp [List.lookup, hb, this]

/-- C15: all destinations of a parameter receive the same value, in the order they are
declared.  For a parameter that resolves to the string `s`, the loop over its destinations
binds the key of every registry destination to `s` in the User namespace and builds one add
operation with the JSON text of `s` for every path destination, in the order of the
destinations; `patchObject` hands the patch set of exactly these operations to the patch
library (or goes on to the next parameter when there is none). -/
theorem destinations_receive_value_in_order (env : Env) (render : Renderer)
    (parameter : ConfigurationParameter) (rest : List ConfigurationParameter)
    (object s : String) (st st1 : State)
    (hval : resolveTemplateParameter env render parameter st = (.ok (.string s), st1)) :
    patchDestinations parameter (.string s) parameter.Destinations [] st1.entry =
        (.ok (pathOperations (.string s) parameter.Destinations),
          st1.entry.setAll (registryKeys parameter.Destinations) s) ∧
      (∀ key ∈ registryKeys parameter.Destinations,
        (st1.entry.setAll (registryKeys parameter.Destinations) s).GetUser key =
          .ok (some s)) ∧
      patchObject env render object (parameter :: rest) st =
        (if (pathOperations (.string s) parameter.Destinations).length < 1 then
          patchObject env render object rest
            ⟨st1.entry.setAll (registryKeys parameter.Destinations) s, st1.clock⟩
        else
          match env.DecodePatch
              (patchSetText (pathOperations (.string s) parameter.Destinations)) with
          | .error err =>
            (.error err, ⟨st1.entry.setAll (registryKeys parameter.Destinations) s, st1.clock⟩)
          | .ok patch =>
            match env.Apply patch object with
            | .error err =>
              (.error err,
                ⟨st1.entry.setAll (registryKeys parameter.Destinations) s, st1.clock⟩)
            | .ok object1 =>
              patchObject env render object1 rest
                ⟨st1.entry.setAll (registryKeys parameter.Destinations) s, st1.clock⟩) := by
  have hd := patchDestinations_string parameter s parameter.Destinations [] st1.entry
  rw [List.nil_append] at hd
  refine ⟨hd, ?_, ?_⟩
  · intro key hkey
    show Except.ok (List.lookup key _) = _
    have := lookup_append_of_mem key s st1.entry.user
      ((registryKeys parameter.Destinations).map (fun k => (k, s))).reverse
      (by intro p hp; simp at hp; obtain ⟨k, _, hk⟩ := hp; rw [← hk])
      ⟨(key, s), by simp; exact hkey, rfl⟩
    simp only [Entry.setAll]
    rw [this]
  · rw [patchObject]
    have hn : (Value.string s).isNil = false := rfl
    simp only [hval, hn, Bool.false_eq_true, if_false, hd]

/-- C15, witness: the parameter `password` with the default `secret` and the destinations
`/spec/a`, registry key `pw`, `/spec/b`. -/
theorem destinations_receive_value_in_order_witness :
    patchDestinations
        ⟨"password", false, some ⟨some "secret", none, none, none⟩, none,
          [⟨none, some "/spec/a"⟩, ⟨some "pw", none⟩, ⟨none, some "/spec/b"⟩]⟩
        (.string "secret")
        [⟨none, some "/spec/a"⟩, ⟨some "pw", none⟩, ⟨none, some "/spec/b"⟩] []
        (⟨⟨none, []⟩, 0⟩ : State).entry =
      (.ok (pathOperations (.string "secret")
          [⟨none, some "/spec/a"⟩, ⟨some "pw", none⟩, ⟨none, some "/spec/b"⟩]),
        Entry.setAll (⟨⟨none, []⟩, 0⟩ : State).entry
          (registryKeys [⟨none, some "/spec/a"⟩, ⟨some "pw", none⟩, ⟨none, some "/spec/b"⟩])
          "secret") ∧
      pathOperations (.string "secret")
          [⟨none, some "/spec/a"⟩, ⟨some "pw", none⟩, ⟨none, some "/spec/b"⟩] =
        ["\x7b\"op\":\"add\",\"path\":\"/spec/a\",\"value\":\"secret\"\x7d",
          "\x7b\"op\":\"add\",\"path\":\"/spec/b\",\"value\":\"secret\"\x7d"] :=
  ⟨(destinations_receive_value_in_order sampleEnv (renderTemplate sampleEnv 0)
      ⟨"password", false, some ⟨some "secret", none, none, none⟩, none,
        [⟨none, some "/spec/a"⟩, ⟨some "pw", none⟩, ⟨none, some "/spec/b"⟩]⟩ [] "\x7b\x7d"
      "secret" ⟨⟨none, []⟩, 0⟩ ⟨⟨none, []⟩, 0⟩ rfl).1, rfl⟩

/-! ## Two runs that agree on their inputs -/

/-- `resolveParameter` reads the Parameters of the entry only. -/
theorem resolveParameter_same (path : String) (e1 e2 : Entry) (h : Entry.Same e1 e2) :
    resolveParameter path e1 = resolveParameter path e2 := by
  simp only [resolveParameter, Entry.Get, h.1]

/-- `resolveAccessor` reads the values of the entry only. -/
theorem resolveAccessor_same (accessor : Accessor) (e1 e2 : Entry) (h : Entry.Same e1 e2) :
    resolveAccessor accessor e1 = resolveAccessor accessor e2 := by
  simp only [resolveAccessor, Entry.GetUser, h.2, resolveParameter_same _ e1 e2 h]

/-- `resolveAccessorStringList` reads the values of the entry only. -/
theorem resolveAccessorStringList_same (e1 e2 : Entry) (h : Entry.Same e1 e2) :
    ∀ accessors : List Accessor,
      resolveAccessorStringList accessors e1 = resolveAccessorStringList accessors e2 := by
  intro accessors
  induction accessors with
  | nil => rfl
  | cons a rest ih =>
    rw [resolveAccessorStringList, resolveAccessorStringList, resolveAccessor_same a e1 e2 h, ih]

/-- The loop of `resolveFormat` reads the values of the entry only. -/
theorem resolveFormatParameters_same (e1 e2 : Entry) (h : Entry.Same e1 e2) :
    ∀ accessors : List Accessor,
      resolveFormatParameters accessors e1 = resolveFormatParameters accessors e2 := by
  intro accessors
  induction accessors with
  | nil => rfl
  | cons a rest ih =>
    rw [resolveFormatParameters, resolveFormatParameters, resolveAccessor_same a e1 e2 h, ih]

/-- `resolveGenerateCertificate` reads the values of the entry and the generator call only. -/
theorem resolveGenerateCertificate_same (env1 env2 : Env) (c1 c2 : Nat)
    (henv : ∀ request, env1.GenerateCertificate c1 request = env2.GenerateCertificate c2 request)
    (config : ConfigurationParameterSourceGenerateCertificate) (e1 e2 : Entry)
    (h : Entry.Same e1 e2) :
    resolveGenerateCertificate env1 config e1 c1 = resolveGenerateCertificate env2 config e2 c2 := by
  simp only [resolveGenerateCertificate, getPrivateKey, getCertificate, resolveAlternativeNames,
    resolveCA, resolveAccessor_same _ e1 e2 h, resolveAccessorStringList_same e1 e2 h, henv]

/-- The loop over the destinations gives the same outcome and the same values of the entry
from entries with the same values. -/
theorem patchDestinations_same (parameter : ConfigurationParameter) (value : Value) :
    ∀ (ds : List ConfigurationParameterDestination) (patches : List String) (e1 e2 : Entry),
      Entry.Same e1 e2 →
      (patchDestinations parameter value ds patches e1).1 =
          (patchDestinations parameter value ds patches e2).1 ∧
        Entry.Same (patchDestinations parameter value ds patches e1).2
          (patchDestinations parameter value ds patches e2).2 := by
  intro ds
  induction ds with
  | nil => intro patches e1 e2 h; exact ⟨rfl, h⟩
  | cons d ds ih =>
    intro patches e1 e2 h
    rw [patchDestinations, patchDestinations]
    cases hr : d.Registry with
    | some key =>
      cases hs : value.asString with
      | none => exact ⟨rfl, h⟩
      | some s =>
        simp only [Entry.SetUser]
        apply ih
        refine ⟨h.1, ?_⟩
        intro k
        simp only [List.lookup]
        split
        · rfl
        · exact h.2 k
    | none =>
      cases hp : d.Path with
      | some path => exact ih _ _ _ h
      | none => exact ih _ _ _ h

/-- Two runs of `resolveSource` that agree on everything a render is given agree on the
outcome. -/
theorem resolveSource_same (env1 env2 : Env) (c1 c2 : Nat) (henv : Env.SameFrom env1 env2 c1 c2)
    (r1 r2 : Renderer) (hr : RenderSame c1 c2 r1 r2)
    (source : Option ConfigurationParameterSource) (st1 st2 : State)
    (h : State.SameFrom c1 c2 st1 st2) :
    (resolveSource env1 r1 source st1).1 = (resolveSource env2 r2 source st2).1 ∧
      State.SameFrom c1 c2 (resolveSource env1 r1 source st1).2
        (resolveSource env2 r2 source st2).2 := by
  obtain ⟨htemplates, hsprintf, hdecode, happly, hrand, hkey, hcert⟩ := henv
  obtain ⟨hentry, n, hn1, hn2⟩ := h
  have hst : State.SameFrom c1 c2 st1 st2 := ⟨hentry, n, hn1, hn2⟩
  have htick : State.SameFrom c1 c2 st1.tick st2.tick :=
    ⟨hentry, n + 1, by simp [State.tick, hn1, Nat.add_assoc],
      by simp [State.tick, hn2, Nat.add_assoc]⟩
  cases source with
  | none => exact ⟨rfl, hst⟩
  | some src =>
    unfold resolveSource
    simp only
    cases hreg : src.Accessor.Registry with
    | some key =>
      simp only [Entry.GetUser, hentry.2 key]
      cases st2.entry.user.lookup key with
      | none => exact ⟨rfl, hst⟩
      | some v => exact ⟨rfl, hst⟩
    | none =>
      simp only
      cases hpar : src.Accessor.Parameter with
      | some path =>
        simp only [resolveParameter_same path st1.entry st2.entry hentry]
        cases resolveParameter path st2.entry with
        | error err => exact ⟨rfl, hst⟩
        | ok r =>
          cases r with
          | none => exact ⟨rfl, hst⟩
          | some v => exact ⟨rfl, hst⟩
      | none =>
        simp only
        cases hfmt : src.Format with
        | some format =>
          refine ⟨?_, hst⟩
          simp only [resolveFormat, resolveFormatParameters_same st1.entry st2.entry hentry,
            hsprintf]
        | none =>
          simp only
          cases hpw : src.GeneratePassword with
          | some config =>
            refine ⟨?_, htick⟩
            have : env1.rand st1.clock = env2.rand st2.clock := by
              funext i
              rw [hn1, hn2]
              exact hrand n i
            simp only [this]
          | none =>
            simp only
            cases hgk : src.GenerateKey with
            | some config =>
              refine ⟨?_, htick⟩
              simp only [resolveGenerateKey, hn1, hn2, hkey]
            | none =>
              simp only
              cases hgc : src.GenerateCertificate with
              | some config =>
                refine ⟨?_, htick⟩
                simp only
                rw [hn1, hn2]
                exact resolveGenerateCertificate_same env1 env2 (c1 + n) (c2 + n) (hcert n)
                  config st1.entry st2.entry hentry
              | none =>
                simp only
                cases htm : src.Template with
                | none => exact ⟨rfl, hst⟩
                | some name =>
                  simp only [resolveTemplateSource, getTemplate, htemplates]
                  cases hfind : env2.Templates.find? (fun template => template.Name == name) with
                  | none => exact ⟨rfl, hst⟩
                  | some t =>
                    simp only
                    obtain ⟨ho, hs⟩ := hr t st1 st2 hst
                    cases h1 : r1 t st1 with
                    | mk o1 s1 =>
                      cases h2 : r2 t st2 with
                      | mk o2 s2 =>
                        rw [h1, h2] at ho hs
                        simp only at ho hs
                        subst ho
                        cases o1 with
                        | error err => exact ⟨rfl, hs⟩
                        | ok template =>
                          simp only
                          cases template.Template with
                          | none => exact ⟨rfl, hs⟩
                          | some raw =>
                            simp only
                            cases jsonUnmarshal (raw.Raw.getD "") with
                            | error err => exact ⟨rfl, hs⟩
                            | ok v => exact ⟨rfl, hs⟩

/-- Two runs of `resolveTemplateParameter` that agree on everything a render is given agree on
the outcome. -/
theorem resolveTemplateParameter_same (env1 env2 : Env) (c1 c2 : Nat)
    (henv : Env.SameFrom env1 env2 c1 c2) (r1 r2 : Renderer) (hr : RenderSame c1 c2 r1 r2)
    (parameter : ConfigurationParameter) (st1 st2 : State) (h : State.SameFrom c1 c2 st1 st2) :
    (resolveTemplateParameter env1 r1 parameter st1).1 =
        (resolveTemplateParameter env2 r2 parameter st2).1 ∧
      State.SameFrom c1 c2 (resolveTemplateParameter env1 r1 parameter st1).2
        (resolveTemplateParameter env2 r2 parameter st2).2 := by
  obtain ⟨ho, hs⟩ := resolveSource_same env1 env2 c1 c2 henv r1 r2 hr parameter.Source st1 st2 h
  unfold resolveTemplateParameter
  cases h1 : resolveSource env1 r1 parameter.Source st1 with
  | mk o1 s1 =>
    cases h2 : resolveSource env2 r2 parameter.Source st2 with
    | mk o2 s2 =>
      rw [h1, h2] at ho hs
      simp only at ho hs
      subst ho
      cases o1 with
      | error err => exact ⟨rfl, hs⟩
      | ok value =>
        simp only
        split
        · cases parameter.Default with
          | none => exact ⟨rfl, hs⟩
          | some default =>
            simp only
            cases resolveDefault default with
            | error err => exact ⟨rfl, hs⟩
            | ok value1 => exact ⟨rfl, hs⟩
        · exact ⟨rfl, hs⟩

/-- Two runs of `patchObject` that agree on everything a render is given agree on the
outcome. -/
theorem patchObject_same (env1 env2 : Env) (c1 c2 : Nat)
    (henv : Env.SameFrom env1 env2 c1 c2) (r1 r2 : Renderer) (hr : RenderSame c1 c2 r1 r2) :
    ∀ (parameters : List ConfigurationParameter) (object : String) (st1 st2 : State),
      State.SameFrom c1 c2 st1 st2 →
      (patchObject env1 r1 object parameters st1).1 =
          (patchObject env2 r2 object parameters st2).1 ∧
        State.SameFrom c1 c2 (patchObject env1 r1 object parameters st1).2
          (patchObject env2 r2 object parameters st2).2 := by
  intro parameters
  induction parameters with
  | nil => intro object st1 st2 h; exact ⟨rfl, h⟩
  | cons p rest ih =>
    intro object st1 st2 h
    obtain ⟨ho, hs⟩ := resolveTemplateParameter_same env1 env2 c1 c2 henv r1 r2 hr p st1 st2 h
    rw [patchObject, patchObject]
    cases h1 : resolveTemplateParameter env1 r1 p st1 with
    | mk o1 s1 =>
      cases h2 : resolveTemplateParameter env2 r2 p st2 with
      | mk o2 s2 =>
        rw [h1, h2] at ho hs
        simp only at ho hs
        subst ho
        cases o1 with
        | error err => exact ⟨rfl, hs⟩
        | ok value =>
          simp only
          split
          · exact ih object s1 s2 hs
          · obtain ⟨hdo, hds⟩ := patchDestinations_same p value p.Destinations [] s1.entry
              s2.entry hs.1
            cases hd1 : patchDestinations p value p.Destinations [] s1.entry with
            | mk d1 e1 =>
              cases hd2 : patchDestinations p value p.Destinations [] s2.entry with
              | mk d2 e2 =>
                rw [hd1, hd2] at hdo hds
                simp only at hdo hds
                subst hdo
                have hs1 : State.SameFrom c1 c2 { s1 with entry := e1 } { s2 with entry := e2 } :=
                  ⟨hds, hs.2⟩
                cases d1 with
                | error err => exact ⟨rfl, hs1⟩
                | ok patches =>
                  simp only
                  split
                  · exact ih object _ _ hs1
                  · rw [henv.2.2.1]
                    cases env2.DecodePatch (patchSetText patches) with
                    | error err => exact ⟨rfl, hs1⟩
                    | ok patch =>
                      simp only
                      rw [henv.2.2.2.1]
                      cases env2.Apply patch object with
                      | error err => exact ⟨rfl, hs1⟩
                      | ok object1 => exact ih object1 _ _ hs1

/-- Two runs of the body of `renderTemplate` that agree on everything a render is given
agree on the outcome. -/
theorem renderTemplateWith_same (env1 env2 : Env) (c1 c2 : Nat)
    (henv : Env.SameFrom env1 env2 c1 c2) (r1 r2 : Renderer) (hr : RenderSame c1 c2 r1 r2) :
    RenderSame c1 c2 (renderTemplateWith env1 r1) (renderTemplateWith env2 r2) := by
  intro t st1 st2 h
  unfold renderTemplateWith
  cases t.Template with
  | none => exact ⟨rfl, h⟩
  | some raw =>
    simp only
    cases raw.Raw with
    | none => exact ⟨rfl, h⟩
    | some bytes =>
      simp only
      obtain ⟨ho, hs⟩ := patchObject_same env1 env2 c1 c2 henv r1 r2 hr t.Parameters bytes
        st1 st2 h
      cases h1 : patchObject env1 r1 bytes t.Parameters st1 with
      | mk o1 s1 =>
        cases h2 : patchObject env2 r2 bytes t.Parameters st2 with
        | mk o2 s2 =>
          rw [h1, h2] at ho hs
          simp only at ho hs
          subst ho
          cases o1 with
          | error err => exact ⟨rfl, hs⟩
          | ok object => exact ⟨rfl, hs⟩

/-- Two runs of `renderTemplate` that agree on everything a render is given agree on the
outcome, at every depth. -/
theorem renderTemplate_same (env1 env2 : Env) (c1 c2 : Nat)
    (henv : Env.SameFrom env1 env2 c1 c2) :
    ∀ depth, RenderSame c1 c2 (renderTemplate env1 depth) (renderTemplate env2 depth) := by
  intro depth
  induction depth with
  | zero => intro t st1 st2 h; exact ⟨rfl, h⟩
  | succ depth ih => exact renderTemplateWith_same env1 env2 c1 c2 henv _ _ ih

/-- C16: rendering is deterministic.  Two runs of `renderTemplate` on the same template with
the same configured templates, with `Sprintf` and the patch library returning the same
values, with the random source and the key and certificate generators returning the same
values call for call (counted from the start of each run), from entries with the same
Parameters and the same User values, give the same outcome (the same document or the same
error), final entries with the same Parameters and the same User values, and make the same
number of generator calls.  The runs may differ in everything else: in the number of generator
calls made before, in what the generators would return at other calls, in the namespace of the
broker and in bindings of the User store that are shadowed. -/
theorem render_is_deterministic (env1 env2 : Env) (depth : Nat)
    (template : ConfigurationTemplate) (st1 st2 : State)
    (htemplates : env1.Templates = env2.Templates)
    (hsprintf : ∀ format args, env1.Sprintf format args = env2.Sprintf format args)
    (hdecode : ∀ text, env1.DecodePatch text = env2.DecodePatch text)
    (happly : ∀ patch object, env1.Apply patch object = env2.Apply patch object)
    (hrand : ∀ n i, env1.rand (st1.clock + n) i = env2.rand (st2.clock + n) i)
    (hkey : ∀ n t e bits,
      env1.GenerateKey (st1.clock + n) t e bits = env2.GenerateKey (st2.clock + n) t e bits)
    (hcert : ∀ n request,
      env1.GenerateCertificate (st1.clock + n) request =
        env2.GenerateCertificate (st2.clock + n) request)
    (hparameters : st1.entry.parameters = st2.entry.parameters)
    (huser : ∀ key, st1.user key = st2.user key) :
    (renderTemplate env1 depth template st1).1 = (renderTemplate env2 depth template st2).1 ∧
      (renderTemplate env1 depth template st1).2.entry.parameters =
        (renderTemplate env2 depth template st2).2.entry.parameters ∧
      (∀ key, (renderTemplate env1 depth template st1).2.user key =
        (renderTemplate env2 depth template st2).2.user key) ∧
      ∃ calls, (renderTemplate env1 depth template st1).2.clock = st1.clock + calls ∧
        (renderTemplate env2 depth template st2).2.clock = st2.clock + calls := by
  have henv : Env.SameFrom env1 env2 st1.clock st2.clock :=
    ⟨htemplates, hsprintf, hdecode, happly, hrand, hkey, hcert⟩
  have hst : State.SameFrom st1.clock st2.clock st1 st2 :=
    ⟨⟨hparameters, huser⟩, 0, rfl, rfl⟩
  obtain ⟨ho, ⟨hp, hu⟩, hc⟩ :=
    renderTemplate_same env1 env2 st1.clock st2.clock henv depth template st1 st2 hst
  exact ⟨ho, hp, hu, hc⟩

/-- C16, witness: the template `generating` rendered from an entry that binds `user`, and
rendered again after five generator calls, with a random source that returns then what the
first returned from the start, from an entry that binds `user` to the same string over a
shadowed older binding. -/
theorem render_is_deterministic_witness :
    (renderTemplate sampleEnv 1 generatingTemplate ⟨⟨none, [("user", "admin")]⟩, 0⟩).1 =
        (renderTemplate shiftedEnv 1 generatingTemplate
          ⟨⟨none, [("user", "admin"), ("user", "old")]⟩, 5⟩).1 ∧
      (renderTemplate sampleEnv 1 generatingTemplate
          ⟨⟨none, [("user", "admin")]⟩, 0⟩).2.user "pw" =
        (renderTemplate shiftedEnv 1 generatingTemplate
          ⟨⟨none, [("user", "admin"), ("user", "old")]⟩, 5⟩).2.user "pw" :=
  have h := render_is_deterministic sampleEnv shiftedEnv 1 generatingTemplate
    ⟨⟨none, [("user", "admin")]⟩, 0⟩
    ⟨⟨none, [("user", "admin"), ("user", "old")]⟩, 5⟩ rfl (fun _ _ => rfl)
    (fun _ => rfl) (fun _ _ => rfl)
    (by intro n i; simp [sampleEnv, shiftedEnv])
    (fun _ _ _ _ => rfl) (fun _ _ => rfl) rfl
    (by
      intro key
      show List.lookup key [("user", "admin")] = List.lookup key [("user", "admin"), ("user", "old")]
      simp only [List.lookup]
      split <;> rfl)
  ⟨h.1, h.2.2.1 "pw"⟩

/-- The pointer `/namespace` applied to a decoded request context. -/
theorem pointerGet_namespace (ctx : Value) :
    pointerGet [['n', 'a', 'm', 'e', 's', 'p', 'a', 'c', 'e']] ctx =
      match getSingle ctx "namespace" with
      | .error err => .error err
      | .ok child => .ok child := by
  have ht : unescapeToken ['n', 'a', 'm', 'e', 's', 'p', 'a', 'c', 'e'] = "namespace" := rfl
  simp only [pointerGet, ht]

/-- Only an object can have a member `namespace`: on every other document the pointer
`/namespace` finds nothing. -/
theorem getSingle_namespace_of_not_object (ctx : Value)
    (h : ∀ members, ctx = .object members → lookupMember "namespace" members = none) :
    ∃ err, getSingle ctx "namespace" = .error err := by
  cases ctx with
  | object members =>
    have := h members rfl
    exact ⟨.generic ("object has no key " ++ "namespace"), by simp [getSingle, this]⟩
  | array xs =>
    have ha : atoi "namespace".data = none := by decide
    exact ⟨.generic ("invalid array index " ++ "namespace"), by simp [getSingle, ha]⟩
  | nil => exact ⟨_, rfl⟩
  | bool b => exact ⟨_, rfl⟩
  | int i => exact ⟨_, rfl⟩
  | number n => exact ⟨_, rfl⟩
  | string s => exact ⟨_, rfl⟩

/-- C17, as stated, fails: the context `{"namespace":"team","a":1e400}` is a JSON document
whose member `namespace` is a string, and yet `GetNamespace` fails, with the error of the
decoder: the number `1e400` is outside the range of `float64`. -/
theorem getNamespace_fails_on_number_out_of_range :
    jsonDecode "\x7b\"namespace\":\"team\",\"a\":1e400\x7d" =
        .ok (.object [("namespace", .string "team"),
          ("a", .number ⟨['1', 'e', '4', '0', '0'], rfl⟩)]) ∧
      jsonUnmarshal "\x7b\"namespace\":\"team\",\"a\":1e400\x7d" =
        .error (.generic "json: cannot unmarshal number 1e400 into Go value of type float64") ∧
      GetNamespace sampleEnv (some ⟨some "\x7b\"namespace\":\"team\",\"a\":1e400\x7d"⟩) =
        .error (.generic "json: cannot unmarshal number 1e400 into Go value of type float64") :=
  ⟨rfl, rfl, rfl⟩

/-- C17, amended: `GetNamespace` returns the namespace of the broker when the request context
is nil or decodes to a document without a member `namespace`, returns the member `namespace`
of the decoded context when it is a string, fails with a parameter error when the member is
there and is not a string, and fails with the error of the decoder when the context does not
decode: when the text is not JSON, or when a number of the document is outside the range of
`float64`. -/
theorem getNamespace_cases (env : Env) :
    GetNamespace env none = .ok env.Namespace ∧
      (∀ (raw : RawExtension) (ctx : Value), jsonUnmarshal (raw.Raw.getD "") = .ok ctx →
        (∀ members, ctx = .object members → lookupMember "namespace" members = none) →
        GetNamespace env (some raw) = .ok env.Namespace) ∧
      (∀ (raw : RawExtension) (members : List (String × Value)) (ns : String),
        jsonUnmarshal (raw.Raw.getD "") = .ok (.object members) →
        lookupMember "namespace" members = some (.string ns) →
        GetNamespace env (some raw) = .ok ns) ∧
      (∀ (raw : RawExtension) (members : List (String × Value)) (v : Value),
        jsonUnmarshal (raw.Raw.getD "") = .ok (.object members) →
        lookupMember "namespace" members = some v → v.asString = none →
        GetNamespace env (some raw) =
          .error (.parameterError "request context namespace not a string")) ∧
      (∀ (raw : RawExtension) (err : Error), jsonUnmarshal (raw.Raw.getD "") = .error err →
        GetNamespace env (some raw) = .error err) ∧
      (∀ (text : String) (err : Error), jsonUnmarshal text = .error err ↔
        (jsonDecode text = .error err ∨
          ∃ document, jsonDecode text = .ok document ∧ decodeNumbers document = .error err)) := by
  have hp : pointerNew "/namespace" = .ok [['n', 'a', 'm', 'e', 's', 'p', 'a', 'c', 'e']] := rfl
  refine ⟨rfl, ?_, ?_, ?_, ?_, ?_⟩
  · intro raw ctx hctx hno
    obtain ⟨err, herr⟩ := getSingle_namespace_of_not_object ctx hno
    simp [GetNamespace, hctx, hp, pointerGet_namespace, herr]
  · intro raw members ns hctx hl
    simp [GetNamespace, hctx, hp, pointerGet_namespace, getSingle, hl, Value.asString]
  · intro raw members v hctx hl hv
    simp [GetNamespace, hctx, hp, pointerGet_namespace, getSingle, hl, hv]
  · intro raw err hctx
    simp [GetNamespace, hctx]
  · intro text err
    unfold jsonUnmarshal
    cases hd : jsonDecode text with
    | error e => simp
    | ok document => simp

/-- C17, witness: the contexts `{"platform":"k8s"}`, `{"namespace":"team-a"}`,
`{"namespace":7}`, the text `{` that is not JSON, and a context with the number `1e999`. -/
theorem getNamespace_cases_witness :
    GetNamespace sampleEnv none = .ok "broker" ∧
      GetNamespace sampleEnv (some ⟨some "\x7b\"platform\":\"k8s\"\x7d"⟩) = .ok "broker" ∧
      GetNamespace sampleEnv (some ⟨some "\x7b\"namespace\":\"team-a\"\x7d"⟩) = .ok "team-a" ∧
      GetNamespace sampleEnv (some ⟨some "\x7b\"namespace\":7\x7d"⟩) =
        .error (.parameterError "request context namespace not a string") ∧
      GetNamespace sampleEnv (some ⟨some "\x7b"⟩) = .error (.generic "invalid JSON") ∧
      GetNamespace sampleEnv (some ⟨some "\x7b\"namespace\":\"team-a\",\"size\":1e999\x7d"⟩) =
        .error (.generic "json: cannot unmarshal number 1e999 into Go value of type float64") :=
  ⟨(getNamespace_cases sampleEnv).1,
    (getNamespace_cases sampleEnv).2.1 ⟨some "\x7b\"platform\":\"k8s\"\x7d"⟩
      (.object [("platform", .string "k8s")]) rfl
      (by intro members h; cases h; rfl),
    (getNamespace_cases sampleEnv).2.2.1 ⟨some "\x7b\"namespace\":\"team-a\"\x7d"⟩
      [("namespace", .string "team-a")] "team-a" rfl rfl,
    (getNamespace_cases sampleEnv).2.2.2.1 ⟨some "\x7b\"namespace\":7\x7d"⟩
      [("namespace", .number ⟨['7'], rfl⟩)] (.number ⟨['7'], rfl⟩) rfl rfl rfl,
    (getNamespace_cases sampleEnv).2.2.2.2.1 ⟨some "\x7b"⟩ (.generic "invalid JSON") rfl,
    (getNamespace_cases sampleEnv).2.2.2.2.1
      ⟨some "\x7b\"namespace\":\"team-a\",\"size\":1e999\x7d"⟩ _ rfl⟩

/-- C18: `getTemplate` returns the first configured template whose name is the given name, and
it fails exactly when no configured template has that name; a template source that names a
missing template makes `resolveSource` fail with the error "unable to locate template for
..." instead of yielding nil, and leaves the state as it was. -/
theorem getTemplate_first_match (env : Env) (name : String) :
    (∀ t, getTemplate env name = .ok t ↔
        ∃ pre post, env.Templates = pre ++ t :: post ∧ t.Name = name ∧
          ∀ u ∈ pre, u.Name ≠ name) ∧
      ((∃ err, getTemplate env name = .error err) ↔ ∀ t ∈ env.Templates, t.Name ≠ name) ∧
      ((∀ t ∈ env.Templates, t.Name ≠ name) →
        ∀ (render : Renderer) (st : State),
          resolveSource env render
            (some ⟨⟨none, none⟩, none, none, none, none, some name⟩) st =
            (.error (.generic ("unable to locate template for " ++ name)), st)) := by
  have hnone : (∀ t ∈ env.Templates, t.Name ≠ name) →
      getTemplate env name = .error (.generic ("unable to locate template for " ++ name)) := by
    intro h
    have hf : env.Templates.find? (fun template => template.Name == name) = none := by
      rw [List.find?_eq_none]
      intro t ht hb
      exact h t ht (by simpa using hb)
    simp [getTemplate, hf]
  refine ⟨?_, ?_, ?_⟩
  · intro t
    constructor
    · intro h
      unfold getTemplate at h
      split at h
      · rename_i t1 hfind
        simp only [Except.ok.injEq] at h
        subst h
        obtain ⟨hp, pre, post, hsplit, hpre⟩ := List.find?_eq_some.1 hfind
        refine ⟨pre, post, hsplit, by simpa using hp, ?_⟩
        intro u hu hn
        have := hpre u hu
        simp [hn] at this
      · cases h
    · rintro ⟨pre, post, hsplit, hname, hpre⟩
      have hfind : env.Templates.find? (fun template => template.Name == name) = some t := by
        rw [List.find?_eq_some]
        refine ⟨by simp [hname], pre, post, hsplit, ?_⟩
        intro u hu
        simp [hpre u hu]
      simp [getTemplate, hfind]
  · constructor
    · rintro ⟨err, herr⟩ t ht hname
      unfold getTemplate at herr
      split at herr
      · cases herr
      · rename_i hfind
        rw [List.find?_eq_none] at hfind
        exact hfind t ht (by simp [hname])
    · intro h
      exact ⟨_, hnone h⟩
  · intro h render st
    simp [resolveSource, resolveTemplateSource, hnone h]

/-- C18, witness: the templates `db`, `cache`, `db` in this order and the names `db` (found,
the first one) and `queue` (missing). -/
theorem getTemplate_first_match_witness :
    getTemplate { sampleEnv with
        Templates := [⟨"db", some ⟨some "1"⟩, []⟩, ⟨"cache", none, []⟩,
          ⟨"db", some ⟨some "2"⟩, []⟩] } "db" = .ok ⟨"db", some ⟨some "1"⟩, []⟩ ∧
      resolveSource { sampleEnv with
        Templates := [⟨"db", some ⟨some "1"⟩, []⟩, ⟨"cache", none, []⟩,
          ⟨"db", some ⟨some "2"⟩, []⟩] } (renderTemplate sampleEnv 0)
        (some ⟨⟨none, none⟩, none, none, none, none, some "queue"⟩) ⟨⟨none, []⟩, 0⟩ =
        (.error (.generic ("unable to locate template for " ++ "queue")), ⟨⟨none, []⟩, 0⟩) :=
  ⟨((getTemplate_first_match { sampleEnv with
        Templates := [⟨"db", some ⟨some "1"⟩, []⟩, ⟨"cache", none, []⟩,
          ⟨"db", some ⟨some "2"⟩, []⟩] } "db").1 ⟨"db", some ⟨some "1"⟩, []⟩).2
      ⟨[], [⟨"cache", none, []⟩, ⟨"db", some ⟨some "2"⟩, []⟩], rfl, rfl, by simp⟩,
    (getTemplate_first_match { sampleEnv with
        Templates := [⟨"db", some ⟨some "1"⟩, []⟩, ⟨"cache", none, []⟩,
          ⟨"db", some ⟨some "2"⟩, []⟩] } "queue").2.2
      (by intro t ht; simp at ht; rcases ht with h | h | h <;> subst h <;> decide)
      (renderTemplate sampleEnv 0) ⟨⟨none, []⟩, 0⟩⟩

/-- C19, the code at failing inputs.  The operation text is built by splicing the pointer
between quotes without escaping it.  For the pointer `/a"b` the text is not JSON and the patch
set does not decode; for the pointer `/a","path":"/b` the operation decodes with two members
`path`, of which the decoder keeps the last one, `/b`; for the pointer `/a\b` the decoded path
is `/a` followed by a backspace character.  In none of the three cases does the operation
decode to the path it was built for. -/
theorem patch_operation_path_is_not_escaped :
    jsonUnmarshal (patchOperation "/a\"b" (jsonMarshal (.string "x"))) =
        .error (.generic "invalid JSON") ∧
      decodePatch (patchSetText [patchOperation "/a\"b" (jsonMarshal (.string "x"))]) =
        .error (.generic "invalid JSON") ∧
      decodePatch (patchSetText
          [patchOperation "/a\",\"path\":\"/b" (jsonMarshal (.string "x"))]) =
        .ok [[("op", .string "add"), ("path", .string "/a"), ("path", .string "/b"),
          ("value", .string "x")]] ∧
      lookupMember "path" [("op", .string "add"), ("path", .string "/a"),
          ("path", .string "/b"), ("value", .string "x")] = some (.string "/b") ∧
      decodePatch (patchSetText [patchOperation "/a\\b" (jsonMarshal (.string "x"))]) =
        .ok [[("op", .string "add"), ("path", .string "/a\x08"), ("value", .string "x")]] ∧
      "/a\\b" ≠ "/a\x08" := by
  refine ⟨rfl, rfl, rfl, rfl, rfl, by decide⟩

/-! ## Only an exhausted depth ends a render as unterminated -/

/-- The decoder of documents fails with real errors. -/
theorem jsonDecode_real (text : String) (err : Error)
    (h : jsonDecode text = .error err) : err.Real := by
  unfold jsonDecode at h
  repeat' split at h
  all_goals cases h
  all_goals simp [Error.Real]

/-- The decoding of the numbers of a document fails with real errors. -/
theorem decodeNumbers_real (v : Value) :
    ∀ err, decodeNumbers v = .error err → err.Real := by
  refine Value.rec
    (motive_1 := fun v => ∀ err, decodeNumbers v = .error err → err.Real)
    (motive_2 := fun xs => ∀ err, decodeNumbersElements xs = .error err → err.Real)
    (motive_3 := fun ms => ∀ err, decodeNumbersMembers ms = .error err → err.Real)
    (motive_4 := fun p => ∀ err, decodeNumbers p.2 = .error err → err.Real)
    ?nil ?bool ?int ?number ?string ?array ?object ?enil ?econs ?mnil ?mcons ?pair v
  case nil => intro err h; simp [decodeNumbers] at h
  case bool => intro b err h; simp [decodeNumbers] at h
  case int => intro i err h; simp [decodeNumbers] at h
  case number =>
    intro n err h
    rw [decodeNumbers] at h
    split at h
    · cases h
    · cases h; simp [Error.Real]
  case string => intro s err h; simp [decodeNumbers] at h
  case array =>
    intro xs ih err h
    rw [decodeNumbers] at h
    split at h
    · rename_i h1; cases h; exact ih _ h1
    · cases h
  case object =>
    intro ms ih err h
    rw [decodeNumbers] at h
    split at h
    · rename_i h1; cases h; exact ih _ h1
    · cases h
  case enil => intro err h; simp [decodeNumbersElements] at h
  case econs =>
    intro x xs ihx ihxs err h
    rw [decodeNumbersElements] at h
    split at h
    · rename_i h1; cases h; exact ihx _ h1
    · split at h
      · rename_i h1; cases h; exact ihxs _ h1
      · cases h
  case mnil => intro err h; simp [decodeNumbersMembers] at h
  case mcons =>
    intro m ms ihm ihms err h
    obtain ⟨k, x⟩ := m
    rw [decodeNumbersMembers] at h
    split at h
    · rename_i h1; cases h; exact ihm _ h1
    · split at h
      · rename_i h1; cases h; exact ihms _ h1
      · cases h
  case pair => intro k x ih; exact ih

/-- The decoder fails with real errors. -/
theorem jsonUnmarshal_real (text : String) (err : Error)
    (h : jsonUnmarshal text = .error err) : err.Real := by
  unfold jsonUnmarshal at h
  split at h
  · rename_i h1; cases h; exact jsonDecode_real _ _ h1
  · exact decodeNumbers_real _ _ h

/-- `jsonpointer.New` fails with real errors. -/
theorem pointerNew_real (path : String) (err : Error)
    (h : pointerNew path = .error err) : err.Real := by
  unfold pointerNew at h
  repeat' split at h
  all_goals cases h
  all_goals simp [Error.Real]

/-- `resolveParameter` fails with real errors. -/
theorem resolveParameter_real (path : String) (entry : Entry) (err : Error)
    (h : resolveParameter path entry = .error err) : err.Real := by
  unfold resolveParameter Entry.Get at h
  split at h
  · rename_i h1; cases h1
  · cases h; simp [Error.Real]
  · split at h
    · rename_i h1
      cases h
      exact pointerNew_real _ _ h1
    · split at h <;> cases h

/-- `resolveAccessor` fails with real errors. -/
theorem resolveAccessor_real (accessor : Accessor) (entry : Entry) (err : Error)
    (h : resolveAccessor accessor entry = .error err) : err.Real := by
  unfold resolveAccessor Entry.GetUser at h
  split at h
  · split at h
    · rename_i h1; cases h1
    · cases h
    · cases h
  · split at h
    · split at h
      · rename_i h1
        cases h
        exact resolveParameter_real _ _ _ h1
      · cases h
      · cases h
    · cases h; simp [Error.Real]

/-- `resolveAccessorStringList` fails with real errors. -/
theorem resolveAccessorStringList_real (entry : Entry) :
    ∀ (accessors : List Accessor) (err : Error),
      resolveAccessorStringList accessors entry = .error err → err.Real := by
  intro accessors
  induction accessors with
  | nil => intro err h; simp [resolveAccessorStringList] at h
  | cons a rest ih =>
    intro err h
    rw [resolveAccessorStringList] at h
    split at h
    · rename_i h1
      cases h
      exact resolveAccessor_real _ _ _ h1
    · split at h
      · exact ih err h
      · split at h
        · cases h; simp [Error.Real]
        · split at h
          · rename_i h1
            cases h
            exact ih _ h1
          · cases h

/-- The loop of `resolveFormat` fails with real errors. -/
theorem resolveFormatParameters_real (entry : Entry) :
    ∀ (accessors : List Accessor) (err : Error),
      resolveFormatParameters accessors entry = .error err → err.Real := by
  intro accessors
  induction accessors with
  | nil => intro err h; simp [resolveFormatParameters] at h
  | cons a rest ih =>
    intro err h
    rw [resolveFormatParameters] at h
    split at h
    · rename_i h1
      cases h
      exact resolveAccessor_real _ _ _ h1
    · split at h
      · cases h
      · split at h
        · rename_i h1
          cases h
          exact ih _ h1
        · cases h
        · cases h

/-- `resolveFormat` fails with real errors. -/
theorem resolveFormat_real (env : Env) (format : ConfigurationParameterSourceFormat)
    (entry : Entry) (err : Error) (h : resolveFormat env format entry = .error err) :
    err.Real := by
  unfold resolveFormat at h
  split at h
  · rename_i h1
    cases h
    exact resolveFormatParameters_real _ _ _ h1
  · cases h
  · cases h

/-- The loop of `resolveGeneratePassword` fails with real errors when the random source
does. -/
theorem generatePasswordLoop_real (dictionary : List Nat) (limit : Int) (draws : Nat → Draw)
    (hdraws : ∀ i err, draws i = .fail err → err.Real) :
    ∀ (remaining i : Nat) (value : List Nat) (err : Error),
      generatePasswordLoop dictionary limit draws remaining i value = .error err → err.Real := by
  intro remaining
  induction remaining with
  | zero => intro i value err h; simp [generatePasswordLoop] at h
  | succ n ih =>
    intro i value err h
    rw [generatePasswordLoop] at h
    split at h
    · rename_i h1
      cases h
      unfold randInt at h1
      split at h1
      · cases h1; simp [Error.Real]
      · split at h1
        · rename_i hd
          cases h1
          exact hdraws _ _ hd
        · cases h1
    · split at h
      · cases h; simp [Error.Real]
      · split at h
        · cases h; simp [Error.Real]
        · exact ih _ _ _ h

/-- `resolveGeneratePassword` fails with real errors when the random source does. -/
theorem resolveGeneratePassword_real (config : ConfigurationParameterSourceGeneratePassword)
    (draws : Nat → Draw) (hdraws : ∀ i err, draws i = .fail err → err.Real) (err : Error)
    (h : resolveGeneratePassword config draws = .error err) : err.Real := by
  unfold resolveGeneratePassword at h
  split at h
  · rename_i err1 h1
    cases h
    unfold generatePassword at h1
    exact generatePasswordLoop_real _ _ _ hdraws _ _ _ _ h1
  · rename_i value _
    unfold Value.ofBytes at h
    split at h
    · cases h
    · cases h
      simp [Error.Real]

/-- `getPrivateKey` fails with real errors. -/
theorem getPrivateKey_real (parameter : Accessor) (entry : Entry) (err : Error)
    (h : getPrivateKey parameter entry = .error err) : err.Real := by
  unfold getPrivateKey at h
  split at h
  · rename_i h1
    cases h
    exact resolveAccessor_real _ _ _ h1
  · split at h
    · cases h
    · cases h; simp [Error.Real]

/-- `getCertificate` fails with real errors. -/
theorem getCertificate_real (parameter : Accessor) (entry : Entry) (err : Error)
    (h : getCertificate parameter entry = .error err) : err.Real := by
  unfold getCertificate at h
  split at h
  · rename_i h1
    cases h
    exact resolveAccessor_real _ _ _ h1
  · split at h
    · cases h
    · cases h; simp [Error.Real]

/-- `resolveGenerateCertificate` fails with real errors when the generator does. -/
theorem resolveGenerateCertificate_real (env : Env) (henv : env.Real)
    (config : ConfigurationParameterSourceGenerateCertificate) (entry : Entry) (clock : Nat)
    (err : Error) (h : resolveGenerateCertificate env config entry clock = .error err) :
    err.Real := by
  unfold resolveGenerateCertificate at h
  split at h
  · rename_i h1
    cases h
    exact getPrivateKey_real _ _ _ h1
  · split at h
    · rename_i h1
      cases h
      unfold resolveAlternativeNames at h1
      split at h1
      · cases h1
      · split at h1
        · rename_i h2
          cases h1
          exact resolveAccessorStringList_real _ _ _ h2
        · split at h1
          · rename_i h2
            cases h1
            exact resolveAccessorStringList_real _ _ _ h2
          · cases h1
    · split at h
      · rename_i h1
        cases h
        unfold resolveCA at h1
        split at h1
        · cases h1
        · split at h1
          · rename_i h2
            cases h1
            exact getPrivateKey_real _ _ _ h2
          · split at h1
            · rename_i h2
              cases h1
              exact getCertificate_real _ _ _ h2
            · cases h1
      · split at h
        · rename_i h1
          cases h
          exact henv.2.2.1 _ _ _ h1
        · cases h

/-- `getTemplate` fails with a real error. -/
theorem getTemplate_real (env : Env) (name : String) (err : Error)
    (h : getTemplate env name = .error err) : err.Real := by
  unfold getTemplate at h
  split at h
  · cases h
  · cases h; simp [Error.Real]

/-- The template case of `resolveSource` fails with real errors when the nested render of the
template does. -/
theorem resolveTemplateSource_real (env : Env) (render : Renderer) (name : String)
    (hrender : ∀ c, getTemplate env name = .ok c →
      ∀ st err st1, render c st = (.error err, st1) → err.Real)
    (st st1 : State) (err : Error)
    (h : resolveTemplateSource env render name st = (.error err, st1)) : err.Real := by
  unfold resolveTemplateSource at h
  split at h
  · rename_i ht
    cases h
    exact getTemplate_real _ _ _ ht
  · rename_i t ht
    split at h
    · rename_i e2 st2 hr
      simp only [Prod.mk.injEq, Except.error.injEq] at h
      rw [← h.1]
      exact hrender t ht _ _ _ hr
    · split at h
      · cases h; simp [Error.Real]
      · split at h
        · rename_i hj
          simp only [Prod.mk.injEq, Except.error.injEq] at h
          rw [← h.1]
          exact jsonUnmarshal_real _ _ hj
        · cases h

/-- `resolveSource` fails with real errors when the environment and the nested renders do. -/
theorem resolveSource_real (env : Env) (henv : env.Real) (render : Renderer)
    (source : Option ConfigurationParameterSource)
    (hrender : ∀ src name c, source = some src → src.Template = some name →
      getTemplate env name = .ok c → ∀ st err st1, render c st = (.error err, st1) → err.Real)
    (st st1 : State) (err : Error)
    (h : resolveSource env render source st = (.error err, st1)) : err.Real := by
  unfold resolveSource at h
  split at h
  · cases h
  · rename_i src
    split at h
    · unfold Entry.GetUser at h
      split at h
      · rename_i h1; cases h1
      · cases h
      · cases h
    · split at h
      · split at h
        · rename_i h1
          simp only [Prod.mk.injEq, Except.error.injEq] at h
          rw [← h.1]
          exact resolveParameter_real _ _ _ h1
        · cases h
        · cases h
      · split at h
        · simp only [Prod.mk.injEq] at h
          exact resolveFormat_real _ _ _ _ h.1
        · split at h
          · simp only [Prod.mk.injEq] at h
            exact resolveGeneratePassword_real _ _ (fun i e he => henv.1 _ _ _ he) _ h.1
          · split at h
            · simp only [Prod.mk.injEq] at h
              have h1 := h.1
              unfold resolveGenerateKey at h1
              split at h1
              · rename_i hk
                cases h1
                exact henv.2.1 _ _ _ _ _ hk
              · cases h1
            · split at h
              · simp only [Prod.mk.injEq] at h
                exact resolveGenerateCertificate_real env henv _ _ _ _ h.1
              · split at h
                · rename_i name hname
                  exact resolveTemplateSource_real env render name
                    (fun c hc => hrender src name c rfl hname hc) st st1 err h
                · cases h

/-- The default of a parameter fails with real errors. -/
theorem resolveDefault_real (default : ConfigurationParameterDefault) (err : Error)
    (h : resolveDefault default = .error err) : err.Real := by
  unfold resolveDefault at h
  split at h
  · cases h
  · split at h
    · cases h
    · split at h
      · cases h
      · split at h
        · exact jsonUnmarshal_real _ _ h
        · cases h; simp [Error.Real]

/-- The check of a required parameter fails with a real error. -/
theorem checkRequired_real (parameter : ConfigurationParameter) (value : Value) (err : Error)
    (h : checkRequired parameter value = .error err) : err.Real := by
  unfold checkRequired at h
  split at h
  · cases h; simp [Error.Real]
  · cases h

/-- `resolveTemplateParameter` fails with real errors when the environment and the nested
renders do. -/
theorem resolveTemplateParameter_real (env : Env) (henv : env.Real) (render : Renderer)
    (parameter : ConfigurationParameter)
    (hrender : ∀ c, ParameterReferences env parameter c →
      ∀ st err st1, render c st = (.error err, st1) → err.Real)
    (st st1 : State) (err : Error)
    (h : resolveTemplateParameter env render parameter st = (.error err, st1)) : err.Real := by
  have hs := resolveSource_real env henv render parameter.Source
    (fun src name c hsrc hname hc => hrender c ⟨src, name, hsrc, hname, hc⟩) st
  unfold resolveTemplateParameter at h
  split at h
  · rename_i e2 st2 hr
    simp only [Prod.mk.injEq, Except.error.injEq] at h
    rw [← h.1]
    exact hs _ _ hr
  · split at h
    · split at h
      · split at h
        · rename_i hd
          simp only [Prod.mk.injEq, Except.error.injEq] at h
          rw [← h.1]
          exact resolveDefault_real _ _ hd
        · simp only [Prod.mk.injEq] at h
          exact checkRequired_real _ _ _ h.1
      · simp only [Prod.mk.injEq] at h
        exact checkRequired_real _ _ _ h.1
    · simp only [Prod.mk.injEq] at h
      exact checkRequired_real _ _ _ h.1

/-- The loop over the destinations fails with real errors. -/
theorem patchDestinations_real (parameter : ConfigurationParameter) (value : Value) :
    ∀ (ds : List ConfigurationParameterDestination) (patches : List String)
      (entry entry1 : Entry) (err : Error),
      patchDestinations parameter value ds patches entry = (.error err, entry1) → err.Real := by
  intro ds
  induction ds with
  | nil => intro _ _ _ _ h; simp [patchDestinations] at h
  | cons d ds ih =>
    intro patches entry entry1 err h
    rw [patchDestinations] at h
    split at h
    · split at h
      · cases h; simp [Error.Real]
      · unfold Entry.SetUser at h
        exact ih _ _ _ _ h
    · split at h
      · exact ih _ _ _ _ h
      · exact ih _ _ _ _ h

/-- `patchObject` fails with real errors when the environment and the nested renders do. -/
theorem patchObject_real (env : Env) (henv : env.Real) (render : Renderer) :
    ∀ (parameters : List ConfigurationParameter),
      (∀ p ∈ parameters, ∀ c, ParameterReferences env p c →
        ∀ st err st1, render c st = (.error err, st1) → err.Real) →
      ∀ (object : String) (st st1 : State) (err : Error),
        patchObject env render object parameters st = (.error err, st1) → err.Real := by
  intro parameters
  induction parameters with
  | nil => intro _ _ _ _ _ h; simp [patchObject] at h
  | cons p rest ih =>
    intro hrender object st st1 err h
    have hrest := ih (fun q hq => hrender q (List.mem_cons_of_mem _ hq))
    rw [patchObject] at h
    split at h
    · rename_i e2 st2 hr
      simp only [Prod.mk.injEq, Except.error.injEq] at h
      rw [← h.1]
      exact resolveTemplateParameter_real env henv render p
        (hrender p (List.mem_cons_self _ _)) _ _ _ hr
    · split at h
      · exact hrest _ _ _ _ h
      · split at h
        · rename_i e2 entry1 hd
          simp only [Prod.mk.injEq, Except.error.injEq] at h
          rw [← h.1]
          exact patchDestinations_real _ _ _ _ _ _ _ hd
        · split at h
          · exact hrest _ _ _ _ h
          · split at h
            · rename_i hdec
              simp only [Prod.mk.injEq, Except.error.injEq] at h
              rw [← h.1]
              exact henv.2.2.2.1 _ _ hdec
            · split at h
              · rename_i hap
                simp only [Prod.mk.injEq, Except.error.injEq] at h
                rw [← h.1]
                exact henv.2.2.2.2 _ _ _ hap
              · exact hrest _ _ _ _ h

/-- The body of `renderTemplate` fails with real errors when the environment and the nested
renders of the referenced templates do. -/
theorem renderTemplateWith_real (env : Env) (henv : env.Real) (render : Renderer)
    (template : ConfigurationTemplate)
    (hrender : ∀ c, References env template c →
      ∀ st err st1, render c st = (.error err, st1) → err.Real)
    (st st1 : State) (err : Error)
    (h : renderTemplateWith env render template st = (.error err, st1)) : err.Real := by
  unfold renderTemplateWith at h
  split at h
  · cases h; simp [Error.Real]
  · split at h
    · cases h; simp [Error.Real]
    · split at h
      · rename_i e2 st2 hp
        simp only [Prod.mk.injEq, Except.error.injEq] at h
        rw [← h.1]
        exact patchObject_real env henv render template.Parameters
          (fun p hp c hc => hrender c ⟨p, hp, hc⟩) _ _ _ _ hp
      · cases h

/-! ## A render depends on the nested renders of the referenced templates only -/

/-- The template case of `resolveSource` depends on the renderer only through the render of the
named template. -/
theorem resolveTemplateSource_congr (env : Env) (r1 r2 : Renderer) (name : String)
    (h : ∀ c, getTemplate env name = .ok c → ∀ st, r1 c st = r2 c st) (st : State) :
    resolveTemplateSource env r1 name st = resolveTemplateSource env r2 name st := by
  unfold resolveTemplateSource
  cases ht : getTemplate env name with
  | error err => rfl
  | ok t => simp only [h t ht st]

/-- `resolveSource` depends on the renderer only through the render of the template the source
names. -/
theorem resolveSource_congr (env : Env) (r1 r2 : Renderer)
    (source : Option ConfigurationParameterSource)
    (h : ∀ src name c, source = some src → src.Template = some name →
      getTemplate env name = .ok c → ∀ st, r1 c st = r2 c st) (st : State) :
    resolveSource env r1 source st = resolveSource env r2 source st := by
  unfold resolveSource
  cases source with
  | none => rfl
  | some src =>
    simp only
    cases hname : src.Template with
    | none => rfl
    | some name =>
      simp only [resolveTemplateSource_congr env r1 r2 name
        (fun c hc => h src name c rfl hname hc) st]

/-- `resolveTemplateParameter` depends on the renderer only through the renders of the templates
the parameter refers to. -/
theorem resolveTemplateParameter_congr (env : Env) (r1 r2 : Renderer)
    (parameter : ConfigurationParameter)
    (h : ∀ c, ParameterReferences env parameter c → ∀ st, r1 c st = r2 c st) (st : State) :
    resolveTemplateParameter env r1 parameter st = resolveTemplateParameter env r2 parameter st := by
  unfold resolveTemplateParameter
  rw [resolveSource_congr env r1 r2 parameter.Source
    (fun src name c hsrc hname hc => h c ⟨src, name, hsrc, hname, hc⟩) st]

/-- `patchObject` depends on the renderer only through the renders of the templates its
parameters refer to. -/
theorem patchObject_congr (env : Env) (r1 r2 : Renderer) :
    ∀ (parameters : List ConfigurationParameter),
      (∀ p ∈ parameters, ∀ c, ParameterReferences env p c → ∀ st, r1 c st = r2 c st) →
      ∀ (object : String) (st : State),
        patchObject env r1 object parameters st = patchObject env r2 object parameters st := by
  intro parameters
  induction parameters with
  | nil => intro _ _ _; rfl
  | cons p rest ih =>
    intro h object st
    have hrest := ih (fun q hq => h q (List.mem_cons_of_mem _ hq))
    rw [patchObject, patchObject,
      resolveTemplateParameter_congr env r1 r2 p (h p (List.mem_cons_self _ _)) st]
    simp only [hrest]

/-- The body of `renderTemplate` depends on the renderer only through the renders of the
templates the template refers to. -/
theorem renderTemplateWith_congr (env : Env) (r1 r2 : Renderer) (template : ConfigurationTemplate)
    (h : ∀ c, References env template c → ∀ st, r1 c st = r2 c st) (st : State) :
    renderTemplateWith env r1 template st = renderTemplateWith env r2 template st := by
  unfold renderTemplateWith
  simp only [patchObject_congr env r1 r2 template.Parameters
    (fun p hp c hc => h c ⟨p, hp, hc⟩)]

/-! ## Termination of recursive rendering -/

/-- A render that terminates within `d` nested calls terminates within any larger number. -/
theorem TerminatesWithin.mono (env : Env) (t : ConfigurationTemplate) (d e : Nat)
    (h : TerminatesWithin env t d) (hde : d ≤ e) : TerminatesWithin env t e := by
  intro depth hdepth st
  have h1 := h depth (Nat.le_trans hde hdepth) st
  have h2 := h e hde st
  refine ⟨by rw [h1.1, h2.1], ?_⟩
  rw [h2.1]
  exact h2.2

/-- A common bound for the templates of a list that satisfy a condition. -/
theorem terminatesWithin_common (env : Env) (q : ConfigurationTemplate → Prop) :
    ∀ (l : List ConfigurationTemplate), (∀ c ∈ l, q c → ∃ d, TerminatesWithin env c d) →
      ∃ bound, ∀ c ∈ l, q c → TerminatesWithin env c bound := by
  intro l
  induction l with
  | nil => intro _; exact ⟨0, by intro c hc; simp at hc⟩
  | cons a l ih =>
    intro h
    obtain ⟨b1, hb1⟩ := ih (fun c hc => h c (List.mem_cons_of_mem _ hc))
    by_cases ha : q a
    · obtain ⟨d, hd⟩ := h a (List.mem_cons_self _ _) ha
      refine ⟨max b1 d, ?_⟩
      intro c hc hq
      rcases List.mem_cons.1 hc with heq | hmem
      · subst heq
        exact TerminatesWithin.mono env c d _ hd (le_max_right _ _)
      · exact TerminatesWithin.mono env c b1 _ (hb1 c hmem hq) (le_max_left _ _)
    · refine ⟨b1, ?_⟩
      intro c hc hq
      rcases List.mem_cons.1 hc with heq | hmem
      · subst heq
        exact absurd hq ha
      · exact hb1 c hmem hq

/-- A template that is referred to is a configured template. -/
theorem References.mem (env : Env) (t c : ConfigurationTemplate) (h : References env t c) :
    c ∈ env.Templates := by
  obtain ⟨p, _, src, name, _, _, hget⟩ := h
  exact getTemplate_mem env name c hget

/-- When the renders of all templates a template refers to terminate within `bound` nested
calls, the render of the template terminates within `bound + 1`. -/
theorem terminatesWithin_step (env : Env) (henv : env.Real) (t : ConfigurationTemplate)
    (bound : Nat) (h : ∀ c, References env t c → TerminatesWithin env c bound) :
    TerminatesWithin env t (bound + 1) := by
  have hreal : ∀ c, References env t c →
      ∀ st err st1, renderTemplate env bound c st = (.error err, st1) → err.Real := by
    intro c hc st err st1 hr
    have h2 := (h c hc bound (Nat.le_refl _) st).2
    intro herr
    apply h2
    rw [hr, herr]
  intro depth hdepth st
  obtain ⟨k, rfl⟩ : ∃ k, depth = k + 1 := ⟨depth - 1, by omega⟩
  have hk : bound ≤ k := by omega
  constructor
  · show renderTemplateWith env (renderTemplate env k) t st =
      renderTemplateWith env (renderTemplate env bound) t st
    exact renderTemplateWith_congr env _ _ t (fun c hc st1 => (h c hc k hk st1).1) st
  · intro hbad
    have hbad1 : renderTemplateWith env (renderTemplate env bound) t st =
        (.error .unterminated, (renderTemplateWith env (renderTemplate env bound) t st).2) := by
      have : (renderTemplateWith env (renderTemplate env bound) t st).1 = .error .unterminated :=
        hbad
      rw [← this]
    exact renderTemplateWith_real env henv _ t hreal st _ _ hbad1 rfl

/-- When the template references are well founded, the render of every template terminates
within some number of nested calls. -/
theorem terminates_of_wellFounded (env : Env) (henv : env.Real)
    (hwf : WellFounded (fun child t => References env t child)) (t : ConfigurationTemplate) :
    ∃ d, TerminatesWithin env t d := by
  induction t using hwf.induction with
  | _ t ih =>
    obtain ⟨bound, hbound⟩ := terminatesWithin_common env (fun c => References env t c)
      env.Templates (fun c _ hc => ih c hc)
    exact ⟨bound + 1, terminatesWithin_step env henv t bound
      (fun c hc => hbound c (References.mem env t c hc) hc)⟩

/-- A template whose render reaches a parameter that refers to the template itself is
unterminated at every depth. -/
theorem unterminated_of_self_reference (env : Env) (name tname bytes : String)
    (p : ConfigurationParameter) (pre rest : List ConfigurationParameter)
    (hsrc : p.Source = some ⟨⟨none, none⟩, none, none, none, none, some tname⟩)
    (hget : getTemplate env tname = .ok ⟨name, some ⟨some bytes⟩, pre ++ p :: rest⟩)
    (hpre : ∀ depth st, ∃ object st1,
      patchObject env (renderTemplate env depth) bytes pre st = (.ok object, st1)) :
    ∀ depth st, ∃ st1,
      renderTemplate env depth ⟨name, some ⟨some bytes⟩, pre ++ p :: rest⟩ st =
        (.error .unterminated, st1) := by
  intro depth
  induction depth with
  | zero => intro st; exact ⟨st, rfl⟩
  | succ depth ih =>
    intro st
    obtain ⟨object, st1, hp⟩ := hpre depth st
    obtain ⟨st2, hself⟩ := ih st1
    refine ⟨st2, ?_⟩
    apply renderTemplate_of_patchObject_error
    rw [patchObject_append, hp]
    simp only [patchObject, resolveTemplateParameter, resolveSource, hsrc,
      resolveTemplateSource, hget, hself]

/-- The operations of a decoded patch fail with a real error. -/
theorem decodeOperations_real :
    ∀ (vs : List Value) (err : Error), decodeOperations vs = .error err → err.Real := by
  intro vs
  induction vs with
  | nil => intro err h; simp [decodeOperations] at h
  | cons v vs ih =>
    intro err h
    rw [decodeOperations] at h
    split at h
    · rename_i h1
      cases h
      exact ih _ h1
    · split at h
      · cases h
      · cases h
      · cases h; simp [Error.Real]

/-- The patch decoder of the spec fails with real errors. -/
theorem decodePatch_real (text : String) (err : Error) (h : decodePatch text = .error err) :
    err.Real := by
  unfold decodePatch at h
  split at h
  · rename_i h1
    cases h
    exact jsonDecode_real _ _ h1
  · exact decodeOperations_real _ _ h
  · cases h
  · cases h; simp [Error.Real]

/-- The add operation of the spec fails with real errors. -/
theorem addPath_real :
    ∀ (tokens : List String) (node value : Value) (err : Error),
      addPath tokens node value = .error err → err.Real := by
  intro tokens
  induction tokens with
  | nil => intro node value err h; simp [addPath] at h
  | cons token tokens ih =>
    intro node value err h
    rw [addPath.eq_def] at h
    simp only at h
    repeat' split at h
    all_goals first
      | cases h; done
      | (cases h; simp [Error.Real]; done)
      | (rename_i h1; cases h; exact ih _ _ _ h1)

/-- One operation of the patcher of the spec fails with real errors. -/
theorem applyOperation_real (doc : Value) (op : Operation) (err : Error)
    (h : applyOperation doc op = .error err) : err.Real := by
  unfold applyOperation at h
  repeat' split at h
  all_goals first
    | exact addPath_real _ _ _ _ h
    | (rename_i h1; cases h; exact pointerNew_real _ _ h1)
    | (cases h; simp [Error.Real])

/-- The operations of a patch fail with real errors. -/
theorem applyOperations_real :
    ∀ (ops : List Operation) (doc : Value) (err : Error),
      applyOperations ops doc = .error err → err.Real := by
  intro ops
  induction ops with
  | nil => intro doc err h; simp [applyOperations] at h
  | cons op ops ih =>
    intro doc err h
    rw [applyOperations] at h
    split at h
    · rename_i h1
      cases h
      exact applyOperation_real _ _ _ h1
    · exact ih _ _ h

/-- The patcher of the spec fails with real errors. -/
theorem applyPatch_real (patch : List Operation) (object : String) (err : Error)
    (h : applyPatch patch object = .error err) : err.Real := by
  unfold applyPatch at h
  split at h
  · rename_i h1
    cases h
    exact jsonDecode_real _ _ h1
  · repeat' split at h
    all_goals first
      | (rename_i h1; cases h; exact applyOperations_real _ _ _ h1)
      | (cases h; simp [Error.Real])
      | cases h

/-- The sample environment, with any configured templates, fails with real errors only. -/
theorem sampleEnv_real (templates : List ConfigurationTemplate) :
    Env.Real { sampleEnv with Templates := templates } := by
  refine ⟨?_, ?_, ?_, ?_, ?_⟩
  · intro call i err h
    simp [sampleEnv] at h
  · intro clock t e bits err h
    simp only [sampleEnv, Except.error.injEq] at h
    subst h
    simp [Error.Real]
  · intro clock request err h
    simp only [sampleEnv, Except.error.injEq] at h
    subst h
    simp [Error.Real]
  · intro text err h
    exact decodePatch_real text err h
  · intro patch object err h
    exact applyPatch_real patch object err h

/-- C20, as stated, fails: the template `loop` refers to itself in its second parameter, and
yet its render terminates, from depth 1 on and for every entry, because the required
parameter in front of the reference has no value and ends the render with an error. -/
theorem self_reference_behind_failure_terminates :
    References guardedLoopEnv guardedLoopTemplate guardedLoopTemplate ∧
      TerminatesWithin guardedLoopEnv guardedLoopTemplate 1 ∧
      renderTemplate guardedLoopEnv 1 guardedLoopTemplate ⟨⟨none, []⟩, 0⟩ =
        (.error (.parameterError "source for parameter size is required"),
          ⟨⟨none, []⟩, 0⟩) := by
  refine ⟨?_, ?_, rfl⟩
  · refine ⟨⟨"self", false, none, some ⟨⟨none, none⟩, none, none, none, none, some "loop"⟩,
      [⟨none, some "/self"⟩]⟩, ?_, _, "loop", rfl, rfl, rfl⟩
    simp [guardedLoopTemplate]
  · intro depth hdepth st
    obtain ⟨k, rfl⟩ : ∃ k, depth = k + 1 := ⟨depth - 1, by omega⟩
    constructor
    · simp [renderTemplate, renderTemplateWith, guardedLoopTemplate, patchObject,
        resolveTemplateParameter, resolveSource, checkRequired, Value.isNil]
    · simp [renderTemplate, renderTemplateWith, guardedLoopTemplate, patchObject,
        resolveTemplateParameter, resolveSource, checkRequired, Value.isNil]

/-- C20, amended: when the external parts of the environment fail with real errors and the
template references of the configuration are well founded, the render of every template
terminates: from some depth on `renderTemplate` gives one and the same outcome for every
entry, and it is not the mark of an exhausted depth.  There is no depth or cycle guard: a
template whose render reaches a parameter that refers to the template itself (the parameters
in front of it, if any, are processed without error) is unterminated at every depth and for
every entry. -/
theorem rendering_terminates_on_wellfounded_references (env : Env) :
    (env.Real → WellFounded (fun child t => References env t child) →
        ∀ t, ∃ d, TerminatesWithin env t d) ∧
      (∀ (name tname bytes : String) (p : ConfigurationParameter)
        (pre rest : List ConfigurationParameter),
        p.Source = some ⟨⟨none, none⟩, none, none, none, none, some tname⟩ →
        getTemplate env tname = .ok ⟨name, some ⟨some bytes⟩, pre ++ p :: rest⟩ →
        (∀ depth st, ∃ object st1,
          patchObject env (renderTemplate env depth) bytes pre st = (.ok object, st1)) →
        (∀ depth st, ∃ st1,
          renderTemplate env depth ⟨name, some ⟨some bytes⟩, pre ++ p :: rest⟩ st =
            (.error .unterminated, st1)) ∧
          ∀ d, ¬ TerminatesWithin env ⟨name, some ⟨some bytes⟩, pre ++ p :: rest⟩ d) := by
  refine ⟨fun henv hwf t => terminates_of_wellFounded env henv hwf t, ?_⟩
  intro name tname bytes p pre rest hsrc hget hpre
  have h := unterminated_of_self_reference env name tname bytes p pre rest hsrc hget hpre
  refine ⟨h, ?_⟩
  intro d hd
  obtain ⟨st1, hst1⟩ := h d ⟨⟨none, []⟩, 0⟩
  apply (hd d (Nat.le_refl _) ⟨⟨none, []⟩, 0⟩).2
  rw [hst1]

/-- The references of the configuration with the one template `leaf` are well founded. -/
theorem leafEnv_wellFounded : WellFounded (fun child t => References leafEnv t child) := by
  have hleaf : Acc (fun child t => References leafEnv t child) leafTemplate := by
    refine Acc.intro _ ?_
    intro x hx
    obtain ⟨p, hp, _⟩ := hx
    simp [leafTemplate] at hp
  refine WellFounded.intro ?_
  intro t
  refine Acc.intro _ ?_
  intro c hc
  have hmem := References.mem leafEnv t c hc
  have hc1 : c = leafTemplate := by
    simpa [leafEnv] using hmem
  rw [hc1]
  exact hleaf

/-- C20, witness: the render of the template `parent`, which refers to the configured template
`leaf`, terminates; the render of the configured template `loop`, whose first parameter
refers to `loop`, is unterminated at depth 5. -/
theorem rendering_terminates_on_wellfounded_references_witness :
    (∃ d, TerminatesWithin leafEnv parentTemplate d) ∧
      ∃ st1, renderTemplate loopEnv 5 loopTemplate ⟨⟨none, []⟩, 0⟩ =
        (.error .unterminated, st1) :=
  ⟨(rendering_terminates_on_wellfounded_references leafEnv).1 (sampleEnv_real [leafTemplate])
      leafEnv_wellFounded parentTemplate,
    ((rendering_terminates_on_wellfounded_references loopEnv).2 "loop" "loop" "\x7b\x7d"
      ⟨"self", false, none, some ⟨⟨none, none⟩, none, none, none, none, some "loop"⟩,
        [⟨none, some "/self"⟩]⟩ [] [] rfl rfl (fun _ st => ⟨_, st, rfl⟩)).1 5
      ⟨⟨none, []⟩, 0⟩⟩

/-! ## Parameters that leave the document alone -/

/-- C21, counterexample: an optional parameter without a default whose source is a reference
to the template `null` resolves to nil, because the rendered document is the text `null`, and
is skipped with its destinations untouched and the document unchanged; yet the nested render
has bound the key `k`, so the User namespace after the parameter differs from the one before
it. -/
theorem nested_render_of_unset_parameter_writes :
    nullReference.Required = false ∧ nullReference.Default = none ∧
      resolveTemplateParameter nullEnv (renderTemplate nullEnv 1) nullReference ⟨⟨none, []⟩, 0⟩ =
        (.ok .nil, ⟨⟨none, [("k", "x")]⟩, 0⟩) ∧
      patchObject nullEnv (renderTemplate nullEnv 1) "\x7b\x7d" [nullReference] ⟨⟨none, []⟩, 0⟩ =
        (.ok "\x7b\x7d", ⟨⟨none, [("k", "x")]⟩, 0⟩) ∧
      (⟨⟨none, [("k", "x")]⟩, 0⟩ : State).user "k" ≠ (⟨⟨none, []⟩, 0⟩ : State).user "k" := by
  refine ⟨rfl, rfl, ?_, ?_, ?_⟩
  · rfl
  · rfl
  · decide

/-- A source that is not a template reference is resolved without a write to the entry. -/
theorem resolveSource_entry (env : Env) (render : Renderer)
    (source : Option ConfigurationParameterSource)
    (hsource : ∀ src, source = some src → src.Template = none) (st : State) :
    (resolveSource env render source st).2.entry = st.entry := by
  cases source with
  | none => rfl
  | some src =>
    have ht : src.Template = none := hsource src rfl
    unfold resolveSource
    simp only [ht]
    repeat' split
    all_goals rfl

/-- Destinations none of which acts as a path leave the list of patches as it was. -/
theorem patchDestinations_no_path (parameter : ConfigurationParameter) (value : Value) :
    ∀ (ds : List ConfigurationParameterDestination) (patches patches1 : List String)
      (entry entry1 : Entry),
      (∀ d ∈ ds, d.Registry = none → d.Path = none) →
      patchDestinations parameter value ds patches entry = (.ok patches1, entry1) →
      patches1 = patches := by
  intro ds
  induction ds with
  | nil =>
    intro patches patches1 entry entry1 _ h
    rw [patchDestinations] at h
    cases h
    rfl
  | cons d ds ih =>
    intro patches patches1 entry entry1 hno h
    have hrest : ∀ d1 ∈ ds, d1.Registry = none → d1.Path = none :=
      fun d1 hd1 => hno d1 (List.mem_cons_of_mem d hd1)
    rw [patchDestinations] at h
    cases hr : d.Registry with
    | some key =>
      rw [hr] at h
      simp only at h
      cases hs : value.asString with
      | none => rw [hs] at h; cases h
      | some s =>
        rw [hs] at h
        simp only [Entry.SetUser] at h
        exact ih _ _ _ _ hrest h
    | none =>
      have hp : d.Path = none := hno d (List.mem_cons_self d ds) hr
      rw [hr, hp] at h
      simp only at h
      exact ih _ _ _ _ hrest h

/-- Destinations without a registry key are gone through without a failure and without a
write to the entry. -/
theorem patchDestinations_no_registry (parameter : ConfigurationParameter) (value : Value) :
    ∀ (ds : List ConfigurationParameterDestination) (patches : List String) (entry : Entry),
      (∀ d ∈ ds, d.Registry = none) →
      patchDestinations parameter value ds patches entry =
        (.ok (patches ++ pathOperations value ds), entry) := by
  intro ds
  induction ds with
  | nil =>
    intro patches entry _
    simp [patchDestinations, pathOperations]
  | cons d ds ih =>
    intro patches entry hno
    have hr : d.Registry = none := hno d (List.mem_cons_self d ds)
    have hrest : ∀ d1 ∈ ds, d1.Registry = none :=
      fun d1 hd1 => hno d1 (List.mem_cons_of_mem d hd1)
    rw [patchDestinations]
    cases hp : d.Path with
    | some path =>
      simp only [hr]
      rw [ih _ _ hrest]
      simp [pathOperations, hr, hp, List.filterMap_cons]
    | none =>
      simp only [hr]
      rw [ih _ _ hrest]
      simp [pathOperations, hr, hp, List.filterMap_cons]

/-- The loop over the destinations succeeds exactly when the value is a string or no
destination is a registry key. -/
theorem patchDestinations_ok_iff (parameter : ConfigurationParameter) (value : Value)
    (ds : List ConfigurationParameterDestination) (patches : List String) (entry : Entry) :
    (∃ patches1 entry1, patchDestinations parameter value ds patches entry =
        (.ok patches1, entry1)) ↔
      (value.asString ≠ none ∨ ∀ d ∈ ds, d.Registry = none) := by
  constructor
  · rintro ⟨patches1, entry1, h⟩
    by_contra hcon
    rw [not_or] at hcon
    obtain ⟨hstr, hreg⟩ := hcon
    have hstr1 : value.asString = none := not_not.1 hstr
    have hreg1 : ∃ d ∈ ds, d.Registry ≠ none := by
      by_contra hnone
      apply hreg
      intro d hd
      by_contra hne
      exact hnone ⟨d, hd, hne⟩
    rw [patchDestinations_not_string parameter value hstr1 ds patches entry hreg1] at h
    cases h
  · rintro (hstr | hreg)
    · cases value with
      | string s => exact ⟨_, _, patchDestinations_string parameter s ds patches entry⟩
      | nil => exact absurd rfl hstr
      | bool b => exact absurd rfl hstr
      | int i => exact absurd rfl hstr
      | number n => exact absurd rfl hstr
      | array xs => exact absurd rfl hstr
      | object ms => exact absurd rfl hstr
    · exact ⟨_, _, patchDestinations_no_registry parameter value ds patches entry hreg⟩

/-- C21, amended: an optional parameter without a default whose source resolves to nil is
skipped by `patchObject` whatever destinations it declares: the loop goes on with the same
document bytes and with the state the resolution of the source left, whose entry is the one
before the parameter when the source is not a template reference, and whose User namespace
agrees with the one before on every key the nested render leaves alone.  Likewise a parameter
with a value none of whose destinations acts as a path leaves the document bytes unchanged
whenever the loop over its destinations succeeds, which it does exactly when the value is a
string or no destination is a registry key. -/
theorem unset_optional_parameter_is_skipped (env : Env) (render : Renderer) (object : String)
    (rest : List ConfigurationParameter) :
    (∀ (parameter : ConfigurationParameter) (st st1 : State),
      parameter.Required = false → parameter.Default = none →
      resolveSource env render parameter.Source st = (.ok .nil, st1) →
        resolveTemplateParameter env render parameter st = (.ok .nil, st1) ∧
        patchObject env render object (parameter :: rest) st =
          patchObject env render object rest st1 ∧
        patchObject env render object [parameter] st = (.ok object, st1) ∧
        ((∀ src, parameter.Source = some src → src.Template = none) → st1.entry = st.entry) ∧
        (∀ key, KeepsKey env render key → st1.user key = st.user key)) ∧
    (∀ (parameter : ConfigurationParameter) (value : Value) (st st1 : State)
      (patches : List String) (entry1 : Entry),
      resolveTemplateParameter env render parameter st = (.ok value, st1) →
      value.isNil = false →
      (∀ d ∈ parameter.Destinations, d.Registry = none → d.Path = none) →
      patchDestinations parameter value parameter.Destinations [] st1.entry =
        (.ok patches, entry1) →
        patches = [] ∧
        patchObject env render object (parameter :: rest) st =
          patchObject env render object rest { st1 with entry := entry1 } ∧
        patchObject env render object [parameter] st =
          (.ok object, { st1 with entry := entry1 })) ∧
    (∀ (parameter : ConfigurationParameter) (value : Value) (entry : Entry),
      (∃ patches entry1, patchDestinations parameter value parameter.Destinations [] entry =
          (.ok patches, entry1)) ↔
        (value.asString ≠ none ∨ ∀ d ∈ parameter.Destinations, d.Registry = none)) := by
  refine ⟨?_, ?_, fun parameter value entry =>
    patchDestinations_ok_iff parameter value parameter.Destinations [] entry⟩
  · intro parameter st st1 hreq hdef hsrc
    have hrtp : resolveTemplateParameter env render parameter st = (.ok .nil, st1) := by
      unfold resolveTemplateParameter
      rw [hsrc]
      simp [hdef, checkRequired, hreq, Value.isNil]
    refine ⟨hrtp, ?_, ?_, ?_, ?_⟩
    · rw [patchObject, hrtp]
      simp [Value.isNil]
    · rw [patchObject, hrtp]
      simp [Value.isNil, patchObject]
    · intro hsource
      have h := resolveSource_entry env render parameter.Source hsource st
      rw [hsrc] at h
      exact h
    · intro key hkeep
      have h := resolveSource_user env render key hkeep parameter.Source st
      rw [hsrc] at h
      exact h
  · intro parameter value st st1 patches entry1 hrtp hnil hno hdest
    have hp : patches = [] :=
      patchDestinations_no_path parameter value parameter.Destinations [] patches st1.entry
        entry1 hno hdest
    subst hp
    refine ⟨rfl, ?_, ?_⟩
    · rw [patchObject, hrtp]
      simp [hnil, hdest]
    · rw [patchObject, hrtp]
      simp [hnil, hdest, patchObject]

/-- The amended C21 at concrete inputs: a parameter without source and default is skipped
although it declares a registry key and a path, and a parameter with a string default and
registry destinations only binds its keys and leaves the document as it was. -/
theorem unset_optional_parameter_is_skipped_witness :
    patchObject sampleEnv (renderTemplate sampleEnv 1) "\x7b\"a\":1\x7d" [unsetParameter]
        ⟨⟨none, [("size", "3")]⟩, 0⟩ =
      (.ok "\x7b\"a\":1\x7d", ⟨⟨none, [("size", "3")]⟩, 0⟩) ∧
    patchObject sampleEnv (renderTemplate sampleEnv 1) "\x7b\"a\":1\x7d" [registryOnlyParameter]
        ⟨⟨none, []⟩, 0⟩ =
      (.ok "\x7b\"a\":1\x7d", ⟨⟨none, [("owner", "admin"), ("user", "admin")]⟩, 0⟩) :=
  ⟨((unset_optional_parameter_is_skipped sampleEnv (renderTemplate sampleEnv 1)
      "\x7b\"a\":1\x7d" []).1 unsetParameter ⟨⟨none, [("size", "3")]⟩, 0⟩
      ⟨⟨none, [("size", "3")]⟩, 0⟩ rfl rfl rfl).2.2.1,
   ((unset_optional_parameter_is_skipped sampleEnv (renderTemplate sampleEnv 1)
      "\x7b\"a\":1\x7d" []).2.1 registryOnlyParameter (.string "admin") ⟨⟨none, []⟩, 0⟩
      ⟨⟨none, []⟩, 0⟩ [] ⟨none, [("owner", "admin"), ("user", "admin")]⟩ rfl rfl
      (by decide) rfl).2.2⟩

/-! ## Registry writes within one render -/

/-- A source that is not a template reference leaves every key alone. -/
theorem sourceKeeps_of_no_template (env : Env) (render : Renderer) (key : String)
    (p : ConfigurationParameter) (h : ∀ src, p.Source = some src → src.Template = none) :
    SourceKeeps env render key p := by
  intro st
  have := resolveSource_entry env render p.Source h st
  show ((resolveSource env render p.Source st).2.entry.user.lookup key) = st.entry.user.lookup key
  rw [this]

/-- A source leaves a key alone when the render of the template it may refer to does. -/
theorem sourceKeeps_of_render (env : Env) (render : Renderer) (key : String)
    (p : ConfigurationParameter)
    (h : ∀ src name t, p.Source = some src → src.Template = some name →
      getTemplate env name = .ok t → ∀ st, (render t st).2.user key = st.user key) :
    SourceKeeps env render key p := by
  intro st
  cases hs : p.Source with
  | none => rfl
  | some src =>
    cases ht : src.Template with
    | none =>
      have := sourceKeeps_of_no_template env render key p
        (by intro src1 h1; rw [hs] at h1; cases h1; exact ht) st
      rw [hs] at this
      exact this
    | some name =>
      have hts : (resolveTemplateSource env render name st).2.user key = st.user key := by
        unfold resolveTemplateSource
        cases hg : getTemplate env name with
        | error err => rfl
        | ok t =>
          have hk := h src name t hs ht hg st
          simp only
          cases hr : render t st with
          | mk r st1 =>
            rw [hr] at hk
            cases r with
            | error err => exact hk
            | ok template =>
              simp only
              split
              · exact hk
              · split
                · exact hk
                · exact hk
      unfold resolveSource
      simp only [ht]
      repeat' split
      all_goals first
        | rfl
        | exact hts

/-- `resolveTemplateParameter` leaves a key alone that the resolution of the source leaves
alone. -/
theorem resolveTemplateParameter_user_of_source (env : Env) (render : Renderer) (key : String)
    (parameter : ConfigurationParameter) (hsource : SourceKeeps env render key parameter)
    (st : State) :
    (resolveTemplateParameter env render parameter st).2.user key = st.user key := by
  have hs := hsource st
  unfold resolveTemplateParameter
  cases hr : resolveSource env render parameter.Source st with
  | mk r st1 =>
    rw [hr] at hs
    cases r with
    | error err => exact hs
    | ok value =>
      simp only
      repeat' split
      all_goals exact hs

/-- `patchObject` leaves a key alone that none of its parameters writes, whether the run
succeeds or fails. -/
theorem patchObject_leavesKey (env : Env) (render : Renderer) (key : String) :
    ∀ (parameters : List ConfigurationParameter) (object : String) (st : State),
      (∀ p ∈ parameters, LeavesKey env render key p) →
      (patchObject env render object parameters st).2.user key = st.user key := by
  intro parameters
  induction parameters with
  | nil => intro _ _ _; rfl
  | cons p rest ih =>
    intro object st h
    have hp := (h p (List.mem_cons_self _ _)).1
    have hrest : ∀ q ∈ rest, LeavesKey env render key q :=
      fun q hq => h q (List.mem_cons_of_mem _ hq)
    have h1 := resolveTemplateParameter_user_of_source env render key p
      (h p (List.mem_cons_self _ _)).2 st
    rw [patchObject]
    cases hr : resolveTemplateParameter env render p st with
    | mk r st1 =>
      rw [hr] at h1
      cases r with
      | error err => exact h1
      | ok value =>
        simp only
        split
        · rw [ih _ _ hrest]; exact h1
        · have h2 := patchDestinations_lookup_of_noWrite p value key p.Destinations [] st1.entry hp
          cases hd : patchDestinations p value p.Destinations [] st1.entry with
          | mk r2 entry1 =>
            rw [hd] at h2
            have h3 : State.user { st1 with entry := entry1 } key = st.user key := by
              rw [← h1]; exact h2
            cases r2 with
            | error err => exact h3
            | ok patches =>
              simp only
              split
              · rw [ih _ _ hrest]; exact h3
              · split
                · exact h3
                · split
                  · exact h3
                  · rw [ih _ _ hrest]; exact h3

/-- The render of a template none of whose parameters writes a key leaves the key alone. -/
theorem renderTemplate_leavesKey (env : Env) (key : String) (depth : Nat)
    (template : ConfigurationTemplate)
    (h : ∀ p ∈ template.Parameters, LeavesKey env (renderTemplate env depth) key p)
    (st : State) :
    (renderTemplate env (depth + 1) template st).2.user key = st.user key := by
  have hp := fun bytes => patchObject_leavesKey env (renderTemplate env depth) key
    template.Parameters bytes st h
  simp only [renderTemplate, renderTemplateWith]
  split
  · rfl
  · split
    · rfl
    · rename_i bytes _
      have hb := hp bytes
      split
      · rename_i hr; rw [hr] at hb; exact hb
      · rename_i hr; rw [hr] at hb; exact hb

/-- After a successful run over a parameter of string value with a registry destination for the
key and over parameters that do not write the key, the key is bound to that string. -/
theorem patchObject_user_after_write_of_leavesKey (env : Env) (render : Renderer)
    (p : ConfigurationParameter) (mid : List ConfigurationParameter)
    (object object3 key s : String) (st st1 st3 : State)
    (hp : resolveTemplateParameter env render p st = (.ok (.string s), st1))
    (hdest : ∃ d ∈ p.Destinations, d.Registry = some key)
    (hrun : patchObject env render object (p :: mid) st = (.ok object3, st3))
    (hmid : ∀ q ∈ mid, LeavesKey env render key q) :
    st3.user key = some s := by
  obtain ⟨patches, entry1, object1, hd, hrest⟩ :=
    patchObject_cons_string_ok env _ p mid object object3 s st st1 st3 hp hrun
  have h1 : entry1.user.lookup key = some s :=
    patchDestinations_lookup_of_write p s key _ _ _ _ _ hd (Or.inr hdest)
  have h2 := patchObject_leavesKey env render key mid object1 { st1 with entry := entry1 } hmid
  rw [hrest] at h2
  rw [h2]
  exact h1

/-- C8, as stated, fails: in the template `visible` the parameter `password` binds `secret` to
the key `pw`, the parameter `nested` between it and `copy` has no registry destination at
all, and yet `copy`, which reads the key `pw`, resolves to `other`: the render of the template
`child`, which `nested` refers to, has bound the key again. -/
theorem nested_render_overwrites_registry_key :
    (∀ p ∈ visibleTemplate.Parameters.drop 1, NoWrite "pw" p) ∧
      resolveTemplateParameter overwriteEnv (renderTemplate overwriteEnv 1)
          ⟨"password", false, some ⟨some "secret", none, none, none⟩, none, [⟨some "pw", none⟩]⟩
          ⟨⟨none, [("pw", "old")]⟩, 0⟩ =
        (.ok (.string "secret"), ⟨⟨none, [("pw", "old")]⟩, 0⟩) ∧
      patchObject overwriteEnv (renderTemplate overwriteEnv 1) "\x7b\x7d"
          (visibleTemplate.Parameters.take 2) ⟨⟨none, [("pw", "old")]⟩, 0⟩ =
        (.ok "\x7b\x7d", ⟨⟨none, [("pw", "other"), ("pw", "secret"), ("pw", "old")]⟩, 0⟩) ∧
      resolveTemplateParameter overwriteEnv (renderTemplate overwriteEnv 1)
          ⟨"copy", true, none, some ⟨⟨some "pw", none⟩, none, none, none, none, none⟩,
            [⟨none, some "/pw"⟩]⟩
          ⟨⟨none, [("pw", "other"), ("pw", "secret"), ("pw", "old")]⟩, 0⟩ =
        (.ok (.string "other"),
          ⟨⟨none, [("pw", "other"), ("pw", "secret"), ("pw", "old")]⟩, 0⟩) ∧
      renderTemplate overwriteEnv 2 visibleTemplate ⟨⟨none, [("pw", "old")]⟩, 0⟩ =
        (.ok { visibleTemplate with Template := some ⟨some "\x7b\"pw\":\"other\"\x7d"⟩ },
          ⟨⟨none, [("pw", "other"), ("pw", "secret"), ("pw", "old")]⟩, 0⟩) := by
  refine ⟨?_, rfl, rfl, rfl, rfl⟩
  intro p hp
  simp [visibleTemplate] at hp
  rcases hp with hp | hp <;> subst hp <;> intro d hd <;> simp at hd
  subst hd
  simp

/-- C8, amended: within one run of `patchObject`, when a parameter resolves to the string `s`
and has a registry destination for `key`, and the parameters between it and a later parameter
`pj` are processed without writing `key` again, neither through a registry destination nor
through the nested render of a template source, then `pj`, whose source is the accessor of
the registry key `key`, resolves to `s` in the state the run has reached, whatever the entry
held for `key` before. -/
theorem registry_write_visible_to_later_parameter (env : Env) (depth : Nat)
    (pi pj : ConfigurationParameter) (pre mid post : List ConfigurationParameter)
    (bytes object object3 key s : String) (src : ConfigurationParameterSource)
    (st0 st st1 st3 : State)
    (hpre : patchObject env (renderTemplate env depth) bytes pre st0 = (.ok object, st))
    (hpi : resolveTemplateParameter env (renderTemplate env depth) pi st = (.ok (.string s), st1))
    (hdest : ∃ d ∈ pi.Destinations, d.Registry = some key)
    (hrun : patchObject env (renderTemplate env depth) object (pi :: mid) st = (.ok object3, st3))
    (hmid : ∀ q ∈ mid, LeavesKey env (renderTemplate env depth) key q)
    (hsrc : pj.Source = some src) (hacc : src.Accessor.Registry = some key) :
    patchObject env (renderTemplate env depth) bytes (pre ++ pi :: (mid ++ pj :: post)) st0 =
        patchObject env (renderTemplate env depth) object3 (pj :: post) st3 ∧
      resolveTemplateParameter env (renderTemplate env depth) pj st3 =
        (.ok (.string s), st3) := by
  have hk := patchObject_user_after_write_of_leavesKey env (renderTemplate env depth) pi mid
    object object3 key s st st1 st3 hpi hdest hrun hmid
  constructor
  · rw [patchObject_append, hpre]
    show patchObject env (renderTemplate env depth) object ((pi :: mid) ++ pj :: post) st = _
    rw [patchObject_append, hrun]
  · have hl : st3.entry.user.lookup key = some s := hk
    simp [resolveTemplateParameter, resolveSource, hsrc, hacc, Entry.GetUser, hl, Value.isNil,
      checkRequired]

/-- The parameter `nested` of the sample templates leaves the key `pw` alone where the
template `child` is the one that binds the key `note`. -/
theorem nested_leavesKey (templates : List ConfigurationTemplate)
    (h : getTemplate { sampleEnv with Templates := templates } "child" = .ok noteTemplate) :
    LeavesKey { sampleEnv with Templates := templates }
      (renderTemplate { sampleEnv with Templates := templates } 1) "pw"
      ⟨"nested", false, none, some ⟨⟨none, none⟩, none, none, none, none, some "child"⟩, []⟩ := by
  refine ⟨by intro d hd; simp at hd, ?_⟩
  apply sourceKeeps_of_render
  intro src name t hs hn hg st
  simp only [Option.some.injEq] at hs
  subst hs
  simp only [Option.some.injEq] at hn
  subst hn
  rw [h] at hg
  simp only [Except.ok.injEq] at hg
  subst hg
  apply renderTemplate_leavesKey
  intro p hp
  simp only [noteTemplate, List.mem_singleton] at hp
  subst hp
  refine ⟨by intro d hd; simp at hd; subst hd; simp, ?_⟩
  apply sourceKeeps_of_no_template
  intro src hsrc
  simp at hsrc

/-- C8, witness: in the configured template `visible` the parameter `password` writes its
default `secret` to the registry key `pw`, which held `old`; the parameter `nested` renders the
template `child`, which binds the key `note`; the parameter `copy` then reads the key `pw`. -/
theorem registry_write_visible_to_later_parameter_witness :
    patchObject visibleEnv (renderTemplate visibleEnv 1) "\x7b\x7d"
        ([] ++ (⟨"password", false, some ⟨some "secret", none, none, none⟩, none,
            [⟨some "pw", none⟩]⟩ : ConfigurationParameter) ::
          ([⟨"nested", false, none, some ⟨⟨none, none⟩, none, none, none, none, some "child"⟩,
              []⟩] ++
            (⟨"copy", true, none, some ⟨⟨some "pw", none⟩, none, none, none, none, none⟩,
              [⟨none, some "/pw"⟩]⟩ : ConfigurationParameter) :: []))
        ⟨⟨none, [("pw", "old")]⟩, 0⟩ =
        patchObject visibleEnv (renderTemplate visibleEnv 1) "\x7b\x7d"
          [⟨"copy", true, none, some ⟨⟨some "pw", none⟩, none, none, none, none, none⟩,
            [⟨none, some "/pw"⟩]⟩]
          ⟨⟨none, [("note", "x"), ("pw", "secret"), ("pw", "old")]⟩, 0⟩ ∧
      resolveTemplateParameter visibleEnv (renderTemplate visibleEnv 1)
        ⟨"copy", true, none, some ⟨⟨some "pw", none⟩, none, none, none, none, none⟩,
          [⟨none, some "/pw"⟩]⟩
        ⟨⟨none, [("note", "x"), ("pw", "secret"), ("pw", "old")]⟩, 0⟩ =
        (.ok (.string "secret"),
          ⟨⟨none, [("note", "x"), ("pw", "secret"), ("pw", "old")]⟩, 0⟩) :=
  registry_write_visible_to_later_parameter visibleEnv 1
    ⟨"password", false, some ⟨some "secret", none, none, none⟩, none, [⟨some "pw", none⟩]⟩
    ⟨"copy", true, none, some ⟨⟨some "pw", none⟩, none, none, none, none, none⟩,
      [⟨none, some "/pw"⟩]⟩
    [] [⟨"nested", false, none, some ⟨⟨none, none⟩, none, none, none, none, some "child"⟩, []⟩]
    [] "\x7b\x7d" "\x7b\x7d" "\x7b\x7d" "pw" "secret"
    ⟨⟨some "pw", none⟩, none, none, none, none, none⟩
    ⟨⟨none, [("pw", "old")]⟩, 0⟩ ⟨⟨none, [("pw", "old")]⟩, 0⟩ ⟨⟨none, [("pw", "old")]⟩, 0⟩
    ⟨⟨none, [("note", "x"), ("pw", "secret"), ("pw", "old")]⟩, 0⟩ rfl rfl
    ⟨⟨some "pw", none⟩, by simp, rfl⟩ rfl
    (by intro q hq; simp only [List.mem_singleton] at hq; subst hq;
        exact nested_leavesKey [visibleTemplate, noteTemplate] rfl)
    rfl rfl

/-- C9: registry writes are not rolled back.  When a parameter resolves to the string `s` and
has a registry destination for `key`, the parameters up to `pk` are processed without writing
`key` again, and the processing of `pk`, which does not write `key` either, fails, then
`patchObject` and `renderTemplate` fail with that error and the User namespace they leave
behind binds `key` to `s`, whatever the entry held for `key` before. -/
theorem registry_writes_survive_failure (env : Env) (depth : Nat)
    (pi pk : ConfigurationParameter) (pre mid post : List ConfigurationParameter)
    (name bytes object object3 key s : String) (err : Error) (st0 st st1 st3 st4 : State)
    (hpre : patchObject env (renderTemplate env depth) bytes pre st0 = (.ok object, st))
    (hpi : resolveTemplateParameter env (renderTemplate env depth) pi st = (.ok (.string s), st1))
    (hdest : ∃ d ∈ pi.Destinations, d.Registry = some key)
    (hrun : patchObject env (renderTemplate env depth) object (pi :: mid) st = (.ok object3, st3))
    (hmid : ∀ q ∈ mid, LeavesKey env (renderTemplate env depth) key q)
    (hpk : LeavesKey env (renderTemplate env depth) key pk)
    (hfail : patchObject env (renderTemplate env depth) object3 [pk] st3 = (.error err, st4)) :
    patchObject env (renderTemplate env depth) bytes (pre ++ pi :: (mid ++ pk :: post)) st0 =
        (.error err, st4) ∧
      renderTemplate env (depth + 1) ⟨name, some ⟨some bytes⟩, pre ++ pi :: (mid ++ pk :: post)⟩
        st0 = (.error err, st4) ∧
      st4.entry.GetUser key = .ok (some s) := by
  have hk := patchObject_user_after_write_of_leavesKey env (renderTemplate env depth) pi mid
    object object3 key s st st1 st3 hpi hdest hrun hmid
  have h1 : patchObject env (renderTemplate env depth) bytes
      (pre ++ pi :: (mid ++ pk :: post)) st0 = (.error err, st4) := by
    rw [patchObject_append, hpre]
    show patchObject env (renderTemplate env depth) object ((pi :: mid) ++ ([pk] ++ post)) st = _
    rw [patchObject_append, hrun]
    simp only
    rw [patchObject_append, hfail]
  refine ⟨h1, renderTemplate_of_patchObject_error env depth name bytes _ st0 st4 err h1, ?_⟩
  have h2 := patchObject_leavesKey env (renderTemplate env depth) key [pk] object3 st3
    (by intro q hq; simp at hq; subst hq; exact hpk)
  rw [hfail] at h2
  show Except.ok (st4.entry.user.lookup key) = _
  have h3 : st4.entry.user.lookup key = some s := by
    have : st4.user key = some s := by rw [h2]; exact hk
    exact this
  rw [h3]

/-- C9, witness: in the configured template `failing` the parameter `password` writes `secret`
to the key `pw`, the parameter `nested` renders the template `child`, and the required
parameter `size` that follows has no value. -/
theorem registry_writes_survive_failure_witness :
    patchObject failingEnv (renderTemplate failingEnv 1) "\x7b\x7d"
        ([] ++ (⟨"password", false, some ⟨some "secret", none, none, none⟩, none,
            [⟨some "pw", none⟩]⟩ : ConfigurationParameter) ::
          ([⟨"nested", false, none, some ⟨⟨none, none⟩, none, none, none, none, some "child"⟩,
              []⟩] ++
            (⟨"size", true, none, none, []⟩ : ConfigurationParameter) :: []))
        ⟨⟨none, [("pw", "old")]⟩, 0⟩ =
        (.error (.parameterError "source for parameter size is required"),
          ⟨⟨none, [("note", "x"), ("pw", "secret"), ("pw", "old")]⟩, 0⟩) ∧
      renderTemplate failingEnv (1 + 1) ⟨"failing", some ⟨some "\x7b\x7d"⟩,
        [] ++ (⟨"password", false, some ⟨some "secret", none, none, none⟩, none,
            [⟨some "pw", none⟩]⟩ : ConfigurationParameter) ::
          ([⟨"nested", false, none, some ⟨⟨none, none⟩, none, none, none, none, some "child"⟩,
              []⟩] ++
            (⟨"size", true, none, none, []⟩ : ConfigurationParameter) :: [])⟩
        ⟨⟨none, [("pw", "old")]⟩, 0⟩ =
        (.error (.parameterError "source for parameter size is required"),
          ⟨⟨none, [("note", "x"), ("pw", "secret"), ("pw", "old")]⟩, 0⟩) ∧
      Entry.GetUser ⟨none, [("note", "x"), ("pw", "secret"), ("pw", "old")]⟩ "pw" =
        .ok (some "secret") :=
  registry_writes_survive_failure failingEnv 1
    ⟨"password", false, some ⟨some "secret", none, none, none⟩, none, [⟨some "pw", none⟩]⟩
    ⟨"size", true, none, none, []⟩ []
    [⟨"nested", false, none, some ⟨⟨none, none⟩, none, none, none, none, some "child"⟩, []⟩] []
    "failing" "\x7b\x7d" "\x7b\x7d" "\x7b\x7d" "pw"
    "secret" (.parameterError "source for parameter size is required")
    ⟨⟨none, [("pw", "old")]⟩, 0⟩ ⟨⟨none, [("pw", "old")]⟩, 0⟩ ⟨⟨none, [("pw", "old")]⟩, 0⟩
    ⟨⟨none, [("note", "x"), ("pw", "secret"), ("pw", "old")]⟩, 0⟩
    ⟨⟨none, [("note", "x"), ("pw", "secret"), ("pw", "old")]⟩, 0⟩ rfl rfl
    ⟨⟨some "pw", none⟩, by simp, rfl⟩ rfl
    (by intro q hq; simp only [List.mem_singleton] at hq; subst hq;
        exact nested_leavesKey [failingTemplate, noteTemplate] rfl)
    ⟨by intro d hd; simp at hd,
      sourceKeeps_of_no_template _ _ _ _ (by intro src hsrc; simp at hsrc)⟩ rfl

/-! ## Numbers are decoded to `float64` -/

set_option maxRecDepth 8192 in
/-- The decoder at some numbers: a literal that is no `float64` is rounded to the nearest one,
a number comes back in the form `json.Marshal` writes for it, and a literal beyond the range of
`float64` is an error of the decoder; the decoder of documents keeps the literal. -/
theorem jsonUnmarshal_rounds_numbers :
    jsonUnmarshal "9007199254740993" =
        .ok (.number ⟨"9007199254740992".data, rfl⟩) ∧
      jsonUnmarshal "[1.0, 1e21, 1E-7, -0]" =
        .ok (.array [.number ⟨"1".data, rfl⟩, .number ⟨"1e+21".data, rfl⟩,
          .number ⟨"1e-7".data, rfl⟩, .number ⟨"-0".data, rfl⟩]) ∧
      jsonUnmarshal "1e400" =
        .error (.generic "json: cannot unmarshal number 1e400 into Go value of type float64") ∧
      jsonDecode "9007199254740993" = .ok (.number ⟨"9007199254740993".data, rfl⟩) :=
  ⟨rfl, rfl, rfl, rfl⟩

end Provisioners
